import Mathlib

/-! # mpw `toolbox/os.cpp`: a shallow embedding

The file-system trap handlers of the MPW emulator (`src/toolbox/os.cpp`)
translated into Lean definitions, followed by theorems about them.

Conventions.
* A `std::string` is the list of its bytes (`Str`), each byte a natural number
  below 256.
* `uint16_t`, `uint32_t`, `size_t` values are natural numbers reduced modulo
  `2^16`, `2^32`, `2^64` where the source truncates; `int` values are integers
  wrapped into the 32-bit signed range.
-/

namespace OS

/-! ## Bytes and strings -/

/-- A `std::string`: the sequence of its bytes. -/
abbrev Str := List Nat

/-- The bytes of a string literal of the source. -/
def lit (s : String) : Str := s.toList.map Char.toNat

/-- The `tolower` of `<cctype>` in the "C" locale: only `'A'..'Z'` are changed. -/
def tolower (c : Nat) : Nat := if 65 ≤ c ∧ c ≤ 90 then c + 32 else c

/-- The `toupper` of `<cctype>` in the "C" locale: only `'a'..'z'` are changed. -/
def toupper (c : Nat) : Nat := if 97 ≤ c ∧ c ≤ 122 then c - 32 else c

/-! ## Machine integers -/

/-- Conversion of an integer to `uint16_t`. -/
def u16 (x : Int) : Nat := (x % 65536).toNat

/-- Conversion of an integer to `size_t` (64 bits). -/
def toSizeT (x : Int) : Nat := (x % 2 ^ 64).toNat

/-- Conversion of an integer to `int` (32 bits, two's complement). -/
def toInt (x : Int) : Int := (x + 2 ^ 31) % 2 ^ 32 - 2 ^ 31

/-- The constant `std::string::npos`, the largest `size_t`. -/
def npos : Nat := 2 ^ 64 - 1

/-! ## `extension`, `IsTextFile`, `IsBinaryFile` (os.cpp 59-153) -/

/-- Index of the last byte of `s` that occurs in `chars`, if there is one. -/
def lastIndexOf (chars : Str) : Str → Option Nat
  | [] => none
  | c :: t =>
    match lastIndexOf chars t with
    | some i => some (i + 1)
    | none => if c ∈ chars then some 0 else none

/-- The call `s.find_last_of(chars)`: the index found, or `npos`. -/
def find_last_of (s chars : Str) : Nat := (lastIndexOf chars s).getD npos

/-- Function `extension` (os.cpp 59-78). `pos` is an `int`: the `size_t` result of
`find_last_of` is narrowed to 32 bits, and widened again to `size_t` in the
comparisons with `npos` and `length()`, in the subscript and in `substr`.
A subscript outside the string reads as `0` here. -/
def extension (s : Str) : Str :=
  let pos : Int := toInt (find_last_of s (lit "./:"))
  if toSizeT pos = npos then []
  else if s.getD (toSizeT pos) 0 ≠ 46 then []
  else
    let pos : Int := toInt (pos + 1)
    if toSizeT pos ≥ s.length then []
    else (s.drop (toSizeT pos)).map tolower

/-- Function `IsTextFile` (os.cpp 87-135): a `switch` on the first byte of the
extension, then a comparison with each known extension of that letter. -/
def IsTextFile (s : Str) : Bool :=
  let ext := extension s
  if ext.isEmpty then false
  else
    let c := ext.headD 0
    if c = 97 then
      if ext = lit "aii" then true
      else if ext = lit "asm" then true
      else false
    else if c = 99 then
      if ext = lit "c" then true else false
    else if c = 108 then
      if ext = lit "lst" then true else false
    else if c = 109 then
      if ext = lit "macros" then true else false
    else if c = 112 then
      if ext = lit "pii" then true else false
    else if c = 114 then
      if ext = lit "rii" then true else false
    else if c = 115 then
      if ext = lit "src" then true else false
    else false

/-- Function `IsBinaryFile` (os.cpp 138-153). -/
def IsBinaryFile (s : Str) : Bool :=
  let ext := extension s
  if ext.isEmpty then false
  else
    let c := ext.headD 0
    if c = 111 then
      if ext = lit "obj" then true else false
    else false

/-- One byte `d` is the byte `c` with its ASCII letter case possibly changed. -/
def caseVar (c d : Nat) : Bool := d = c || d = toupper c || d = tolower c

/-- The string `t` is `s` with the ASCII letter case of some bytes changed. -/
def caseVariant : Str → Str → Bool
  | [], [] => true
  | c :: s, d :: t => caseVar c d && caseVariant s t
  | _, _ => false

/-! ## Result codes and host error numbers -/

/-- The host error numbers of `<cerrno>` that os.cpp names. They are constants
of the host platform, kept as parameters of the model. -/
structure Errno where
  EBADF : Int
  EIO : Int
  EACCES : Int
  ENOENT : Int
  ENOTDIR : Int
  EISDIR : Int
  ENOTSUP : Int
  EROFS : Int
  EEXIST : Int
  EBUSY : Int
  EDQUOT : Int
  ENOSPC : Int

/-- The case labels of the `switch` in `errno_to_oserr`, in source order. -/
def Errno.labels (E : Errno) : List Int :=
  [0, E.EBADF, E.EIO, E.EACCES, E.ENOENT, E.ENOTDIR, E.EISDIR, E.ENOTSUP, E.EROFS, E.EEXIST,
    E.EBUSY, E.EDQUOT, E.ENOSPC]

/-- The values of `<sys/errno.h>` on Darwin, the host os.cpp is written for. -/
def darwin : Errno :=
  { EBADF := 9, EIO := 5, EACCES := 13, ENOENT := 2, ENOTDIR := 20, EISDIR := 21,
    ENOTSUP := 45, EROFS := 30, EEXIST := 17, EBUSY := 16, EDQUOT := 69, ENOSPC := 28 }

/-- The result-code vocabulary of `os.h`. The header is outside os.cpp: its
enumerators are parameters of the model. -/
structure OSErr where
  bdNamErr : Int
  fnfErr : Int
  dirNFErr : Int
  notAFileErr : Int
  extFSErr : Int
  wPrErr : Int
  dupFNErr : Int
  fBsyErr : Int
  dskFulErr : Int
  ioErr : Int
  permErr : Int
  rfNumErr : Int

/-- Modelled from the spec: `noErr=0`, the one enumerator of `os.h` whose value
the specification gives. -/
def noErr : Nat := 0

/-- The classic Mac OS File Manager values of the result codes. -/
def macOSErr : OSErr :=
  { bdNamErr := -37, fnfErr := -43, dirNFErr := -120, notAFileErr := -1302, extFSErr := -58,
    wPrErr := -44, dupFNErr := -48, fBsyErr := -47, dskFulErr := -34, ioErr := -36,
    permErr := -54, rfNumErr := -51 }

/-- Function `errno_to_oserr` (os.cpp 30-56). The result type is `uint16_t`. -/
def errno_to_oserr (E : Errno) (K : OSErr) (xerrno : Int) : Nat :=
  if xerrno = 0 then 0
  else if xerrno = E.EBADF then u16 K.rfNumErr
  else if xerrno = E.EIO then u16 K.ioErr
  else if xerrno = E.EACCES then u16 K.permErr
  else if xerrno = E.ENOENT then u16 K.fnfErr
  else if xerrno = E.ENOTDIR then u16 K.dirNFErr
  else if xerrno = E.EISDIR then u16 K.notAFileErr
  else if xerrno = E.ENOTSUP then u16 K.extFSErr
  else if xerrno = E.EROFS then u16 K.wPrErr
  else if xerrno = E.EEXIST then u16 K.dupFNErr
  else if xerrno = E.EBUSY then u16 K.fBsyErr
  else if xerrno = E.EDQUOT then u16 K.dskFulErr
  else if xerrno = E.ENOSPC then u16 K.dskFulErr
  else u16 K.ioErr

/-! ## Guest memory

The emulated address space and its accessors (`cpu/fmem.h`) are defined
outside os.cpp. -/

/-- Guest memory: the byte stored at each address. -/
abbrev Mem := Nat → Nat

/-- Modelled from the spec: the byte accessor of the emulated address space
(`memoryReadByte` of `cpu/fmem.h`). Addresses are 32-bit. -/
def memoryReadByte (mem : Mem) (address : Nat) : Nat := mem (address % 2 ^ 32) % 256

/-- Modelled from the spec: `memoryReadWord` of `cpu/fmem.h`, a 16-bit
big-endian read. -/
def memoryReadWord (mem : Mem) (address : Nat) : Nat :=
  memoryReadByte mem address * 256 + memoryReadByte mem (address + 1)

/-- Modelled from the spec: `memoryReadLong` of `cpu/fmem.h`, a 32-bit
big-endian read. -/
def memoryReadLong (mem : Mem) (address : Nat) : Nat :=
  memoryReadWord mem address * 65536 + memoryReadWord mem (address + 2)

/-- Modelled from the spec: `memoryWriteByte(data, address)` of `cpu/fmem.h`. -/
def memoryWriteByte (mem : Mem) (data address : Nat) : Mem :=
  fun a => if a = address % 2 ^ 32 then data % 256 else mem a

/-- Modelled from the spec: `memoryWriteWord(data, address)` of `cpu/fmem.h`,
a 16-bit big-endian write of `data` reduced modulo 2^16. -/
def memoryWriteWord (mem : Mem) (data address : Nat) : Mem :=
  memoryWriteByte (memoryWriteByte mem (data / 256) address) data (address + 1)

/-- Modelled from the spec: `memoryWriteLong(data, address)` of `cpu/fmem.h`,
a 32-bit big-endian write of `data` reduced modulo 2^32. -/
def memoryWriteLong (mem : Mem) (data address : Nat) : Mem :=
  memoryWriteWord (memoryWriteWord mem (data / 65536) address) data (address + 2)

/-- Copy of a host buffer into guest memory from `address` on:
`std::memcpy(memoryPointer(address), bytes, bytes.size)`. -/
def memoryWriteBytes (mem : Mem) : Str → Nat → Mem
  | [], _ => mem
  | b :: bs, address => memoryWriteBytes (memoryWriteByte mem b address) bs (address + 1)

/-- Modelled from the spec: `ToolBox::ReadString(address, length)` of
`toolbox.h`: the `length` bytes found from `address` on. The same bytes are what
`std::memcpy(buffer, memoryPointer(address), length)` copies. -/
def ReadString (mem : Mem) (address length : Nat) : Str :=
  (List.range length).map fun i => memoryReadByte mem (address + i)

/-- Modelled from the spec: `ToolBox::ReadPString` of `toolbox.h`, the
decoder of a PascalName, "a 1-byte length followed by that many bytes". -/
def ReadPString (mem : Mem) (address : Nat) : Str :=
  ReadString mem (address + 1) (memoryReadByte mem address)

/-- The call `s.c_str()` as a host function reads it: the bytes before the first NUL. -/
def c_str (s : Str) : Str := s.takeWhile fun c => c ≠ 0

/-! ## Host file system

The host calls `stat`, `fstat`, `open`, `close`, `unlink`, `getxattr` and
`setxattr` act on this model of the host: every path resolves either to a file
or to an error number, and every file carries at most one value of the
Finder-info attribute. A descriptor number is open when `fstat` on it
succeeds: `open` hands out the lowest free number and `close` frees it. -/

/-- What `stat` reports about a file, and its Finder-info attribute. -/
structure File where
  st_size : Nat
  st_birthtime : Int
  st_mtime : Int
  finderInfo : Option Str

/-- The host: files by path, open descriptors, and the refusals of the host. -/
structure HostFS where
  /-- Resolution of a path: the file, or the error number `stat` fails with. -/
  file : Str → Except Int File
  /-- What `fstat` reports for a descriptor number: `st_size`, or an error number. -/
  fdSize : Nat → Except Int Nat
  /-- A bound of the descriptor table: no descriptor number from here on is open. -/
  fdBound : Nat
  /-- Error number with which the host refuses to create this path, if it does. -/
  createErr : Str → Option Int
  /-- Error number with which the host refuses to unlink this path, if it does. -/
  unlinkErr : Str → Option Int
  /-- Error number with which the host refuses to set the attribute, if it does. -/
  setxattrErr : Str → Option Int
  /-- Time stamp the host gives to a file it creates. -/
  now : Int

/-- Host call `::stat(path, &st)`. -/
def stat (fs : HostFS) (path : Str) : Except Int File := fs.file path

/-- Host call `::fstat(fd, &st)`, as far as `st_size`. -/
def fstat (fs : HostFS) (fd : Nat) : Except Int Nat := fs.fdSize fd

/-- Host call `::getxattr(path, XATTR_FINDERINFO_NAME, buffer, size, 0, 0)`: the buffer
afterwards. The attribute is copied to the front of the buffer when there is
one and it fits; the buffer is left as it was otherwise. -/
def getxattr (fs : HostFS) (path : Str) (buffer : Str) : Str :=
  match fs.file path with
  | .error _ => buffer
  | .ok f =>
    match f.finderInfo with
    | none => buffer
    | some v => if v.length ≤ buffer.length then v ++ buffer.drop v.length else buffer

/-- Replacement of what one path resolves to. -/
def HostFS.put (fs : HostFS) (path : Str) (r : Except Int File) : HostFS :=
  { fs with file := fun p => if p = path then r else fs.file p }

/-- Host call `::setxattr(path, XATTR_FINDERINFO_NAME, value, size, 0, 0)`: the host
afterwards, or the error number. -/
def setxattr (fs : HostFS) (path : Str) (value : Str) : Except Int HostFS :=
  match fs.file path with
  | .error e => .error e
  | .ok f =>
    match fs.setxattrErr path with
    | some e => .error e
    | none => .ok (fs.put path (.ok { f with finderInfo := some value }))

/-- A descriptor number is free when `fstat` on it fails with `EBADF`. -/
def isFreeFd (E : Errno) (fs : HostFS) (fd : Nat) : Bool :=
  match fs.fdSize fd with
  | .error e => decide (e = E.EBADF)
  | .ok _ => false

/-- The descriptor number `open` hands out: the lowest one that is free. -/
def lowestFreeFd (E : Errno) (fs : HostFS) : Nat :=
  ((List.range fs.fdBound).find? fun fd => isFreeFd E fs fd).getD fs.fdBound

/-- Host call `::open(path, O_WRONLY | O_CREAT | O_EXCL, 0666)`: the descriptor it
returns and the host afterwards, or the error number. A path that resolves to
a file fails with `EEXIST`; the empty path names nothing and fails with
`ENOENT`; any other refusal of the host (no permission, no descriptor left) is
what `createErr` says. On success the path is an empty file and the descriptor
returned, the lowest free one, is open on it. -/
def open_creat_excl (E : Errno) (fs : HostFS) (path : Str) : Except Int (Nat × HostFS) :=
  match fs.file path with
  | .ok _ => .error E.EEXIST
  | .error e =>
    if e = E.ENOENT then
      if path = [] then .error E.ENOENT
      else
        match fs.createErr path with
        | some e' => .error e'
        | none =>
          let fd := lowestFreeFd E fs
          .ok (fd,
            { fs with
              file := fun p =>
                if p = path then
                  .ok { st_size := 0, st_birthtime := fs.now, st_mtime := fs.now,
                        finderInfo := none }
                else fs.file p,
              fdSize := fun d => if d = fd then .ok 0 else fs.fdSize d,
              fdBound := max fs.fdBound (fd + 1) })
    else .error e

/-- Host call `::close(fd)`: the host afterwards, the descriptor free again.
The handler does not look at what `close` returns. -/
def close (E : Errno) (fs : HostFS) (fd : Nat) : HostFS :=
  { fs with fdSize := fun d => if d = fd then .error E.EBADF else fs.fdSize d }

/-- Host call `::unlink(path)`: the host afterwards, or the error number. -/
def unlink (E : Errno) (fs : HostFS) (path : Str) : Except Int HostFS :=
  match fs.file path with
  | .error e => .error e
  | .ok _ =>
    match fs.unlinkErr path with
    | some e => .error e
    | none => .ok (fs.put path (.error E.ENOENT))

/-- The constant `_PATH_RSRCFORKSPEC` of `<sys/paths.h>`. -/
def _PATH_RSRCFORKSPEC : Str := lit "/..namedfork/rsrc"

/-! ## The emulated machine -/

/-- Everything a trap handler reads or changes: the CPU registers, guest
memory, the host file system, and the record of the stores into guest memory
made so far (address and width in bytes, oldest first). -/
structure World where
  aReg : Nat → Nat
  dReg : Nat → Nat
  mem : Mem
  fs : HostFS
  stores : List (Nat × Nat)

/-- The call `cpuGetAReg(i)`, a 32-bit register. -/
def cpuGetAReg (w : World) (i : Nat) : Nat := w.aReg i % 2 ^ 32

/-- The call `cpuGetDReg(i)`, a 32-bit register. -/
def cpuGetDReg (w : World) (i : Nat) : Nat := w.dReg i % 2 ^ 32

/-- A `memoryWriteByte` of the handler, recorded. -/
def World.writeByte (w : World) (data address : Nat) : World :=
  { w with mem := memoryWriteByte w.mem data address,
           stores := w.stores ++ [(address % 2 ^ 32, 1)] }

/-- A `memoryWriteWord` of the handler, recorded. -/
def World.writeWord (w : World) (data address : Nat) : World :=
  { w with mem := memoryWriteWord w.mem data address,
           stores := w.stores ++ [(address % 2 ^ 32, 2)] }

/-- A `memoryWriteLong` of the handler, recorded. -/
def World.writeLong (w : World) (data address : Nat) : World :=
  { w with mem := memoryWriteLong w.mem data address,
           stores := w.stores ++ [(address % 2 ^ 32, 4)] }

/-- A block copy into guest memory, recorded. -/
def World.writeBytes (w : World) (bytes : Str) (address : Nat) : World :=
  { w with mem := memoryWriteBytes w.mem bytes address,
           stores := w.stores ++ [(address % 2 ^ 32, bytes.length)] }

/-- Modelled from the spec: `ToolBox::WritePString(address, s)` of `toolbox.h`,
the encoder of a PascalName: the length byte, then the bytes. -/
def WritePString (w : World) (address : Nat) (s : Str) : World :=
  w.writeBytes (s.length % 256 :: s) address

/-- Conversion of an integer to `uint32_t`. -/
def u32 (x : Int) : Nat := (x % 2 ^ 32).toNat

/-- Reading of a 16-bit word as `int16_t`. -/
def toInt16 (x : Nat) : Int := if x % 65536 < 32768 then x % 65536 else (x % 65536 : Nat) - 65536

/-- How a handler ends: it returns a result code, or it ends the process. -/
inductive Outcome where
  | returned (d0 : Nat) (w : World)
  | exited (status : Nat) (w : World)

/-! ## The trap handlers (os.cpp 157-533)

`Log` and `fprintf` leave the modelled state alone and are left out. The
parameter block is at the address in register A0. -/

/-- Handler `OS::Create` (os.cpp 157-195). -/
def Create (E : Errno) (K : OSErr) (_trap : Nat) (w : World) : Nat × World :=
  let parm := cpuGetAReg w 0
  let namePtr := memoryReadLong w.mem (parm + 18)
  let sname := ReadPString w.mem namePtr
  if sname.length = 0 then
    (u16 K.bdNamErr, w.writeWord (u16 K.bdNamErr) (parm + 16))
  else
    match open_creat_excl E w.fs (c_str sname) with
    | .error e =>
      let d0 := errno_to_oserr E K e
      (d0 % 65536, w.writeWord d0 (parm + 16))
    | .ok (fd, fs') =>
      let fs'' := close E fs' fd
      let d0 := 0
      (d0 % 65536, { w with fs := fs'' }.writeWord d0 (parm + 16))

/-- Handler `OS::Delete` (os.cpp 197-228). -/
def Delete (E : Errno) (K : OSErr) (_trap : Nat) (w : World) : Nat × World :=
  let parm := cpuGetAReg w 0
  let namePtr := memoryReadLong w.mem (parm + 18)
  let sname := ReadPString w.mem namePtr
  if sname.length = 0 then
    (u16 K.bdNamErr, w.writeWord (u16 K.bdNamErr) (parm + 16))
  else
    match unlink E w.fs (c_str sname) with
    | .error e =>
      let d0 := errno_to_oserr E K e
      (d0 % 65536, w.writeWord d0 (parm + 16))
    | .ok fs' =>
      let d0 := 0
      (d0 % 65536, { w with fs := fs' }.writeWord d0 (parm + 16))

/-- Handler `OS::GetEOF` (os.cpp 230-259). -/
def GetEOF (E : Errno) (K : OSErr) (_trap : Nat) (w : World) : Nat × World :=
  let parm := cpuGetAReg w 0
  let ioRefNum := memoryReadWord w.mem (parm + 24)
  let r : Nat × Nat :=
    match fstat w.fs ioRefNum with
    | .error e => (errno_to_oserr E K e, 0)
    | .ok st_size => (0, st_size % 2 ^ 64)
  let d0 := r.1
  let size := r.2
  let w := w.writeWord d0 (parm + 16)
  let w := w.writeLong size (parm + 28)
  (d0 % 65536, w)

/-- Handler `OS::GetVol` (os.cpp 265-284). -/
def GetVol (_trap : Nat) (w : World) : Nat × World :=
  let parm := cpuGetAReg w 0
  let namePtr := memoryReadLong w.mem (parm + 18)
  let w := w.writeWord 0 (parm + 16)
  let w := w.writeWord 0 (parm + 22)
  let tmp := lit "MacOS"
  let w := WritePString w namePtr tmp
  (0, w)

/-- Handler `OS::GetFileInfo` (os.cpp 286-402). `UnixToMac` is `Time::UnixToMac` of
`mpw_time.h`, a conversion defined outside os.cpp and taken as a parameter. -/
def GetFileInfo (E : Errno) (K : OSErr) (UnixToMac : Int → Int) (_trap : Nat) (w : World) :
    Outcome :=
  let parm := cpuGetAReg w 0
  let ioNamePtr := memoryReadLong w.mem (parm + 18)
  let ioFDirIndex := toInt16 (memoryReadWord w.mem (parm + 28))
  if ioFDirIndex ≤ 0 then
    if ioNamePtr = 0 then
      .returned (u16 K.bdNamErr) (w.writeWord (u16 K.bdNamErr) (parm + 16))
    else
      let sname := ReadPString w.mem ioNamePtr
      match stat w.fs (c_str sname) with
      | .error e =>
        let d0 := errno_to_oserr E K e
        .returned d0 (w.writeWord d0 (parm + 16))
      | .ok st =>
        -- finder info
        let buffer : Str := List.replicate 32 0
        let buffer := getxattr w.fs (c_str sname) buffer
        let buffer := if IsTextFile sname then lit "TEXTMPS " ++ buffer.drop 8 else buffer
        let w := w.writeBytes (buffer.take 16) (parm + 32)
        -- file reference number, attributes, version, file id
        let w := w.writeWord 0 (parm + 24)
        let w := w.writeByte 0 (parm + 30)
        let w := w.writeByte 0 (parm + 31)
        let w := w.writeLong 0 (parm + 48)
        -- file size
        let w := w.writeWord 0 (parm + 52)
        let w := w.writeLong st.st_size (parm + 54)
        let w := w.writeLong st.st_size (parm + 58)
        -- create date, modification date
        let w := w.writeLong (u32 (UnixToMac st.st_birthtime)) (parm + 72)
        let w := w.writeLong (u32 (UnixToMac st.st_mtime)) (parm + 76)
        -- resource fork
        let sname := sname ++ _PATH_RSRCFORKSPEC
        let w :=
          match stat w.fs (c_str sname) with
          | .ok st =>
            let w := w.writeWord 0 (parm + 62)
            let w := w.writeLong st.st_size (parm + 64)
            w.writeLong st.st_size (parm + 68)
          | .error _ =>
            let w := w.writeWord 0 (parm + 62)
            let w := w.writeLong 0 (parm + 64)
            w.writeLong 0 (parm + 68)
        let w := w.writeWord 0 (parm + 16)
        .returned 0 w
  else
    .exited 1 w

/-- Handler `OS::SetFileInfo` (os.cpp 404-477). -/
def SetFileInfo (E : Errno) (K : OSErr) (_trap : Nat) (w : World) : Nat × World :=
  let parm := cpuGetAReg w 0
  let ioNamePtr := memoryReadLong w.mem (parm + 18)
  if ioNamePtr = 0 then
    (u16 K.bdNamErr, w.writeWord (u16 K.bdNamErr) (parm + 16))
  else
    let sname := ReadPString w.mem ioNamePtr
    match stat w.fs (c_str sname) with
    | .error e =>
      let d0 := errno_to_oserr E K e
      (d0, w.writeWord d0 (parm + 16))
    | .ok _ =>
      let buffer : Str := List.replicate 32 0
      let buffer := getxattr w.fs (c_str sname) buffer
      let buffer := ReadString w.mem (parm + 32) 16 ++ buffer.drop 16
      match setxattr w.fs (c_str sname) buffer with
      | .error e =>
        let d0 := errno_to_oserr E K e
        (d0, w.writeWord d0 (parm + 16))
      | .ok fs' =>
        let d0 := 0
        (d0, { w with fs := fs' }.writeWord d0 (parm + 16))

/-- The call `std::equal(a.begin(), a.end(), b.begin(), p)`: `p` on the bytes of `a`
and the bytes of `b` at the same positions, up to the first refusal. `b` is
as long as `a` wherever `CmpString` calls it; a `b` that ends early does not
compare equal here. -/
def std_equal (p : Nat → Nat → Bool) : Str → Str → Bool
  | [], _ => true
  | _ :: _, [] => false
  | x :: xs, y :: ys => if p x y then std_equal p xs ys else false

/-- Handler `OS::CmpString` (os.cpp 482-533). The strings are at the addresses in A0
and A1, their lengths in the two halves of D0. -/
def CmpString (trap : Nat) (w : World) : Nat :=
  let caseSens : Bool := (trap % 65536 / 512) % 2 ≠ 0
  let aStr := cpuGetAReg w 0
  let bStr := cpuGetAReg w 1
  let length := cpuGetDReg w 0
  let aLen := length / 65536
  let bLen := length % 65536
  let a := ReadString w.mem aStr aLen
  let b := ReadString w.mem bStr bLen
  if aLen ≠ bLen then 1
  else if aStr = bStr then 0
  else
    let eq := std_equal
      (fun a b =>
        if a = b then true
        else
          let a' := if ¬ caseSens then toupper a else a
          let b' := if ¬ caseSens then toupper b else b
          a' = b')
      a b
    if eq then 0 else 1

/-- The result code a handler returned, if it returned. -/
def Outcome.result : Outcome → Option Nat
  | .returned d0 _ => some d0
  | .exited _ _ => none

/-- The state a handler left behind. -/
def Outcome.world : Outcome → World
  | .returned _ w => w
  | .exited _ w => w

/-! ## Sample states -/

/-- A memory image: `bytes` from address `base` on, zero everywhere else. -/
def memOf (base : Nat) (bytes : Str) : Mem :=
  fun a => if base ≤ a then bytes.getD (a - base) 0 else 0

/-- A host without files and without open descriptors, on Darwin. -/
def emptyFS : HostFS :=
  { file := fun _ => .error 2, fdSize := fun _ => .error 9, fdBound := 0,
    createErr := fun _ => none,
    unlinkErr := fun _ => none, setxattrErr := fun _ => none, now := 0 }

/-- A machine with `a0`, `a1`, `d0` in the registers A0, A1, D0. -/
def mkWorld (a0 a1 d0 : Nat) (mem : Mem) (fs : HostFS) : World :=
  { aReg := fun i => if i = 0 then a0 else if i = 1 then a1 else 0,
    dReg := fun i => if i = 0 then d0 else 0,
    mem := mem, fs := fs, stores := [] }

/-- The string "ABC" at address 100 and "abc" at address 103, both of length 3. -/
def worldABC : World := mkWorld 100 103 (3 * 65536 + 3) (memOf 100 (lit "ABCabc")) emptyFS

/-- The string "AB" at address 100 and "ABC" at address 102: lengths 2 and 3. -/
def worldAB : World := mkWorld 100 102 (2 * 65536 + 3) (memOf 100 (lit "ABABC")) emptyFS

/-- Memory `mem` with `bytes` laid over it from address `base` on. -/
def overlay (base : Nat) (bytes : Str) (mem : Mem) : Mem :=
  fun a => if base ≤ a ∧ a < base + bytes.length then bytes.getD (a - base) 0 else mem a

/-- A parameter block: name pointer `namePtr` at offset 18, directory index
`dirIndex` at offset 28, the 16 bytes `finfo` at offset 32, zero elsewhere. -/
def paramBlock (namePtr dirIndex : Nat) (finfo : Str) : Str :=
  List.replicate 18 0 ++
  [namePtr / 16777216 % 256, namePtr / 65536 % 256, namePtr / 256 % 256, namePtr % 256] ++
  List.replicate 6 0 ++ [dirIndex / 256 % 256, dirIndex % 256] ++ [0, 0] ++ finfo.take 16

/-- A host whose only file is `path`, with the given `stat` data and attribute. -/
def hostWith (path : Str) (f : File) : HostFS := emptyFS.put path (.ok f)

/-- A block at address 1000 naming the empty PascalName at address 2000. -/
def worldEmptyName : World :=
  mkWorld 1000 0 0 (overlay 1000 (paramBlock 2000 0 []) (memOf 2000 [0])) emptyFS

/-- A block at address 1000 whose name pointer is null. -/
def worldNullName : World :=
  mkWorld 1000 0 0 (overlay 1000 (paramBlock 0 0 []) (memOf 2000 [0])) emptyFS

/-- A block at address 1000 with Finder info 1, 2, .., 16, naming "a.c" (at
address 2000), on a host where "a.c" is a file of 5 bytes with no attribute. -/
def worldDotC : World :=
  mkWorld 1000 0 0
    (overlay 1000 (paramBlock 2000 0 (List.range' 1 16)) (memOf 2000 (3 :: lit "a.c")))
    (hostWith (lit "a.c")
      { st_size := 5, st_birthtime := 1000, st_mtime := 2000, finderInfo := none })

/-- As `worldDotC`, for the name "a.o". -/
def worldDotO : World :=
  mkWorld 1000 0 0
    (overlay 1000 (paramBlock 2000 0 (List.range' 1 16)) (memOf 2000 (3 :: lit "a.o")))
    (hostWith (lit "a.o")
      { st_size := 5, st_birthtime := 1000, st_mtime := 2000, finderInfo := none })

/-! ## Further sample states and measures -/

/-- A host without files on which the descriptors 0, 1 and 2 are open. -/
def stdioFS : HostFS :=
  { emptyFS with fdSize := fun fd => if fd < 3 then .ok 0 else .error 9, fdBound := 3 }

/-- A block at address 1000 naming "new" (at address 2000), on a host without
files on which the descriptors 0, 1 and 2 are open. -/
def worldFresh : World :=
  mkWorld 1000 0 0 (overlay 1000 (paramBlock 2000 0 []) (memOf 2000 (3 :: lit "new"))) stdioFS

/-- A block at address 1000 naming the PascalName of length 1 whose one byte is
NUL (at address 2000), on the same host. -/
def worldNulName : World :=
  mkWorld 1000 0 0 (overlay 1000 (paramBlock 2000 0 []) (memOf 2000 [1, 0])) stdioFS

/-- A block at address 1000 whose descriptor number (offset 24) is `fd`. -/
def blockWithFd (fd : Nat) : Str := List.replicate 24 0 ++ [fd / 256 % 256, fd % 256]

/-- A block at address 1000 naming descriptor 3, on a host where descriptor 3
is a file of 2^32 + 7 bytes and no other descriptor is open. -/
def worldFd : World :=
  mkWorld 1000 0 0 (overlay 1000 (blockWithFd 3) (memOf 0 []))
    { emptyFS with fdSize := fun fd => if fd = 3 then .ok (2 ^ 32 + 7) else .error 9,
                   fdBound := 4 }

/-- The size `stat` reported, 0 when `stat` failed. -/
def sizeOrZero (r : Except Int File) : Nat :=
  match r with
  | .ok st => st.st_size
  | .error _ => 0

/-- As `worldDotC`, on a host where "a.c" also has a resource fork of 9 bytes. -/
def worldRsrc : World :=
  mkWorld 1000 0 0
    (overlay 1000 (paramBlock 2000 0 (List.range' 1 16)) (memOf 2000 (3 :: lit "a.c")))
    ((hostWith (lit "a.c")
      { st_size := 5, st_birthtime := 1000, st_mtime := 2000, finderInfo := none }).put
      (lit "a.c/..namedfork/rsrc")
      (.ok { st_size := 9, st_birthtime := 1000, st_mtime := 2000, finderInfo := none }))

/-- A block at address 1000 with directory index 1, naming "a.c". -/
def worldIndexed : World :=
  mkWorld 1000 0 0
    (overlay 1000 (paramBlock 2000 1 (List.range' 1 16)) (memOf 2000 (3 :: lit "a.c")))
    (hostWith (lit "a.c")
      { st_size := 5, st_birthtime := 1000, st_mtime := 2000, finderInfo := none })

/-- A block at address 1000 with directory index 0xFFFF (-1), naming "new",
on a host without files. -/
def worldMinusOne : World :=
  mkWorld 1000 0 0
    (overlay 1000 (paramBlock 2000 65535 (List.range' 1 16)) (memOf 2000 (3 :: lit "new")))
    emptyFS

/-- The state `w` with `a0`, `a1`, `d0` put in the registers A0, A1, D0. -/
def setRegs (w : World) (a0 a1 d0 : Nat) : World :=
  { w with aReg := fun i => if i = 0 then a0 else if i = 1 then a1 else w.aReg i,
           dReg := fun i => if i = 0 then d0 else w.dReg i }

/-- The byte that stands for `c` in a comparison by `CmpString`: `c` itself in
case-sensitive mode, its ASCII uppercase otherwise. -/
def foldByte (caseSens : Bool) (c : Nat) : Nat := if caseSens then c else toupper c

/-- Number of 16-bit stores at the result field (offset 16 of the block at A0
of `w`) among the stores made from the state `w` to the state `after`. -/
def resultStores (w after : World) : Nat :=
  (after.stores.drop w.stores.length).count ((cpuGetAReg w 0 + 16) % 2 ^ 32, 2)

/-- No call of the host fails with error number 0. -/
def HostFS.errnoNonzero (fs : HostFS) : Prop :=
  (∀ p, fs.file p ≠ .error 0) ∧ (∀ fd, fs.fdSize fd ≠ .error 0) ∧
  (∀ p, fs.createErr p ≠ some 0) ∧ (∀ p, fs.unlinkErr p ≠ some 0) ∧
  (∀ p, fs.setxattrErr p ≠ some 0)

/-- A block at address 1000 whose name pointer leads to address 2000, on a host
without files. -/
def worldVol : World :=
  mkWorld 1000 0 0 (overlay 1000 (paramBlock 2000 0 []) (memOf 0 [])) emptyFS

/-! ## Lemmas on `extension` -/

theorem lit_sep : lit "./:" = [46, 47, 58] := by decide

theorem lastIndexOf_none (chars s : Str) :
    lastIndexOf chars s = none ↔ ∀ c ∈ s, c ∉ chars := by
  induction s with
  | nil => simp [lastIndexOf]
  | cons c t ih =>
    simp only [lastIndexOf, List.mem_cons, forall_eq_or_imp]
    cases h : lastIndexOf chars t with
    | none =>
      have := ih.mp h
      by_cases hc : c ∈ chars
      · simp [hc]
      · simpa [hc] using this
    | some i =>
      simp only [reduceCtorEq, false_iff, not_and]
      intro _ hall
      rw [ih.mpr hall] at h
      exact absurd h (by simp)

theorem lastIndexOf_append (chars pre suf : Str) (c : Nat) (hc : c ∈ chars)
    (hsuf : ∀ d ∈ suf, d ∉ chars) :
    lastIndexOf chars (pre ++ c :: suf) = some pre.length := by
  induction pre with
  | nil => simp [lastIndexOf, (lastIndexOf_none chars suf).mpr hsuf, hc]
  | cons p pre ih => simp [lastIndexOf, ih]

theorem lastIndexOf_some (chars s : Str) (i : Nat) (h : lastIndexOf chars s = some i) :
    ∃ pre c suf, s = pre ++ c :: suf ∧ pre.length = i ∧ c ∈ chars ∧ ∀ d ∈ suf, d ∉ chars := by
  induction s generalizing i with
  | nil => simp [lastIndexOf] at h
  | cons a t ih =>
    simp only [lastIndexOf] at h
    cases ht : lastIndexOf chars t with
    | none =>
      rw [ht] at h
      by_cases ha : a ∈ chars
      · simp only [ha, if_true, Option.some.injEq] at h
        exact ⟨[], a, t, rfl, by simpa using h, ha, (lastIndexOf_none chars t).mp ht⟩
      · simp [ha] at h
    | some j =>
      rw [ht] at h
      simp only [Option.some.injEq] at h
      obtain ⟨pre, c, suf, hs, hl, hc, hsuf⟩ := ih j ht
      exact ⟨a :: pre, c, suf, by simp [hs], by simp [hl, h], hc, hsuf⟩

theorem toInt_small (i : Nat) (h : i < 2 ^ 31) : toInt (i : Int) = i := by
  unfold toInt; omega

theorem toSizeT_small (i : Nat) (h : i < 2 ^ 64) : toSizeT (i : Int) = i := by
  unfold toSizeT; omega

/-- On a name that an `int` can index, `extension` is the plain computation on
the position of the last separator. -/
theorem extension_of_short (s : Str) (hlen : s.length < 2 ^ 31) :
    extension s =
      match lastIndexOf (lit "./:") s with
      | none => []
      | some i =>
        if s.getD i 0 ≠ 46 then [] else
        if i + 1 ≥ s.length then [] else (s.drop (i + 1)).map tolower := by
  unfold extension find_last_of
  cases h : lastIndexOf (lit "./:") s with
  | none => simp [npos, toInt, toSizeT]
  | some i =>
    obtain ⟨pre, c, suf, hs, hl, -, -⟩ := lastIndexOf_some _ _ _ h
    have hi : i < s.length := by
      have : s.length = pre.length + 1 + suf.length := by simp [hs]; omega
      omega
    have h1 : toInt ((i : Nat) : Int) = i := toInt_small i (by omega)
    have h2 : toSizeT ((i : Nat) : Int) = i := toSizeT_small i (by omega)
    have h3 : toInt ((i : Int) + 1) = ((i + 1 : Nat) : Int) := by
      have := toInt_small (i + 1) (by omega)
      simpa using this
    have h4 : toSizeT ((i + 1 : Nat) : Int) = i + 1 := toSizeT_small (i + 1) (by omega)
    have h5 : i ≠ npos := by unfold npos; omega
    simp only [Option.getD_some, h1, h2, h3, h4, h5, if_false]

theorem extension_nil_of_sepfree (s : Str) (h : ∀ c ∈ s, c ∉ lit "./:") :
    extension s = [] := by
  unfold extension find_last_of
  rw [(lastIndexOf_none _ s).mpr h]
  simp [npos, toInt, toSizeT]

theorem extension_append (pre suf : Str) (c : Nat) (hc : c ∈ lit "./:")
    (hsuf : ∀ d ∈ suf, d ∉ lit "./:") (hlen : (pre ++ c :: suf).length < 2 ^ 31) :
    extension (pre ++ c :: suf) =
      if c ≠ 46 then [] else if suf = [] then [] else suf.map tolower := by
  rw [extension_of_short _ hlen, lastIndexOf_append _ pre suf c hc hsuf]
  have hget : (pre ++ c :: suf).getD pre.length 0 = c := by
    rw [List.getD_eq_getElem?_getD, List.getElem?_append_right (le_refl _)]
    simp
  have hdrop : (pre ++ c :: suf).drop (pre.length + 1) = suf := by
    rw [List.drop_append_eq_append_drop]
    simp
  simp only [hget, hdrop]
  by_cases h46 : c = 46
  · by_cases hnil : suf = []
    · simp [h46, hnil]
    · subst h46
      have : ¬ (pre.length + 1 ≥ (pre ++ 46 :: suf).length) := by
        have : 0 < suf.length := List.length_pos.mpr hnil
        simp only [List.length_append, List.length_cons]; omega
      simp only [ne_eq, not_true_eq_false, if_false, this, hnil]
  · simp [h46]

theorem tolower_not_sep (c : Nat) (h : c ∉ lit "./:") : tolower c ∉ lit "./:" := by
  rw [lit_sep] at *
  unfold tolower
  simp only [List.mem_cons, List.mem_singleton, List.not_mem_nil, or_false, not_or] at *
  split <;> omega

theorem isTextFile_of_nil (s : Str) (h : extension s = []) : IsTextFile s = false := by
  simp [IsTextFile, h]

theorem isBinaryFile_of_nil (s : Str) (h : extension s = []) : IsBinaryFile s = false := by
  simp [IsBinaryFile, h]

/-! ## C10: what `extension` computes -/

/-- C10. For every name `s` (a name that `int pos` can index: shorter than
2^31 bytes), `extension s` is empty exactly when `s` contains none of `.`, `/`,
`:`, or the last of these characters in `s` is not `.`, or that last `.` is the
final byte; otherwise it is the ASCII-lowercased text after the last `.`,
non-empty and free of `.`, `/`, `:`. Whenever `extension s` is empty (as for
"foo", "foo.", "dir.c/foo", "vol.asm:foo") both classifiers answer false. -/
theorem C10_extension_spec (s : Str) (hlen : s.length < 2 ^ 31) :
    (extension s = [] ↔
      ((∀ c ∈ s, c ∉ lit "./:") ∨
       ∃ pre c suf, s = pre ++ c :: suf ∧ c ∈ lit "./:" ∧ (∀ d ∈ suf, d ∉ lit "./:") ∧
         (c ≠ 46 ∨ suf = []))) ∧
    (∀ pre suf, s = pre ++ 46 :: suf → (∀ d ∈ suf, d ∉ lit "./:") → suf ≠ [] →
      extension s = suf.map tolower ∧ extension s ≠ [] ∧
        ∀ d ∈ extension s, d ∉ lit "./:") ∧
    (extension s = [] → IsTextFile s = false ∧ IsBinaryFile s = false) ∧
    (extension (lit "foo") = [] ∧ extension (lit "foo.") = [] ∧
      extension (lit "dir.c/foo") = [] ∧ extension (lit "vol.asm:foo") = []) := by
  refine ⟨⟨?_, ?_⟩, ?_, ?_, ?_⟩
  · intro h
    cases hl : lastIndexOf (lit "./:") s with
    | none => exact Or.inl ((lastIndexOf_none _ s).mp hl)
    | some i =>
      obtain ⟨pre, c, suf, hs, -, hc, hsuf⟩ := lastIndexOf_some _ _ _ hl
      refine Or.inr ⟨pre, c, suf, hs, hc, hsuf, ?_⟩
      subst hs
      rw [extension_append pre suf c hc hsuf hlen] at h
      by_cases h46 : c = 46
      · right
        by_contra hnil
        simp [h46, hnil] at h
      · exact Or.inl h46
  · rintro (h | ⟨pre, c, suf, hs, hc, hsuf, h⟩)
    · exact extension_nil_of_sepfree s h
    · subst hs
      rw [extension_append pre suf c hc hsuf hlen]
      rcases h with h | h
      · simp [h]
      · simp [h]
  · intro pre suf hs hsuf hnil
    subst hs
    have hc : (46 : Nat) ∈ lit "./:" := by decide
    have hext := extension_append pre suf 46 hc hsuf hlen
    simp only [ne_eq, not_true_eq_false, if_false, hnil] at hext
    refine ⟨hext, ?_, ?_⟩
    · rw [hext]; simpa using hnil
    · rw [hext]
      intro d hd
      obtain ⟨e, he, rfl⟩ := List.mem_map.mp hd
      exact tolower_not_sep e (hsuf e he)
  · intro h
    exact ⟨isTextFile_of_nil s h, isBinaryFile_of_nil s h⟩
  · decide

/-- C10, at the name "archive.tar.GZ": the extension is "gz". -/
theorem C10_extension_spec_witness :
    (lit "archive.tar.GZ").length < 2 ^ 31 ∧
    extension (lit "archive.tar.GZ") = (lit "GZ").map tolower ∧
    extension (lit "archive.tar.GZ") = lit "gz" :=
  ⟨by decide,
   ((C10_extension_spec (lit "archive.tar.GZ") (by decide)).2.1
      (lit "archive.tar") (lit "GZ") (by decide) (by decide) (by decide)).1,
   by decide⟩

/-! ## C8: the two allow-lists -/

theorem isText_of_ext (e : Str) :
    ((if e.isEmpty then false
      else
        let c := e.headD 0
        if c = 97 then
          if e = lit "aii" then true
          else if e = lit "asm" then true
          else false
        else if c = 99 then
          if e = lit "c" then true else false
        else if c = 108 then
          if e = lit "lst" then true else false
        else if c = 109 then
          if e = lit "macros" then true else false
        else if c = 112 then
          if e = lit "pii" then true else false
        else if c = 114 then
          if e = lit "rii" then true else false
        else if c = 115 then
          if e = lit "src" then true else false
        else false) = true) ↔
    e ∈ [lit "aii", lit "asm", lit "c", lit "lst", lit "macros", lit "pii", lit "rii",
          lit "src"] := by
  have l1 : lit "aii" = [97, 105, 105] := by decide
  have l2 : lit "asm" = [97, 115, 109] := by decide
  have l3 : lit "c" = [99] := by decide
  have l4 : lit "lst" = [108, 115, 116] := by decide
  have l5 : lit "macros" = [109, 97, 99, 114, 111, 115] := by decide
  have l6 : lit "pii" = [112, 105, 105] := by decide
  have l7 : lit "rii" = [114, 105, 105] := by decide
  have l8 : lit "src" = [115, 114, 99] := by decide
  rw [l1, l2, l3, l4, l5, l6, l7, l8]
  rcases e with _ | ⟨c, t⟩
  · simp
  · simp only [List.isEmpty_cons, Bool.false_eq_true, if_false, List.headD_cons, List.mem_cons,
      List.cons.injEq, List.mem_singleton, List.not_mem_nil, or_false]
    split_ifs <;> simp_all

theorem isBinary_of_ext (e : Str) :
    ((if e.isEmpty then false
      else
        let c := e.headD 0
        if c = 111 then
          if e = lit "obj" then true else false
        else false) = true) ↔ e = lit "obj" := by
  have l1 : lit "obj" = [111, 98, 106] := by decide
  rw [l1]
  rcases e with _ | ⟨c, t⟩
  · simp
  · simp only [List.isEmpty_cons, Bool.false_eq_true, if_false, List.headD_cons, List.cons.injEq]
    split_ifs <;> simp_all

/-- C8. For every name `s`: `IsTextFile s` is true if and only if `extension s`
is one of "aii", "asm", "c", "lst", "macros", "pii", "rii", "src"; `IsBinaryFile s`
is true if and only if `extension s` is "obj"; no name is both text and binary. -/
theorem C8_classifier_allow_lists (s : Str) :
    (IsTextFile s = true ↔
      extension s ∈ [lit "aii", lit "asm", lit "c", lit "lst", lit "macros", lit "pii",
        lit "rii", lit "src"]) ∧
    (IsBinaryFile s = true ↔ extension s = lit "obj") ∧
    ¬ (IsTextFile s = true ∧ IsBinaryFile s = true) := by
  have ht : IsTextFile s = true ↔
      extension s ∈ [lit "aii", lit "asm", lit "c", lit "lst", lit "macros", lit "pii",
        lit "rii", lit "src"] := isText_of_ext (extension s)
  have hb : IsBinaryFile s = true ↔ extension s = lit "obj" := isBinary_of_ext (extension s)
  refine ⟨ht, hb, ?_⟩
  rintro ⟨h1, h2⟩
  have h1 := ht.mp h1
  rw [hb.mp h2] at h1
  revert h1
  decide

/-! ## C9: the classifiers ignore letter case -/

theorem caseVar_sep (c d : Nat) (h : caseVar c d = true) :
    (d ∈ lit "./:" ↔ c ∈ lit "./:") := by
  rw [lit_sep]
  simp only [caseVar, toupper, tolower, Bool.or_eq_true, decide_eq_true_eq] at h
  simp only [List.mem_cons, List.mem_singleton, List.not_mem_nil, or_false]
  split_ifs at h <;> omega

theorem caseVar_dot (c d : Nat) (h : caseVar c d = true) : (d = 46 ↔ c = 46) := by
  simp only [caseVar, toupper, tolower, Bool.or_eq_true, decide_eq_true_eq] at h
  split_ifs at h <;> omega

theorem caseVar_tolower (c d : Nat) (h : caseVar c d = true) : tolower d = tolower c := by
  simp only [caseVar, toupper, Bool.or_eq_true, decide_eq_true_eq] at h
  unfold tolower at *
  split_ifs at h ⊢ <;> omega

theorem caseVar_refl (c : Nat) : caseVar c c = true := by simp [caseVar]

theorem caseVariant_refl (s : Str) : caseVariant s s = true := by
  induction s with
  | nil => rfl
  | cons c s ih => simp [caseVariant, caseVar_refl, ih]

theorem caseVariant_append (p s t : Str) (h : caseVariant s t = true) :
    caseVariant (p ++ s) (p ++ t) = true := by
  induction p with
  | nil => simpa using h
  | cons c p ih => simp [caseVariant, caseVar_refl, ih]

theorem caseVariant_length (s t : Str) (h : caseVariant s t = true) : t.length = s.length := by
  induction s generalizing t with
  | nil => cases t <;> simp_all [caseVariant]
  | cons c s ih =>
    cases t with
    | nil => simp [caseVariant] at h
    | cons d t =>
      simp only [caseVariant, Bool.and_eq_true] at h
      simp [ih t h.2]

theorem caseVariant_lastIndexOf (s t : Str) (h : caseVariant s t = true) :
    lastIndexOf (lit "./:") t = lastIndexOf (lit "./:") s := by
  induction s generalizing t with
  | nil => cases t <;> simp_all [caseVariant]
  | cons c s ih =>
    cases t with
    | nil => simp [caseVariant] at h
    | cons d t =>
      simp only [caseVariant, Bool.and_eq_true] at h
      simp only [lastIndexOf, ih t h.2, caseVar_sep c d h.1]

theorem caseVariant_getD (s t : Str) (h : caseVariant s t = true) (i : Nat) :
    (t.getD i 0 = 46 ↔ s.getD i 0 = 46) := by
  induction s generalizing t i with
  | nil => cases t <;> simp_all [caseVariant]
  | cons c s ih =>
    cases t with
    | nil => simp [caseVariant] at h
    | cons d t =>
      simp only [caseVariant, Bool.and_eq_true] at h
      cases i with
      | zero => simpa using caseVar_dot c d h.1
      | succ i => simpa using ih t h.2 i

theorem caseVariant_map_tolower (s t : Str) (h : caseVariant s t = true) :
    t.map tolower = s.map tolower := by
  induction s generalizing t with
  | nil => cases t <;> simp_all [caseVariant]
  | cons c s ih =>
    cases t with
    | nil => simp [caseVariant] at h
    | cons d t =>
      simp only [caseVariant, Bool.and_eq_true] at h
      simp [ih t h.2, caseVar_tolower c d h.1]

/-- Changing letter case anywhere in a name leaves its extension unchanged. -/
theorem extension_caseVariant (s t : Str) (h : caseVariant s t = true) :
    extension t = extension s := by
  unfold extension find_last_of
  simp only [caseVariant_lastIndexOf s t h, caseVariant_length s t h, List.map_drop,
    caseVariant_map_tolower s t h, ne_eq, caseVariant_getD s t h]

/-- C9. `IsTextFile` and `IsBinaryFile` are case-insensitive on the extension: for
a name `pre ++ "." ++ suf` and a name `pre ++ "." ++ suf'` obtained by changing
the ASCII letter case of bytes of `suf`, the text after the `.` shown (which may
be any `.` of the name, the last one in particular), both classifiers answer the
same on the two names. "x.C", "x.ASM", "x.Obj" classify as "x.c", "x.asm",
"x.obj" do. -/
theorem C9_classifiers_case_insensitive (pre suf suf' : Str)
    (hvar : caseVariant suf suf' = true) :
    IsTextFile (pre ++ 46 :: suf') = IsTextFile (pre ++ 46 :: suf) ∧
    IsBinaryFile (pre ++ 46 :: suf') = IsBinaryFile (pre ++ 46 :: suf) ∧
    IsTextFile (lit "x.C") = IsTextFile (lit "x.c") ∧
    IsTextFile (lit "x.ASM") = IsTextFile (lit "x.asm") ∧
    IsBinaryFile (lit "x.Obj") = IsBinaryFile (lit "x.obj") := by
  have hv : caseVariant (pre ++ 46 :: suf) (pre ++ 46 :: suf') = true :=
    caseVariant_append pre _ _ (by simp [caseVariant, caseVar_refl, hvar])
  have he := extension_caseVariant _ _ hv
  refine ⟨?_, ?_, by decide, by decide, by decide⟩
  · simp only [IsTextFile, he]
  · simp only [IsBinaryFile, he]

/-- C9, at "main.PiI" against "main.pii": both are text, neither is binary. -/
theorem C9_classifiers_case_insensitive_witness :
    caseVariant (lit "pii") (lit "PiI") = true ∧
    IsTextFile (lit "main" ++ 46 :: lit "PiI") = IsTextFile (lit "main" ++ 46 :: lit "pii") ∧
    IsTextFile (lit "main.PiI") = true :=
  ⟨by decide,
   (C9_classifiers_case_insensitive (lit "main") (lit "pii") (lit "PiI") (by decide)).1,
   by decide⟩

/-! ## C6: the error translator -/

/-- C6. `errno_to_oserr` is a total function of its argument alone. Whenever the
case labels of its `switch` are pairwise distinct (C++ accepts no other
`switch`), it maps 0 to `noErr`, `EBADF` to `rfNumErr`, `EIO` to `ioErr`, `EACCES`
to `permErr`, `ENOENT` to `fnfErr`, `ENOTDIR` to `dirNFErr`, `EISDIR` to
`notAFileErr`, `ENOTSUP` to `extFSErr`, `EROFS` to `wPrErr`, `EEXIST` to `dupFNErr`,
`EBUSY` to `fBsyErr`, `EDQUOT` and `ENOSPC` to `dskFulErr`, and every other value
to `ioErr`; each code is returned as the `uint16_t` it converts to. -/
theorem C6_errno_to_oserr_table (E : Errno) (K : OSErr) (hE : E.labels.Nodup) :
    errno_to_oserr E K 0 = noErr ∧
    errno_to_oserr E K E.EBADF = u16 K.rfNumErr ∧
    errno_to_oserr E K E.EIO = u16 K.ioErr ∧
    errno_to_oserr E K E.EACCES = u16 K.permErr ∧
    errno_to_oserr E K E.ENOENT = u16 K.fnfErr ∧
    errno_to_oserr E K E.ENOTDIR = u16 K.dirNFErr ∧
    errno_to_oserr E K E.EISDIR = u16 K.notAFileErr ∧
    errno_to_oserr E K E.ENOTSUP = u16 K.extFSErr ∧
    errno_to_oserr E K E.EROFS = u16 K.wPrErr ∧
    errno_to_oserr E K E.EEXIST = u16 K.dupFNErr ∧
    errno_to_oserr E K E.EBUSY = u16 K.fBsyErr ∧
    errno_to_oserr E K E.EDQUOT = u16 K.dskFulErr ∧
    errno_to_oserr E K E.ENOSPC = u16 K.dskFulErr ∧
    ∀ x : Int, x ∉ E.labels → errno_to_oserr E K x = u16 K.ioErr := by
  simp only [Errno.labels, List.nodup_cons, List.mem_cons, List.mem_singleton, not_or,
    List.not_mem_nil, not_false_eq_true, List.nodup_nil, and_true] at hE
  obtain ⟨h0, h1, h2, h3, h4, h5, h6, h7, h8, h9, h10, h11⟩ := hE
  refine ⟨rfl, ?_, ?_, ?_, ?_, ?_, ?_, ?_, ?_, ?_, ?_, ?_, ?_, ?_⟩
  all_goals first
    | (intro x hx
       simp only [Errno.labels, List.mem_cons, List.mem_singleton, not_or,
         List.not_mem_nil, not_false_eq_true, and_true] at hx
       simp [errno_to_oserr, hx])
    | (unfold errno_to_oserr
       simp_all [eq_comm])

/-- C6 on the Darwin error numbers and the classic result codes: `EEXIST` (17)
becomes `dupFNErr` (-48 as a 16-bit word). -/
theorem C6_errno_to_oserr_table_witness :
    darwin.labels.Nodup ∧ errno_to_oserr darwin macOSErr 17 = 65488 ∧
    errno_to_oserr darwin macOSErr 1 = u16 macOSErr.ioErr :=
  ⟨by decide,
   (C6_errno_to_oserr_table darwin macOSErr (by decide)).2.2.2.2.2.2.2.2.2.1,
   (C6_errno_to_oserr_table darwin macOSErr (by decide)).2.2.2.2.2.2.2.2.2.2.2.2.2 1
     (by decide)⟩

/-! ## C3, C4, C5: `CmpString` -/

theorem ReadString_length (mem : Mem) (address length : Nat) :
    (ReadString mem address length).length = length := by
  simp [ReadString]

theorem std_equal_iff (p : Nat → Nat → Bool) (a b : Str) (hlen : a.length = b.length) :
    std_equal p a b = true ↔ ∀ i, i < a.length → p (a.getD i 0) (b.getD i 0) = true := by
  induction a generalizing b with
  | nil => simp [std_equal]
  | cons x xs ih =>
    cases b with
    | nil => simp at hlen
    | cons y ys =>
      simp only [List.length_cons, Nat.add_right_cancel_iff] at hlen
      simp only [std_equal, List.length_cons]
      constructor
      · intro h i hi
        by_cases hp : p x y = true
        · rw [if_pos hp] at h
          cases i with
          | zero => simpa using hp
          | succ i => simpa using (ih ys hlen).mp h i (by omega)
        · rw [if_neg hp] at h
          exact absurd h (by simp)
      · intro h
        have h0 : p x y = true := by simpa using h 0 (by omega)
        rw [if_pos h0]
        exact (ih ys hlen).mpr fun i hi => by simpa using h (i + 1) (by omega)

theorem getD_ext (a b : Str) (hlen : a.length = b.length)
    (h : ∀ i, i < a.length → a.getD i 0 = b.getD i 0) : a = b := by
  apply List.ext_getElem hlen
  intro i h1 h2
  have := h i h1
  simpa [List.getD_eq_getElem?_getD, List.getElem?_eq_getElem h1,
    List.getElem?_eq_getElem h2] using this

/-- The three tests of `CmpString` after the strings are read, for any byte
comparison `p` that accepts equal bytes. -/
theorem cmp_core (p : Nat → Nat → Bool) (la lb pa pb : Nat) (a b : Str)
    (ha : a.length = la) (hb : b.length = lb) (hsame : pa = pb → la = lb → a = b)
    (hrefl : ∀ x, p x x = true) :
    (if la ≠ lb then 1 else if pa = pb then 0 else if std_equal p a b = true then 0 else 1)
        = (0 : Nat) ↔
      (la = lb ∧ ∀ i, i < la → p (a.getD i 0) (b.getD i 0) = true) := by
  by_cases hl : la = lb
  · by_cases hp : pa = pb
    · have hab := hsame hp hl
      subst hab
      simp [hl, hp, hrefl]
    · have hlen : a.length = b.length := by omega
      have hiff := std_equal_iff p a b hlen
      rw [ha] at hiff
      have hne : ¬ (la ≠ lb) := by simp [hl]
      rw [if_neg hne, if_neg hp, ← hiff]
      constructor
      · intro h
        refine ⟨hl, ?_⟩
        by_contra hc
        rw [if_neg hc] at h
        exact absurd h (by decide)
      · rintro ⟨-, h⟩
        rw [if_pos h]
  · simp [hl]

theorem toupper_fold (x y : Nat) :
    (if x = y then true else decide (toupper x = toupper y)) = true ↔ toupper x = toupper y := by
  by_cases h : x = y <;> simp [h]

/-- Handler `CmpString` in case-insensitive mode, in terms of the two strings read. -/
theorem CmpString_insensitive (trap : Nat) (w : World) (hmode : (trap % 65536 / 512) % 2 = 0) :
    CmpString trap w =
      if cpuGetDReg w 0 / 65536 ≠ cpuGetDReg w 0 % 65536 then 1
      else if cpuGetAReg w 0 = cpuGetAReg w 1 then 0
      else if std_equal (fun x y => if x = y then true else decide (toupper x = toupper y))
          (ReadString w.mem (cpuGetAReg w 0) (cpuGetDReg w 0 / 65536))
          (ReadString w.mem (cpuGetAReg w 1) (cpuGetDReg w 0 % 65536)) then 0 else 1 := by
  simp [CmpString, hmode]

/-- Handler `CmpString` in case-sensitive mode, in terms of the two strings read. -/
theorem CmpString_sensitive (trap : Nat) (w : World) (hmode : (trap % 65536 / 512) % 2 = 1) :
    CmpString trap w =
      if cpuGetDReg w 0 / 65536 ≠ cpuGetDReg w 0 % 65536 then 1
      else if cpuGetAReg w 0 = cpuGetAReg w 1 then 0
      else if std_equal (fun x y => if x = y then true else decide (x = y))
          (ReadString w.mem (cpuGetAReg w 0) (cpuGetDReg w 0 / 65536))
          (ReadString w.mem (cpuGetAReg w 1) (cpuGetDReg w 0 % 65536)) then 0 else 1 := by
  simp [CmpString, hmode]

/-- C3. In case-insensitive mode (trap bit 9 clear), with `a` and `b` the strings
read from the addresses in A0 and A1 (identical or not) with the lengths in
the halves of D0: `CmpString` returns 0 if and only if the lengths are equal
and at every index the ASCII-uppercased bytes of `a` and `b` are equal, and it
returns 1 otherwise. "ABC" and "abc" compare equal. -/
theorem C3_CmpString_case_insensitive (trap : Nat) (w : World)
    (hmode : (trap % 65536 / 512) % 2 = 0) :
    (CmpString trap w = 0 ↔
      (cpuGetDReg w 0 / 65536 = cpuGetDReg w 0 % 65536 ∧
        ∀ i, i < cpuGetDReg w 0 / 65536 →
          toupper ((ReadString w.mem (cpuGetAReg w 0) (cpuGetDReg w 0 / 65536)).getD i 0) =
          toupper ((ReadString w.mem (cpuGetAReg w 1) (cpuGetDReg w 0 % 65536)).getD i 0))) ∧
    (CmpString trap w ≠ 0 → CmpString trap w = 1) ∧
    (ReadString w.mem (cpuGetAReg w 0) (cpuGetDReg w 0 / 65536) = lit "ABC" →
      ReadString w.mem (cpuGetAReg w 1) (cpuGetDReg w 0 % 65536) = lit "abc" →
      CmpString trap w = 0) := by
  have key : CmpString trap w = 0 ↔
      (cpuGetDReg w 0 / 65536 = cpuGetDReg w 0 % 65536 ∧
        ∀ i, i < cpuGetDReg w 0 / 65536 →
          toupper ((ReadString w.mem (cpuGetAReg w 0) (cpuGetDReg w 0 / 65536)).getD i 0) =
          toupper ((ReadString w.mem (cpuGetAReg w 1) (cpuGetDReg w 0 % 65536)).getD i 0)) := by
    rw [CmpString_insensitive trap w hmode]
    have h := cmp_core (fun x y => if x = y then true else decide (toupper x = toupper y))
      (cpuGetDReg w 0 / 65536) (cpuGetDReg w 0 % 65536) (cpuGetAReg w 0) (cpuGetAReg w 1)
      (ReadString w.mem (cpuGetAReg w 0) (cpuGetDReg w 0 / 65536))
      (ReadString w.mem (cpuGetAReg w 1) (cpuGetDReg w 0 % 65536))
      (ReadString_length _ _ _) (ReadString_length _ _ _)
      (fun h1 h2 => by rw [h1, h2]) (fun x => by simp)
    simp only [toupper_fold] at h
    exact h
  refine ⟨key, ?_, ?_⟩
  · intro h
    rw [CmpString_insensitive trap w hmode] at h ⊢
    split_ifs at h ⊢ <;> simp_all
  · intro ha hb
    have hla := ReadString_length w.mem (cpuGetAReg w 0) (cpuGetDReg w 0 / 65536)
    have hlb := ReadString_length w.mem (cpuGetAReg w 1) (cpuGetDReg w 0 % 65536)
    rw [ha] at hla
    rw [hb] at hlb
    have h3a : cpuGetDReg w 0 / 65536 = 3 := by rw [← hla]; decide
    have h3b : cpuGetDReg w 0 % 65536 = 3 := by rw [← hlb]; decide
    rw [key, ha, hb, h3a, h3b]
    refine ⟨rfl, ?_⟩
    intro i hi
    interval_cases i <;> decide

/-- C3 at "ABC" against "abc" with trap word 0xA03C (bit 9 clear): equal. -/
theorem C3_CmpString_case_insensitive_witness :
    (0xA03C % 65536 / 512) % 2 = 0 ∧ CmpString 0xA03C worldABC = 0 :=
  ⟨by decide,
   (C3_CmpString_case_insensitive 0xA03C worldABC (by decide)).2.2 (by decide) (by decide)⟩

/-- C4. In case-sensitive mode (trap bit 9 set), with `a` and `b` the strings read
from the addresses in A0 and A1 (identical or not) with the lengths in the
halves of D0: `CmpString` returns 0 if and only if `a` and `b` are the same
byte sequence, and 1 otherwise, so the test for identical addresses never
changes the outcome. "ABC" and "abc" compare not-equal. -/
theorem C4_CmpString_case_sensitive (trap : Nat) (w : World)
    (hmode : (trap % 65536 / 512) % 2 = 1) :
    (CmpString trap w = 0 ↔
      ReadString w.mem (cpuGetAReg w 0) (cpuGetDReg w 0 / 65536) =
        ReadString w.mem (cpuGetAReg w 1) (cpuGetDReg w 0 % 65536)) ∧
    (CmpString trap w ≠ 0 → CmpString trap w = 1) ∧
    (ReadString w.mem (cpuGetAReg w 0) (cpuGetDReg w 0 / 65536) = lit "ABC" →
      ReadString w.mem (cpuGetAReg w 1) (cpuGetDReg w 0 % 65536) = lit "abc" →
      CmpString trap w = 1) := by
  have key : CmpString trap w = 0 ↔
      ReadString w.mem (cpuGetAReg w 0) (cpuGetDReg w 0 / 65536) =
        ReadString w.mem (cpuGetAReg w 1) (cpuGetDReg w 0 % 65536) := by
    rw [CmpString_sensitive trap w hmode]
    have h := cmp_core (fun x y => if x = y then true else decide (x = y))
      (cpuGetDReg w 0 / 65536) (cpuGetDReg w 0 % 65536) (cpuGetAReg w 0) (cpuGetAReg w 1)
      (ReadString w.mem (cpuGetAReg w 0) (cpuGetDReg w 0 / 65536))
      (ReadString w.mem (cpuGetAReg w 1) (cpuGetDReg w 0 % 65536))
      (ReadString_length _ _ _) (ReadString_length _ _ _)
      (fun h1 h2 => by rw [h1, h2]) (fun x => by simp)
    rw [h]
    constructor
    · rintro ⟨hl, hall⟩
      apply getD_ext
      · simp [ReadString_length, hl]
      · intro i hi
        rw [ReadString_length] at hi
        simpa using hall i hi
    · intro hab
      have hl : cpuGetDReg w 0 / 65536 = cpuGetDReg w 0 % 65536 := by
        have := congrArg List.length hab
        simpa [ReadString_length] using this
      refine ⟨hl, fun i _ => ?_⟩
      rw [hab]
      simp
  have two : CmpString trap w ≠ 0 → CmpString trap w = 1 := by
    intro h
    rw [CmpString_sensitive trap w hmode] at h ⊢
    split_ifs at h ⊢ <;> simp_all
  refine ⟨key, two, ?_⟩
  intro ha hb
  apply two
  rw [Ne, key, ha, hb]
  decide

/-- C4 at "ABC" against "abc" with trap word 0xA23C (bit 9 set): not equal. -/
theorem C4_CmpString_case_sensitive_witness :
    (0xA23C % 65536 / 512) % 2 = 1 ∧ CmpString 0xA23C worldABC = 1 :=
  ⟨by decide,
   (C4_CmpString_case_sensitive 0xA23C worldABC (by decide)).2.2 (by decide) (by decide)⟩

/-- C5. For every trap word, every pair of addresses in A0 and A1 and every
value of D0 whose high 16 bits differ from its low 16 bits, `CmpString` returns
1; and on every input the result is 0 or 1. -/
theorem C5_CmpString_length_mismatch (trap : Nat) (w : World) :
    (cpuGetDReg w 0 / 65536 ≠ cpuGetDReg w 0 % 65536 → CmpString trap w = 1) ∧
    (CmpString trap w = 0 ∨ CmpString trap w = 1) := by
  constructor
  · intro h
    simp [CmpString, h]
  · unfold CmpString
    simp only []
    split_ifs <;> simp

/-- C5 at "AB" against "ABC", in either case mode. -/
theorem C5_CmpString_length_mismatch_witness :
    cpuGetDReg worldAB 0 / 65536 ≠ cpuGetDReg worldAB 0 % 65536 ∧
    CmpString 0xA03C worldAB = 1 ∧ CmpString 0xA23C worldAB = 1 :=
  ⟨by decide, (C5_CmpString_length_mismatch 0xA03C worldAB).1 (by decide),
   (C5_CmpString_length_mismatch 0xA23C worldAB).1 (by decide)⟩

/-! ## Guest memory: reading after writing -/

theorem read_writeByte (mem : Mem) (d a x : Nat) :
    memoryReadByte (memoryWriteByte mem d a) x =
      if x % 2 ^ 32 = a % 2 ^ 32 then d % 256 else memoryReadByte mem x := by
  unfold memoryReadByte memoryWriteByte
  split_ifs <;> simp

/-- A byte write at offset `k` of a block leaves the block's other offsets alone. -/
theorem read_writeByte_off (mem : Mem) (d base j k : Nat) (hj : j < 2 ^ 32) (hk : k < 2 ^ 32)
    (h : j ≠ k) :
    memoryReadByte (memoryWriteByte mem d (base + k)) (base + j) = memoryReadByte mem (base + j) := by
  rw [read_writeByte, if_neg]
  omega

/-- A word write at offset `k` of a block leaves the offsets other than `k`, `k+1` alone. -/
theorem read_writeWord_off (mem : Mem) (d base j k : Nat) (hj : j < 2 ^ 32) (hk : k + 1 < 2 ^ 32)
    (h : j < k ∨ k + 1 < j) :
    memoryReadByte (memoryWriteWord mem d (base + k)) (base + j) = memoryReadByte mem (base + j) := by
  unfold memoryWriteWord
  rw [read_writeByte, if_neg (by omega), read_writeByte, if_neg (by omega)]

/-- A long write at offset `k` of a block leaves the offsets outside `k..k+3` alone. -/
theorem read_writeLong_off (mem : Mem) (d base j k : Nat) (hj : j < 2 ^ 32) (hk : k + 3 < 2 ^ 32)
    (h : j < k ∨ k + 3 < j) :
    memoryReadByte (memoryWriteLong mem d (base + k)) (base + j) = memoryReadByte mem (base + j) := by
  unfold memoryWriteLong memoryWriteWord
  rw [read_writeByte, if_neg (by omega), read_writeByte, if_neg (by omega),
    read_writeByte, if_neg (by omega), read_writeByte, if_neg (by omega)]

/-- The word read back from where a word was written. -/
theorem readWord_writeWord (mem : Mem) (d a : Nat) :
    memoryReadWord (memoryWriteWord mem d a) a = d % 65536 := by
  unfold memoryReadWord memoryWriteWord
  rw [read_writeByte, if_neg (by omega), read_writeByte, if_pos rfl, read_writeByte, if_pos rfl]
  omega

theorem read_writeBytes_out (mem : Mem) (bytes : Str) (a x : Nat)
    (h : ∀ i, i < bytes.length → x % 2 ^ 32 ≠ (a + i) % 2 ^ 32) :
    memoryReadByte (memoryWriteBytes mem bytes a) x = memoryReadByte mem x := by
  induction bytes generalizing mem a with
  | nil => rfl
  | cons b bs ih =>
    unfold memoryWriteBytes
    rw [ih, read_writeByte, if_neg]
    · simpa using h 0 (by simp)
    · intro i hi
      have := h (i + 1) (by simpa using hi)
      rwa [show a + (i + 1) = a + 1 + i by omega] at this

/-- The bytes read back from where a block of bytes was copied. -/
theorem read_writeBytes_in (mem : Mem) (bytes : Str) (a i : Nat) (hi : i < bytes.length)
    (hlen : bytes.length ≤ 2 ^ 32) :
    memoryReadByte (memoryWriteBytes mem bytes a) (a + i) = bytes.getD i 0 % 256 := by
  induction bytes generalizing mem a i with
  | nil => simp at hi
  | cons b bs ih =>
    unfold memoryWriteBytes
    simp only [List.length_cons] at hi hlen
    cases i with
    | zero =>
      rw [read_writeBytes_out, read_writeByte, if_pos (by simp)]
      · simp
      · intro i hi'
        omega
    | succ i =>
      rw [show a + (i + 1) = a + 1 + i by omega, ih _ _ _ (by omega) (by omega)]
      simp

/-! ## The recorded writes, field by field -/

theorem writeByte_mem (w : World) (d a : Nat) :
    (w.writeByte d a).mem = memoryWriteByte w.mem d a := rfl

theorem writeWord_mem (w : World) (d a : Nat) :
    (w.writeWord d a).mem = memoryWriteWord w.mem d a := rfl

theorem writeLong_mem (w : World) (d a : Nat) :
    (w.writeLong d a).mem = memoryWriteLong w.mem d a := rfl

theorem writeBytes_mem (w : World) (b : Str) (a : Nat) :
    (w.writeBytes b a).mem = memoryWriteBytes w.mem b a := rfl

theorem writeByte_fs (w : World) (d a : Nat) : (w.writeByte d a).fs = w.fs := rfl

theorem writeWord_fs (w : World) (d a : Nat) : (w.writeWord d a).fs = w.fs := rfl

theorem writeLong_fs (w : World) (d a : Nat) : (w.writeLong d a).fs = w.fs := rfl

theorem writeBytes_fs (w : World) (b : Str) (a : Nat) : (w.writeBytes b a).fs = w.fs := rfl

/-! ## `GetFileInfo` on a named lookup that finds the file -/

theorem getxattr_length (fs : HostFS) (path buffer : Str) :
    (getxattr fs path buffer).length = buffer.length := by
  unfold getxattr
  split
  · rfl
  · split
    · rfl
    · split
      · simp only [List.length_append, List.length_drop]; omega
      · rfl

/-- The Finder-info buffer of `GetFileInfo` is 32 bytes long. -/
theorem finderBuffer_length (fs : HostFS) (sname : Str) :
    (if IsTextFile sname = true then
        lit "TEXTMPS " ++ (getxattr fs (c_str sname) (List.replicate 32 0)).drop 8
      else getxattr fs (c_str sname) (List.replicate 32 0)).length = 32 := by
  split
  · simp only [List.length_append, List.length_drop, getxattr_length, List.length_replicate]
    decide
  · simp [getxattr_length]

/-- A named lookup with a name pointer that is not null, on a path that `stat`
finds: `GetFileInfo` returns 0, leaves the host as it was, and the block's
offsets 32..47 hold the first 16 bytes of the Finder-info buffer. -/
theorem GetFileInfo_found (E : Errno) (K : OSErr) (U : Int → Int) (trap : Nat) (w : World)
    (st : File)
    (hidx : toInt16 (memoryReadWord w.mem (cpuGetAReg w 0 + 28)) ≤ 0)
    (hptr : memoryReadLong w.mem (cpuGetAReg w 0 + 18) ≠ 0)
    (hstat : stat w.fs (c_str (ReadPString w.mem (memoryReadLong w.mem (cpuGetAReg w 0 + 18))))
      = .ok st) :
    (GetFileInfo E K U trap w).result = some 0 ∧
    (GetFileInfo E K U trap w).world.fs = w.fs ∧
    ∀ i, i < 16 →
      memoryReadByte (GetFileInfo E K U trap w).world.mem (cpuGetAReg w 0 + 32 + i) =
        (if IsTextFile (ReadPString w.mem (memoryReadLong w.mem (cpuGetAReg w 0 + 18))) = true then
          lit "TEXTMPS " ++ (getxattr w.fs
            (c_str (ReadPString w.mem (memoryReadLong w.mem (cpuGetAReg w 0 + 18))))
            (List.replicate 32 0)).drop 8
         else getxattr w.fs
            (c_str (ReadPString w.mem (memoryReadLong w.mem (cpuGetAReg w 0 + 18))))
            (List.replicate 32 0)).getD i 0 % 256 := by
  have hlen := finderBuffer_length w.fs
    (ReadPString w.mem (memoryReadLong w.mem (cpuGetAReg w 0 + 18)))
  unfold GetFileInfo
  simp only []
  rw [if_pos hidx, if_neg hptr, hstat]
  simp only [writeByte_fs, writeWord_fs, writeLong_fs, writeBytes_fs]
  cases stat w.fs (c_str
    (ReadPString w.mem (memoryReadLong w.mem (cpuGetAReg w 0 + 18)) ++ _PATH_RSRCFORKSPEC))
  all_goals
    refine ⟨by simp only [Outcome.result], ?_, ?_⟩
    · simp only [Outcome.world]
      rw [writeWord_fs, writeLong_fs, writeLong_fs, writeWord_fs, writeLong_fs, writeLong_fs,
        writeLong_fs, writeLong_fs, writeWord_fs, writeLong_fs, writeByte_fs, writeByte_fs,
        writeWord_fs, writeBytes_fs]
    intro i hi
    simp only [Outcome.world]
    rw [Nat.add_assoc,
      writeWord_mem, read_writeWord_off _ _ _ _ _ (by omega) (by omega) (by omega),
      writeLong_mem, read_writeLong_off _ _ _ _ _ (by omega) (by omega) (by omega),
      writeLong_mem, read_writeLong_off _ _ _ _ _ (by omega) (by omega) (by omega),
      writeWord_mem, read_writeWord_off _ _ _ _ _ (by omega) (by omega) (by omega),
      writeLong_mem, read_writeLong_off _ _ _ _ _ (by omega) (by omega) (by omega),
      writeLong_mem, read_writeLong_off _ _ _ _ _ (by omega) (by omega) (by omega),
      writeLong_mem, read_writeLong_off _ _ _ _ _ (by omega) (by omega) (by omega),
      writeLong_mem, read_writeLong_off _ _ _ _ _ (by omega) (by omega) (by omega),
      writeWord_mem, read_writeWord_off _ _ _ _ _ (by omega) (by omega) (by omega),
      writeLong_mem, read_writeLong_off _ _ _ _ _ (by omega) (by omega) (by omega),
      writeByte_mem, read_writeByte_off _ _ _ _ _ (by omega) (by omega) (by omega),
      writeByte_mem, read_writeByte_off _ _ _ _ _ (by omega) (by omega) (by omega),
      writeWord_mem, read_writeWord_off _ _ _ _ _ (by omega) (by omega) (by omega),
      writeBytes_mem, ← Nat.add_assoc,
      read_writeBytes_in _ _ _ _ (by rw [List.length_take, hlen]; omega)
        (by rw [List.length_take, hlen]; omega),
      List.getD_eq_getElem?_getD, List.getElem?_take_of_lt hi, ← List.getD_eq_getElem?_getD]

/-! ## C7: the text-type override of `GetFileInfo` -/

theorem getD_replicate_zero (n i : Nat) : (List.replicate n 0).getD i 0 = 0 := by
  rw [List.getD_eq_getElem?_getD]
  by_cases h : i < n
  · simp [List.getElem?_replicate, h]
  · simp [List.getElem?_replicate, h]

/-- What `getxattr` leaves in a zeroed 32-byte buffer: the attribute, padded
with zeros; all zeros when there is no attribute. -/
theorem getxattr_getD (fs : HostFS) (path : Str) (st : File) (i : Nat)
    (hfile : fs.file path = .ok st) (hattr : ∀ v, st.finderInfo = some v → v.length ≤ 32) :
    (getxattr fs path (List.replicate 32 0)).getD i 0 = (st.finderInfo.getD []).getD i 0 := by
  unfold getxattr
  rw [hfile]
  simp only []
  cases hv : st.finderInfo with
  | none =>
    show (List.replicate 32 0).getD i 0 = ([] : Str).getD i 0
    rw [getD_replicate_zero]
    simp
  | some v =>
    have hle := hattr v hv
    simp only [List.length_replicate, hle, if_true, Option.getD_some]
    by_cases hi : i < v.length
    · rw [List.getD_append _ _ _ _ hi]
    · rw [List.getD_append_right _ _ _ _ (by omega), List.drop_replicate, getD_replicate_zero,
        List.getD_eq_default _ _ (by omega)]

/-- C7. For every path that `stat` finds and `IsTextFile` accepts, and for every
stored Finder-info attribute (of at most 32 bytes, or none): a named lookup by
`GetFileInfo` through a name pointer that is not null returns 0 and leaves the
8 bytes "TEXTMPS " at block offsets 32..39 and, at offsets 40..47, bytes 8..15
of the stored attribute (zeros where the attribute is absent). -/
theorem C7_GetFileInfo_text_override (E : Errno) (K : OSErr) (U : Int → Int) (trap : Nat)
    (w : World) (st : File)
    (hidx : toInt16 (memoryReadWord w.mem (cpuGetAReg w 0 + 28)) ≤ 0)
    (hptr : memoryReadLong w.mem (cpuGetAReg w 0 + 18) ≠ 0)
    (hstat : stat w.fs (c_str (ReadPString w.mem (memoryReadLong w.mem (cpuGetAReg w 0 + 18))))
      = .ok st)
    (htext : IsTextFile (ReadPString w.mem (memoryReadLong w.mem (cpuGetAReg w 0 + 18))) = true)
    (hattr : ∀ v, st.finderInfo = some v → v.length ≤ 32) :
    (GetFileInfo E K U trap w).result = some 0 ∧
    (∀ i, i < 8 →
      memoryReadByte (GetFileInfo E K U trap w).world.mem (cpuGetAReg w 0 + 32 + i) =
        (lit "TEXTMPS ").getD i 0) ∧
    (∀ i, 8 ≤ i → i < 16 →
      memoryReadByte (GetFileInfo E K U trap w).world.mem (cpuGetAReg w 0 + 32 + i) =
        (st.finderInfo.getD []).getD i 0 % 256) := by
  obtain ⟨hres, -, hbytes⟩ := GetFileInfo_found E K U trap w st hidx hptr hstat
  refine ⟨hres, ?_, ?_⟩
  · intro i hi
    rw [hbytes i (by omega), if_pos htext, List.getD_append _ _ _ _ (by simpa [lit] using hi)]
    interval_cases i <;> decide
  · intro i h8 hi
    rw [hbytes i hi, if_pos htext,
      List.getD_append_right _ _ _ _ (by simpa [lit] using h8)]
    have hl : (lit "TEXTMPS ").length = 8 := by decide
    rw [hl, List.getD_eq_getElem?_getD, List.getElem?_drop, ← List.getD_eq_getElem?_getD,
      show 8 + (i - 8) = i by omega, getxattr_getD _ _ st i hstat hattr]

/-- C7 on the file "a.c" without a stored attribute: the block's Finder-info
span reads "TEXTMPS " followed by eight zero bytes. -/
theorem C7_GetFileInfo_text_override_witness :
    (GetFileInfo darwin macOSErr id 0 worldDotC).result = some 0 ∧
    memoryReadByte (GetFileInfo darwin macOSErr id 0 worldDotC).world.mem (1000 + 32 + 0) = 84 ∧
    memoryReadByte (GetFileInfo darwin macOSErr id 0 worldDotC).world.mem (1000 + 32 + 15) = 0 :=
  have h := C7_GetFileInfo_text_override darwin macOSErr id 0 worldDotC
    { st_size := 5, st_birthtime := 1000, st_mtime := 2000, finderInfo := none }
    (by decide) (by decide) rfl (by decide) (by intro v hv; cases hv)
  ⟨h.1, h.2.1 0 (by decide), h.2.2 15 (by decide) (by decide)⟩

/-! ## C2: `SetFileInfo` followed by `GetFileInfo` -/

theorem ReadString_getD (mem : Mem) (a n i : Nat) (hi : i < n) :
    (ReadString mem a n).getD i 0 = memoryReadByte mem (a + i) := by
  unfold ReadString
  rw [List.getD_eq_getElem?_getD]
  simp [hi]

theorem memoryReadByte_lt (mem : Mem) (a : Nat) : memoryReadByte mem a < 256 := by
  unfold memoryReadByte
  omega

/-- The host after a `SetFileInfo` that found the file and returned 0: the
path now carries the 16 bytes of the block followed by bytes 16..31 of the
attribute as it was. -/
theorem SetFileInfo_stored (E : Errno) (K : OSErr) (trap : Nat) (w : World) (f : File)
    (hK : ∀ e : Int, e ≠ 0 → errno_to_oserr E K e ≠ 0)
    (hptr : memoryReadLong w.mem (cpuGetAReg w 0 + 18) ≠ 0)
    (hstat : stat w.fs (c_str (ReadPString w.mem (memoryReadLong w.mem (cpuGetAReg w 0 + 18))))
      = .ok f)
    (hx : w.fs.setxattrErr
      (c_str (ReadPString w.mem (memoryReadLong w.mem (cpuGetAReg w 0 + 18)))) ≠ some 0)
    (hret : (SetFileInfo E K trap w).1 = 0) :
    (SetFileInfo E K trap w).2.fs =
      w.fs.put (c_str (ReadPString w.mem (memoryReadLong w.mem (cpuGetAReg w 0 + 18))))
        (.ok { f with
          finderInfo := some (ReadString w.mem (cpuGetAReg w 0 + 32) 16 ++
            (getxattr w.fs
              (c_str (ReadPString w.mem (memoryReadLong w.mem (cpuGetAReg w 0 + 18))))
              (List.replicate 32 0)).drop 16) }) := by
  have hfile : w.fs.file
      (c_str (ReadPString w.mem (memoryReadLong w.mem (cpuGetAReg w 0 + 18)))) = .ok f := hstat
  unfold SetFileInfo at hret ⊢
  simp only [] at hret ⊢
  rw [if_neg hptr, hstat] at hret ⊢
  simp only [setxattr, hfile] at hret ⊢
  cases he : w.fs.setxattrErr
      (c_str (ReadPString w.mem (memoryReadLong w.mem (cpuGetAReg w 0 + 18)))) with
  | none => rfl
  | some e =>
    rw [he] at hret hx
    simp only [] at hret
    have hne : e ≠ 0 := fun h => hx (by rw [h])
    exact absurd hret (hK e hne)

/-- C2, as the code has it. For every existing path and every 16 bytes F held in
the Finder-info span (offsets 32..47) of the block of `SetFileInfo`: if
`SetFileInfo` on that path returns `noErr`, then a `GetFileInfo` named lookup on
the same path that follows on the same host returns `noErr` and leaves in
offsets 32..47 of its block: exactly F when `IsTextFile` rejects the path; the
8 bytes "TEXTMPS " followed by bytes 8..15 of F when `IsTextFile` accepts it.
(Every failure of the host is taken to be reported with an error number other
than 0 that translates to a code other than 0.) -/
theorem C2_SetFileInfo_GetFileInfo_roundtrip (E : Errno) (K : OSErr) (U : Int → Int)
    (trap trap' : Nat) (w w' : World) (f : File)
    (hK : ∀ e : Int, e ≠ 0 → errno_to_oserr E K e ≠ 0)
    (hptr : memoryReadLong w.mem (cpuGetAReg w 0 + 18) ≠ 0)
    (hstat : stat w.fs (c_str (ReadPString w.mem (memoryReadLong w.mem (cpuGetAReg w 0 + 18))))
      = .ok f)
    (hx : w.fs.setxattrErr
      (c_str (ReadPString w.mem (memoryReadLong w.mem (cpuGetAReg w 0 + 18)))) ≠ some 0)
    (hret : (SetFileInfo E K trap w).1 = 0)
    (hfs : w'.fs = (SetFileInfo E K trap w).2.fs)
    (hidx : toInt16 (memoryReadWord w'.mem (cpuGetAReg w' 0 + 28)) ≤ 0)
    (hptr' : memoryReadLong w'.mem (cpuGetAReg w' 0 + 18) ≠ 0)
    (hname : ReadPString w'.mem (memoryReadLong w'.mem (cpuGetAReg w' 0 + 18)) =
      ReadPString w.mem (memoryReadLong w.mem (cpuGetAReg w 0 + 18))) :
    (GetFileInfo E K U trap' w').result = some 0 ∧
    ∀ i, i < 16 →
      memoryReadByte (GetFileInfo E K U trap' w').world.mem (cpuGetAReg w' 0 + 32 + i) =
        if IsTextFile (ReadPString w.mem (memoryReadLong w.mem (cpuGetAReg w 0 + 18))) = true
            ∧ i < 8 then
          (lit "TEXTMPS ").getD i 0
        else memoryReadByte w.mem (cpuGetAReg w 0 + 32 + i) := by
  have hstored := SetFileInfo_stored E K trap w f hK hptr hstat hx hret
  have hlenF : (ReadString w.mem (cpuGetAReg w 0 + 32) 16).length = 16 := ReadString_length _ _ _
  obtain ⟨f', hfile', hfinfo⟩ : ∃ f', w'.fs.file
      (c_str (ReadPString w.mem (memoryReadLong w.mem (cpuGetAReg w 0 + 18)))) = .ok f' ∧
      f'.finderInfo = some (ReadString w.mem (cpuGetAReg w 0 + 32) 16 ++
        (getxattr w.fs
          (c_str (ReadPString w.mem (memoryReadLong w.mem (cpuGetAReg w 0 + 18))))
          (List.replicate 32 0)).drop 16) := by
    refine ⟨{ f with
      finderInfo := some (ReadString w.mem (cpuGetAReg w 0 + 32) 16 ++
        (getxattr w.fs
          (c_str (ReadPString w.mem (memoryReadLong w.mem (cpuGetAReg w 0 + 18))))
          (List.replicate 32 0)).drop 16) }, ?_, rfl⟩
    rw [hfs, hstored]
    simp only [HostFS.put, if_true]
  have hstat' : stat w'.fs
      (c_str (ReadPString w'.mem (memoryReadLong w'.mem (cpuGetAReg w' 0 + 18)))) = .ok f' := by
    rw [hname]
    exact hfile'
  obtain ⟨hres, -, hbytes⟩ := GetFileInfo_found E K U trap' w' _ hidx hptr' hstat'
  refine ⟨hres, ?_⟩
  intro i hi
  have hbuf : (getxattr w'.fs
      (c_str (ReadPString w.mem (memoryReadLong w.mem (cpuGetAReg w 0 + 18))))
      (List.replicate 32 0)).getD i 0 = memoryReadByte w.mem (cpuGetAReg w 0 + 32 + i) := by
    rw [getxattr_getD _ _ _ i hfile' (by
      intro v hv
      rw [hfinfo, Option.some.injEq] at hv
      rw [← hv, List.length_append, hlenF, List.length_drop, getxattr_length,
        List.length_replicate]), hfinfo]
    simp only [Option.getD_some]
    rw [List.getD_append _ _ _ _ (by omega), ReadString_getD _ _ _ _ hi]
  rw [hbytes i hi, hname]
  by_cases ht : IsTextFile (ReadPString w.mem (memoryReadLong w.mem (cpuGetAReg w 0 + 18))) = true
  · rw [if_pos ht]
    by_cases h8 : i < 8
    · rw [if_pos ⟨ht, h8⟩, List.getD_append _ _ _ _ (by simpa [lit] using h8)]
      interval_cases i <;> decide
    · rw [if_neg (fun h => h8 h.2),
        List.getD_append_right _ _ _ _ (by simpa [lit] using Nat.le_of_not_lt h8)]
      have hl : (lit "TEXTMPS ").length = 8 := by decide
      rw [hl, List.getD_eq_getElem?_getD, List.getElem?_drop, ← List.getD_eq_getElem?_getD,
        show 8 + (i - 8) = i by omega, hbuf]
      exact Nat.mod_eq_of_lt (memoryReadByte_lt _ _)
  · rw [if_neg ht, if_neg (fun h => ht h.1), hbuf]
    exact Nat.mod_eq_of_lt (memoryReadByte_lt _ _)

theorem ite_mem_of (c : Prop) [Decidable c] (a b : Nat) (l : List Nat) (ha : a ∈ l)
    (hb : b ∈ l) : (if c then a else b) ∈ l := by
  split <;> assumption

/-- The codes an error number other than 0 can be translated to. -/
theorem errno_to_oserr_mem (E : Errno) (K : OSErr) (e : Int) (he : e ≠ 0) :
    errno_to_oserr E K e ∈ [u16 K.rfNumErr, u16 K.ioErr, u16 K.permErr, u16 K.fnfErr,
      u16 K.dirNFErr, u16 K.notAFileErr, u16 K.extFSErr, u16 K.wPrErr, u16 K.dupFNErr,
      u16 K.fBsyErr, u16 K.dskFulErr] := by
  unfold errno_to_oserr
  rw [if_neg he]
  repeat' apply ite_mem_of
  all_goals simp

/-- Every Darwin error number other than 0 becomes a result code other than 0. -/
theorem darwin_translation_nonzero (e : Int) (he : e ≠ 0) :
    errno_to_oserr darwin macOSErr e ≠ 0 := by
  intro h
  have hm := errno_to_oserr_mem darwin macOSErr e he
  rw [h] at hm
  revert hm
  decide

/-- C2 on the file "a.o", whose block holds the Finder info 1, 2, .., 16: the
lookup after `SetFileInfo` reads the same 16 bytes back. -/
theorem C2_SetFileInfo_GetFileInfo_roundtrip_witness :
    (SetFileInfo darwin macOSErr 0 worldDotO).1 = 0 ∧
    (GetFileInfo darwin macOSErr id 0 (SetFileInfo darwin macOSErr 0 worldDotO).2).result
      = some 0 ∧
    memoryReadByte
      (GetFileInfo darwin macOSErr id 0 (SetFileInfo darwin macOSErr 0 worldDotO).2).world.mem
      (1000 + 32 + 3) = 4 :=
  have h := C2_SetFileInfo_GetFileInfo_roundtrip darwin macOSErr id 0 0 worldDotO
    (SetFileInfo darwin macOSErr 0 worldDotO).2
    { st_size := 5, st_birthtime := 1000, st_mtime := 2000, finderInfo := none }
    darwin_translation_nonzero (by decide) rfl (by decide) (by decide) rfl (by decide)
    (by decide) (by decide)
  ⟨by decide, h.1, h.2 3 (by decide)⟩

/-- C2 fails as stated on the file "a.c": `SetFileInfo` stores the Finder info
1, 2, .., 16 and returns 0, the lookup that follows returns 0, and the block then
holds "TEXTMPS " in offsets 32..39, not the bytes 1..8 just written. -/
theorem C2_counterexample :
    ReadPString worldDotC.mem (memoryReadLong worldDotC.mem (cpuGetAReg worldDotC 0 + 18))
      = lit "a.c" ∧
    ReadString worldDotC.mem (cpuGetAReg worldDotC 0 + 32) 16 = List.range' 1 16 ∧
    (SetFileInfo darwin macOSErr 0 worldDotC).1 = 0 ∧
    (GetFileInfo darwin macOSErr id 0 (SetFileInfo darwin macOSErr 0 worldDotC).2).result
      = some 0 ∧
    ReadString
      (GetFileInfo darwin macOSErr id 0 (SetFileInfo darwin macOSErr 0 worldDotC).2).world.mem
      (cpuGetAReg worldDotC 0 + 32) 16 = lit "TEXTMPS " ++ List.range' 9 8 ∧
    ReadString
      (GetFileInfo darwin macOSErr id 0 (SetFileInfo darwin macOSErr 0 worldDotC).2).world.mem
      (cpuGetAReg worldDotC 0 + 32) 16 ≠ ReadString worldDotC.mem (cpuGetAReg worldDotC 0 + 32) 16 := by
  refine ⟨by decide, by decide, by decide, by decide, by decide, by decide⟩

/-! ## C1: the bad-name exit of the name-taking handlers -/

theorem u16_lt (x : Int) : u16 x < 65536 := by
  unfold u16
  omega

theorem readWord_writeWord_u16 (mem : Mem) (x : Int) (a : Nat) :
    memoryReadWord (memoryWriteWord mem (u16 x) a) a = u16 x := by
  rw [readWord_writeWord]
  exact Nat.mod_eq_of_lt (u16_lt x)

/-- C1, as the code has it. `Create` and `Delete` test the decoded name: when the
PascalName at the block's name pointer (offset 18) is empty, each writes
`bdNamErr` into the result field at offset 16, returns `bdNamErr`, and leaves the
host file system, attributes included, unchanged. `SetFileInfo` and `GetFileInfo`
with directory index <= 0 test the name pointer instead: when it is null, each
writes `bdNamErr` at offset 16, returns it, and leaves the host unchanged; when
it is not null and leads to the empty name, each hands the empty path to `stat`
and, `stat` failing, returns the translation of that error, the host unchanged. -/
theorem C1_bad_name (E : Errno) (K : OSErr) (U : Int → Int) (trap : Nat) (w : World) :
    (ReadPString w.mem (memoryReadLong w.mem (cpuGetAReg w 0 + 18)) = [] →
      ((Create E K trap w).1 = u16 K.bdNamErr ∧
        memoryReadWord (Create E K trap w).2.mem (cpuGetAReg w 0 + 16) = u16 K.bdNamErr ∧
        (Create E K trap w).2.fs = w.fs) ∧
      ((Delete E K trap w).1 = u16 K.bdNamErr ∧
        memoryReadWord (Delete E K trap w).2.mem (cpuGetAReg w 0 + 16) = u16 K.bdNamErr ∧
        (Delete E K trap w).2.fs = w.fs)) ∧
    (memoryReadLong w.mem (cpuGetAReg w 0 + 18) = 0 →
      ((SetFileInfo E K trap w).1 = u16 K.bdNamErr ∧
        memoryReadWord (SetFileInfo E K trap w).2.mem (cpuGetAReg w 0 + 16) = u16 K.bdNamErr ∧
        (SetFileInfo E K trap w).2.fs = w.fs) ∧
      (toInt16 (memoryReadWord w.mem (cpuGetAReg w 0 + 28)) ≤ 0 →
        (GetFileInfo E K U trap w).result = some (u16 K.bdNamErr) ∧
        memoryReadWord (GetFileInfo E K U trap w).world.mem (cpuGetAReg w 0 + 16)
          = u16 K.bdNamErr ∧
        (GetFileInfo E K U trap w).world.fs = w.fs)) ∧
    (ReadPString w.mem (memoryReadLong w.mem (cpuGetAReg w 0 + 18)) = [] →
      memoryReadLong w.mem (cpuGetAReg w 0 + 18) ≠ 0 →
      ∀ e, stat w.fs [] = .error e →
        ((SetFileInfo E K trap w).1 = errno_to_oserr E K e ∧
          (SetFileInfo E K trap w).2.fs = w.fs) ∧
        (toInt16 (memoryReadWord w.mem (cpuGetAReg w 0 + 28)) ≤ 0 →
          (GetFileInfo E K U trap w).result = some (errno_to_oserr E K e) ∧
          (GetFileInfo E K U trap w).world.fs = w.fs)) := by
  have hc : c_str ([] : Str) = [] := rfl
  refine ⟨fun hname => ⟨?_, ?_⟩, fun hnull => ⟨?_, fun hidx => ?_⟩,
    fun hname hnn e hstat => ⟨?_, fun hidx => ?_⟩⟩
  · unfold Create
    simp only []
    rw [hname, if_pos (by rfl : ([] : Str).length = 0)]
    exact ⟨rfl, readWord_writeWord_u16 _ _ _, rfl⟩
  · unfold Delete
    simp only []
    rw [hname, if_pos (by rfl : ([] : Str).length = 0)]
    exact ⟨rfl, readWord_writeWord_u16 _ _ _, rfl⟩
  · unfold SetFileInfo
    simp only []
    rw [if_pos hnull]
    exact ⟨rfl, readWord_writeWord_u16 _ _ _, rfl⟩
  · unfold GetFileInfo
    simp only []
    rw [if_pos hidx, if_pos hnull]
    exact ⟨rfl, readWord_writeWord_u16 _ _ _, rfl⟩
  · unfold SetFileInfo
    simp only []
    rw [if_neg hnn, hname, hc, hstat]
    exact ⟨rfl, rfl⟩
  · unfold GetFileInfo
    simp only []
    rw [if_pos hidx, if_neg hnn, hname, hc, hstat]
    exact ⟨rfl, rfl⟩

/-- C1 on a block that names the empty PascalName (for `Create`) and on a block
whose name pointer is null (for `GetFileInfo`): both return `bdNamErr`, which is
-37, 65499 as a 16-bit word. -/
theorem C1_bad_name_witness :
    ReadPString worldEmptyName.mem
      (memoryReadLong worldEmptyName.mem (cpuGetAReg worldEmptyName 0 + 18)) = [] ∧
    (Create darwin macOSErr 0 worldEmptyName).1 = 65499 ∧
    memoryReadLong worldNullName.mem (cpuGetAReg worldNullName 0 + 18) = 0 ∧
    (GetFileInfo darwin macOSErr id 0 worldNullName).result = some 65499 :=
  ⟨by decide,
   ((C1_bad_name darwin macOSErr id 0 worldEmptyName).1 (by decide)).1.1,
   by decide,
   ((C1_bad_name darwin macOSErr id 0 worldNullName).2.1 (by decide)).2 (by decide) |>.1⟩

/-- C1 fails as stated for `GetFileInfo` and `SetFileInfo`: on a block whose name
pointer is not null and leads to the empty PascalName, on a host where `stat` of
the empty path fails with `ENOENT`, both return `fnfErr` (-43), not `bdNamErr`
(-37). -/
theorem C1_counterexample :
    memoryReadLong worldEmptyName.mem (cpuGetAReg worldEmptyName 0 + 18) = 2000 ∧
    ReadPString worldEmptyName.mem
      (memoryReadLong worldEmptyName.mem (cpuGetAReg worldEmptyName 0 + 18)) = [] ∧
    toInt16 (memoryReadWord worldEmptyName.mem (cpuGetAReg worldEmptyName 0 + 28)) ≤ 0 ∧
    (GetFileInfo darwin macOSErr id 0 worldEmptyName).result = some (u16 macOSErr.fnfErr) ∧
    (SetFileInfo darwin macOSErr 0 worldEmptyName).1 = u16 macOSErr.fnfErr ∧
    memoryReadWord (GetFileInfo darwin macOSErr id 0 worldEmptyName).world.mem
      (cpuGetAReg worldEmptyName 0 + 16) = u16 macOSErr.fnfErr ∧
    u16 macOSErr.fnfErr ≠ u16 macOSErr.bdNamErr := by
  refine ⟨by decide, by decide, by decide, by decide, by decide, by decide, by decide⟩

/-! ## C11, C12: `Create` and `Delete` -/

theorem errno_to_oserr_EEXIST (E : Errno) (K : OSErr) (hE : E.labels.Nodup) :
    errno_to_oserr E K E.EEXIST = u16 K.dupFNErr := by
  simp only [Errno.labels, List.nodup_cons, List.mem_cons, List.mem_singleton, not_or,
    List.not_mem_nil, not_false_eq_true, List.nodup_nil, and_true] at hE
  obtain ⟨h0, h1, h2, h3, h4, h5, h6, h7, h8, h9, h10, h11⟩ := hE
  unfold errno_to_oserr
  simp_all [eq_comm]

theorem errno_to_oserr_ENOENT (E : Errno) (K : OSErr) (hE : E.labels.Nodup) :
    errno_to_oserr E K E.ENOENT = u16 K.fnfErr := by
  simp only [Errno.labels, List.nodup_cons, List.mem_cons, List.mem_singleton, not_or,
    List.not_mem_nil, not_false_eq_true, List.nodup_nil, and_true] at hE
  obtain ⟨h0, h1, h2, h3, h4, h5, h6, h7, h8, h9, h10, h11⟩ := hE
  unfold errno_to_oserr
  simp_all [eq_comm]

/-- Every code `errno_to_oserr` returns fits 16 bits. -/
theorem errno_to_oserr_lt (E : Errno) (K : OSErr) (e : Int) : errno_to_oserr E K e < 65536 := by
  by_cases he : e = 0
  · simp [errno_to_oserr, he]
  · have hm := errno_to_oserr_mem E K e he
    simp only [List.mem_cons, List.mem_singleton, List.not_mem_nil, or_false] at hm
    rcases hm with h | h | h | h | h | h | h | h | h | h | h <;> rw [h] <;> exact u16_lt _

theorem readWord_writeWord_errno (mem : Mem) (E : Errno) (K : OSErr) (e : Int) (a : Nat) :
    memoryReadWord (memoryWriteWord mem (errno_to_oserr E K e) a) a = errno_to_oserr E K e := by
  rw [readWord_writeWord]
  exact Nat.mod_eq_of_lt (errno_to_oserr_lt E K e)

theorem length_ne_zero_of_ne_nil (s : Str) (h : s ≠ []) : ¬ (s.length = 0) := by
  intro h0
  exact h (List.length_eq_zero.mp h0)

/-- C11. For every non-empty name that already exists as a file on the host,
`Create` writes `dupFNErr` to the result field at offset 16, returns `dupFNErr`,
and leaves the host file system unchanged. (The case labels of
`errno_to_oserr` are taken to be pairwise distinct.) -/
theorem C11_Create_existing (E : Errno) (K : OSErr) (trap : Nat) (w : World) (f : File)
    (hE : E.labels.Nodup)
    (hname : ReadPString w.mem (memoryReadLong w.mem (cpuGetAReg w 0 + 18)) ≠ [])
    (hfile : stat w.fs (c_str (ReadPString w.mem (memoryReadLong w.mem (cpuGetAReg w 0 + 18))))
      = .ok f) :
    (Create E K trap w).1 = u16 K.dupFNErr ∧
    memoryReadWord (Create E K trap w).2.mem (cpuGetAReg w 0 + 16) = u16 K.dupFNErr ∧
    (Create E K trap w).2.fs = w.fs := by
  have hf : w.fs.file
      (c_str (ReadPString w.mem (memoryReadLong w.mem (cpuGetAReg w 0 + 18)))) = .ok f := hfile
  unfold Create
  simp only []
  rw [if_neg (length_ne_zero_of_ne_nil _ hname)]
  simp only [open_creat_excl, hf, errno_to_oserr_EEXIST E K hE]
  exact ⟨Nat.mod_eq_of_lt (u16_lt _), readWord_writeWord_u16 _ _ _, rfl⟩

/-- C11 on the existing file "a.c": `Create` returns `dupFNErr`, which is -48,
65488 as a 16-bit word. -/
theorem C11_Create_existing_witness :
    darwin.labels.Nodup ∧ (Create darwin macOSErr 0 worldDotC).1 = 65488 ∧
    memoryReadWord (Create darwin macOSErr 0 worldDotC).2.mem (1000 + 16) = 65488 :=
  have h := C11_Create_existing darwin macOSErr 0 worldDotC
    { st_size := 5, st_birthtime := 1000, st_mtime := 2000, finderInfo := none }
    (by decide) (by decide) rfl
  ⟨by decide, h.1, h.2.1⟩

theorem isFreeFd_iff (E : Errno) (fs : HostFS) (fd : Nat) :
    isFreeFd E fs fd = true ↔ fs.fdSize fd = .error E.EBADF := by
  unfold isFreeFd
  cases h : fs.fdSize fd with
  | error e => simp
  | ok n => simp

/-- The descriptor `open` hands out is free, the table being bounded as it says. -/
theorem lowestFreeFd_free (E : Errno) (fs : HostFS)
    (hbound : ∀ d, fs.fdBound ≤ d → fs.fdSize d = .error E.EBADF) :
    fs.fdSize (lowestFreeFd E fs) = .error E.EBADF := by
  unfold lowestFreeFd
  cases hfind : (List.range fs.fdBound).find? fun fd => isFreeFd E fs fd with
  | none => exact hbound _ (le_refl _)
  | some fd =>
    have := List.find?_some hfind
    exact (isFreeFd_iff E fs fd).mp this

/-- The table stays bounded when `open` succeeds. -/
theorem open_creat_excl_bounded (E : Errno) (fs fs1 : HostFS) (path : Str) (fd : Nat)
    (hbound : ∀ d, fs.fdBound ≤ d → fs.fdSize d = .error E.EBADF)
    (h : open_creat_excl E fs path = .ok (fd, fs1)) :
    ∀ d, fs1.fdBound ≤ d → fs1.fdSize d = .error E.EBADF := by
  unfold open_creat_excl at h
  cases hf : fs.file path with
  | ok f =>
    rw [hf] at h
    exact absurd h (by simp)
  | error e =>
    rw [hf] at h
    simp only [] at h
    by_cases hen : e = E.ENOENT
    · rw [if_pos hen] at h
      by_cases hp : path = []
      · rw [if_pos hp] at h
        exact absurd h (by simp)
      · rw [if_neg hp] at h
        cases hc : fs.createErr path with
        | some e' =>
          rw [hc] at h
          exact absurd h (by simp)
        | none =>
          rw [hc] at h
          simp only [Except.ok.injEq, Prod.mk.injEq] at h
          obtain ⟨hfd, hfs⟩ := h
          intro d hd
          rw [← hfs] at hd ⊢
          have hd1 : max fs.fdBound (lowestFreeFd E fs + 1) ≤ d := hd
          show (if d = lowestFreeFd E fs then Except.ok 0 else fs.fdSize d) = _
          rw [if_neg (by omega)]
          exact hbound d (by omega)
    · rw [if_neg hen] at h
      exact absurd h (by simp)

/-- The table stays bounded under `close`. -/
theorem close_bounded (E : Errno) (fs : HostFS) (fd : Nat)
    (hbound : ∀ d, fs.fdBound ≤ d → fs.fdSize d = .error E.EBADF) :
    ∀ d, (close E fs fd).fdBound ≤ d → (close E fs fd).fdSize d = .error E.EBADF := by
  intro d hd
  show (if d = fd then Except.error E.EBADF else fs.fdSize d) = _
  by_cases h : d = fd
  · rw [if_pos h]
  · rw [if_neg h]
    exact hbound d hd

/-- The steps of `Create` on a path that is not empty, is absent, and that the
host lets be created: `open` hands out the lowest free descriptor and makes the
empty file, `close` frees the descriptor, and the result is 0. -/
theorem Create_fresh (E : Errno) (K : OSErr) (trap : Nat) (w : World)
    (hpath : c_str (ReadPString w.mem (memoryReadLong w.mem (cpuGetAReg w 0 + 18))) ≠ [])
    (habsent : stat w.fs (c_str (ReadPString w.mem (memoryReadLong w.mem (cpuGetAReg w 0 + 18))))
      = .error E.ENOENT)
    (hcreate : w.fs.createErr
      (c_str (ReadPString w.mem (memoryReadLong w.mem (cpuGetAReg w 0 + 18)))) = none) :
    ∃ fs1, open_creat_excl E w.fs
        (c_str (ReadPString w.mem (memoryReadLong w.mem (cpuGetAReg w 0 + 18)))) =
        .ok (lowestFreeFd E w.fs, fs1) ∧
      fs1.fdSize = (fun d => if d = lowestFreeFd E w.fs then .ok 0 else w.fs.fdSize d) ∧
      fs1.file = (fun p =>
        if p = c_str (ReadPString w.mem (memoryReadLong w.mem (cpuGetAReg w 0 + 18))) then
          .ok { st_size := 0, st_birthtime := w.fs.now, st_mtime := w.fs.now,
                finderInfo := none }
        else w.fs.file p) ∧
      fs1.unlinkErr = w.fs.unlinkErr ∧
      Create E K trap w =
        (0, ({ w with fs := close E fs1 (lowestFreeFd E w.fs) } : World).writeWord 0
          (cpuGetAReg w 0 + 16)) := by
  have hf : w.fs.file
      (c_str (ReadPString w.mem (memoryReadLong w.mem (cpuGetAReg w 0 + 18)))) =
      .error E.ENOENT := habsent
  have hname : ReadPString w.mem (memoryReadLong w.mem (cpuGetAReg w 0 + 18)) ≠ [] := by
    intro h
    rw [h] at hpath
    exact hpath rfl
  have hopen : open_creat_excl E w.fs
      (c_str (ReadPString w.mem (memoryReadLong w.mem (cpuGetAReg w 0 + 18)))) =
      .ok (lowestFreeFd E w.fs,
        { w.fs with
          file := fun p =>
            if p = c_str (ReadPString w.mem (memoryReadLong w.mem (cpuGetAReg w 0 + 18))) then
              .ok { st_size := 0, st_birthtime := w.fs.now, st_mtime := w.fs.now,
                    finderInfo := none }
            else w.fs.file p,
          fdSize := fun d => if d = lowestFreeFd E w.fs then .ok 0 else w.fs.fdSize d,
          fdBound := max w.fs.fdBound (lowestFreeFd E w.fs + 1) }) := by
    unfold open_creat_excl
    rw [hf]
    simp only [if_true, if_neg hpath, hcreate]
  refine ⟨_, hopen, rfl, rfl, rfl, ?_⟩
  unfold Create
  simp only []
  rw [if_neg (length_ne_zero_of_ne_nil _ hname), hopen]

/-- C12. For every name whose path is not empty, is absent from the host (`stat`
fails with `ENOENT`) and may be created there (the host refuses neither the
creation nor, later, the unlink), the descriptor table being bounded as the
host says: `Create` returns `noErr` and leaves an empty file under that name;
the descriptor that `open` handed out, which was free before and open on the
new file in between, is free again, so that the descriptor table is the one
before the call. A `Delete` of the same name that follows on that host returns
`noErr`, after which `stat` of the name fails with `ENOENT` and every path
resolves as before `Create`. And `Delete` of a name that does not exist returns
`fnfErr`, writes it to the result field, and changes nothing on the host. -/
theorem C12_Create_Delete (E : Errno) (K : OSErr) (trap : Nat) (w : World)
    (hE : E.labels.Nodup)
    (hpath : c_str (ReadPString w.mem (memoryReadLong w.mem (cpuGetAReg w 0 + 18))) ≠ [])
    (habsent : stat w.fs (c_str (ReadPString w.mem (memoryReadLong w.mem (cpuGetAReg w 0 + 18))))
      = .error E.ENOENT)
    (hcreate : w.fs.createErr
      (c_str (ReadPString w.mem (memoryReadLong w.mem (cpuGetAReg w 0 + 18)))) = none)
    (hbound : ∀ d, w.fs.fdBound ≤ d → w.fs.fdSize d = .error E.EBADF) :
    ((Create E K trap w).1 = noErr ∧
      memoryReadWord (Create E K trap w).2.mem (cpuGetAReg w 0 + 16) = noErr ∧
      stat (Create E K trap w).2.fs
        (c_str (ReadPString w.mem (memoryReadLong w.mem (cpuGetAReg w 0 + 18)))) =
        .ok { st_size := 0, st_birthtime := w.fs.now, st_mtime := w.fs.now,
              finderInfo := none }) ∧
    (∃ fd fs1, open_creat_excl E w.fs
          (c_str (ReadPString w.mem (memoryReadLong w.mem (cpuGetAReg w 0 + 18)))) =
          .ok (fd, fs1) ∧
        fstat w.fs fd = .error E.EBADF ∧
        fstat fs1 fd = .ok 0 ∧
        (Create E K trap w).2.fs = close E fs1 fd ∧
        fstat (Create E K trap w).2.fs fd = .error E.EBADF) ∧
    (∀ fd, fstat (Create E K trap w).2.fs fd = fstat w.fs fd) ∧
    (∀ (trap' : Nat) (w' : World),
      w'.fs = (Create E K trap w).2.fs →
      ReadPString w'.mem (memoryReadLong w'.mem (cpuGetAReg w' 0 + 18)) =
        ReadPString w.mem (memoryReadLong w.mem (cpuGetAReg w 0 + 18)) →
      w.fs.unlinkErr
        (c_str (ReadPString w.mem (memoryReadLong w.mem (cpuGetAReg w 0 + 18)))) = none →
      (Delete E K trap' w').1 = noErr ∧
      stat (Delete E K trap' w').2.fs
        (c_str (ReadPString w.mem (memoryReadLong w.mem (cpuGetAReg w 0 + 18)))) =
        .error E.ENOENT ∧
      (∀ p, stat (Delete E K trap' w').2.fs p = stat w.fs p) ∧
      (∀ fd, fstat (Delete E K trap' w').2.fs fd = fstat w.fs fd)) ∧
    ((Delete E K trap w).1 = u16 K.fnfErr ∧
      memoryReadWord (Delete E K trap w).2.mem (cpuGetAReg w 0 + 16) = u16 K.fnfErr ∧
      (Delete E K trap w).2.fs = w.fs) := by
  have hf : w.fs.file
      (c_str (ReadPString w.mem (memoryReadLong w.mem (cpuGetAReg w 0 + 18)))) =
      .error E.ENOENT := habsent
  have hname : ReadPString w.mem (memoryReadLong w.mem (cpuGetAReg w 0 + 18)) ≠ [] := by
    intro h
    rw [h] at hpath
    exact hpath rfl
  have hfree := lowestFreeFd_free E w.fs hbound
  obtain ⟨fs1, hopen, hfd1, hfile1, hunl1, hcr⟩ := Create_fresh E K trap w hpath habsent hcreate
  have hfs2 : (Create E K trap w).2.fs = close E fs1 (lowestFreeFd E w.fs) := by
    rw [hcr]
    rfl
  have htable : ∀ fd, fstat (Create E K trap w).2.fs fd = fstat w.fs fd := by
    intro fd
    rw [hfs2]
    show (close E fs1 (lowestFreeFd E w.fs)).fdSize fd = w.fs.fdSize fd
    simp only [close, hfd1]
    by_cases h : fd = lowestFreeFd E w.fs
    · rw [if_pos h, h, hfree]
    · rw [if_neg h, if_neg h]
  have hfile2 : ∀ p, (Create E K trap w).2.fs.file p = fs1.file p := by
    intro p
    rw [hfs2]
    rfl
  refine ⟨⟨?_, ?_, ?_⟩, ?_, htable, ?_, ?_⟩
  · rw [hcr]
    rfl
  · rw [hcr]
    exact readWord_writeWord _ _ _
  · show (Create E K trap w).2.fs.file _ = _
    rw [hfile2, hfile1]
    simp only [if_true]
  · refine ⟨lowestFreeFd E w.fs, fs1, hopen, hfree, ?_, hfs2, ?_⟩
    · show fs1.fdSize _ = _
      rw [hfd1]
      simp only [if_true]
    · rw [htable]
      exact hfree
  · intro trap' w' hfs hname' hunlink
    have hf' : w'.fs.file
        (c_str (ReadPString w.mem (memoryReadLong w.mem (cpuGetAReg w 0 + 18)))) =
        .ok { st_size := 0, st_birthtime := w.fs.now, st_mtime := w.fs.now,
              finderInfo := none } := by
      rw [hfs, hfile2, hfile1]
      simp only [if_true]
    have hu' : w'.fs.unlinkErr
        (c_str (ReadPString w.mem (memoryReadLong w.mem (cpuGetAReg w 0 + 18)))) = none := by
      rw [hfs, hfs2]
      show fs1.unlinkErr _ = none
      rw [hunl1]
      exact hunlink
    have hdel : Delete E K trap' w' =
        (0, (World.mk w'.aReg w'.dReg w'.mem
          (w'.fs.put (c_str (ReadPString w.mem (memoryReadLong w.mem (cpuGetAReg w 0 + 18))))
            (.error E.ENOENT))
          w'.stores).writeWord 0 (cpuGetAReg w' 0 + 16)) := by
      unfold Delete
      simp only []
      rw [hname', if_neg (length_ne_zero_of_ne_nil _ hname)]
      simp only [unlink, hf', hu']
    have hstat : ∀ p, stat (Delete E K trap' w').2.fs p = stat w.fs p := by
      intro p
      rw [hdel]
      show (w'.fs.put _ _).file p = w.fs.file p
      simp only [HostFS.put]
      by_cases hp : p = c_str (ReadPString w.mem (memoryReadLong w.mem (cpuGetAReg w 0 + 18)))
      · rw [if_pos hp, hp, hf]
      · rw [if_neg hp, hfs, hfile2, hfile1]
        simp only [if_neg hp]
    refine ⟨?_, ?_, hstat, ?_⟩
    · rw [hdel]
      rfl
    · rw [hstat]
      exact habsent
    · intro fd
      rw [hdel]
      show (w'.fs.put _ _).fdSize fd = w.fs.fdSize fd
      simp only [HostFS.put]
      rw [hfs]
      exact htable fd
  · unfold Delete
    simp only []
    rw [if_neg (length_ne_zero_of_ne_nil _ hname)]
    simp only [unlink, hf, errno_to_oserr_ENOENT E K hE]
    exact ⟨Nat.mod_eq_of_lt (u16_lt _), readWord_writeWord_u16 _ _ _, rfl⟩

/-- C12 on the name "new" on a host without files where the descriptors 0, 1, 2
are open: `Create` returns 0, the descriptor `open` handed out is 3 and `fstat`
on it fails again afterwards, the `Delete` that follows returns 0, and a
`Delete` without the `Create` returns `fnfErr`, 65493 as a 16-bit word. -/
theorem C12_Create_Delete_witness :
    darwin.labels.Nodup ∧
    (Create darwin macOSErr 0 worldFresh).1 = 0 ∧
    lowestFreeFd darwin worldFresh.fs = 3 ∧
    fstat (Create darwin macOSErr 0 worldFresh).2.fs 3 = fstat worldFresh.fs 3 ∧
    (Delete darwin macOSErr 0 (Create darwin macOSErr 0 worldFresh).2).1 = 0 ∧
    (Delete darwin macOSErr 0 worldFresh).1 = 65493 :=
  have h := C12_Create_Delete darwin macOSErr 0 worldFresh (by decide) (by decide) rfl rfl
    (fun d hd => by
      show (if d < 3 then Except.ok 0 else Except.error 9) = Except.error 9
      rw [if_neg (by
        have : (3 : Nat) ≤ d := hd
        omega)])
  ⟨by decide, h.1.1, by decide, h.2.2.1 3,
   (h.2.2.2.1 0 (Create darwin macOSErr 0 worldFresh).2 rfl (by decide) rfl).1, h.2.2.2.2.1⟩

/-- A name that is not empty but whose path is: on the PascalName of length 1
whose byte is NUL, `open` gets the empty path and fails with `ENOENT`, and
`Create` returns `fnfErr`, leaving the host as it was. -/
theorem Create_nul_name :
    ReadPString worldNulName.mem
      (memoryReadLong worldNulName.mem (cpuGetAReg worldNulName 0 + 18)) = [0] ∧
    stat worldNulName.fs [] = .error darwin.ENOENT ∧
    worldNulName.fs.createErr [] = none ∧
    (Create darwin macOSErr 0 worldNulName).1 = u16 macOSErr.fnfErr ∧
    (Create darwin macOSErr 0 worldNulName).2.fs = worldNulName.fs := by
  refine ⟨by decide, rfl, rfl, by decide, rfl⟩

/-! ## C13: `GetEOF` -/

theorem writeByte_stores (w : World) (d a : Nat) :
    (w.writeByte d a).stores = w.stores ++ [(a % 2 ^ 32, 1)] := rfl

theorem writeWord_stores (w : World) (d a : Nat) :
    (w.writeWord d a).stores = w.stores ++ [(a % 2 ^ 32, 2)] := rfl

theorem writeLong_stores (w : World) (d a : Nat) :
    (w.writeLong d a).stores = w.stores ++ [(a % 2 ^ 32, 4)] := rfl

theorem writeBytes_stores (w : World) (b : Str) (a : Nat) :
    (w.writeBytes b a).stores = w.stores ++ [(a % 2 ^ 32, b.length)] := rfl

/-- The long read back from where a long was written. -/
theorem readLong_writeLong (mem : Mem) (d a : Nat) :
    memoryReadLong (memoryWriteLong mem d a) a = d % 2 ^ 32 := by
  have h0 : memoryReadByte (memoryWriteLong mem d a) a = d / 65536 / 256 % 256 := by
    unfold memoryWriteLong memoryWriteWord
    rw [read_writeByte, if_neg (by omega), read_writeByte, if_neg (by omega),
      read_writeByte, if_neg (by omega), read_writeByte, if_pos rfl]
  have h1 : memoryReadByte (memoryWriteLong mem d a) (a + 1) = d / 65536 % 256 := by
    unfold memoryWriteLong memoryWriteWord
    rw [read_writeByte, if_neg (by omega), read_writeByte, if_neg (by omega),
      read_writeByte, if_pos rfl]
  have h2 : memoryReadByte (memoryWriteLong mem d a) (a + 2) = d / 256 % 256 := by
    unfold memoryWriteLong memoryWriteWord
    rw [read_writeByte, if_neg (by omega), read_writeByte, if_pos rfl]
  have h3 : memoryReadByte (memoryWriteLong mem d a) (a + 2 + 1) = d % 256 := by
    unfold memoryWriteLong memoryWriteWord
    rw [read_writeByte, if_pos rfl]
  unfold memoryReadLong memoryReadWord
  rw [h0, h1, h2, h3]
  omega

/-- A word read at offset `j` of a block after a long write at offset `k`
that does not reach it. -/
theorem readWord_writeLong_off (mem : Mem) (d base j k : Nat) (hj : j + 1 < 2 ^ 32)
    (hk : k + 3 < 2 ^ 32) (h : j + 1 < k ∨ k + 3 < j) :
    memoryReadWord (memoryWriteLong mem d (base + k)) (base + j) =
      memoryReadWord mem (base + j) := by
  unfold memoryReadWord
  rw [Nat.add_assoc, read_writeLong_off _ _ _ _ _ (by omega) hk (by omega),
    read_writeLong_off _ _ _ _ _ (by omega) hk (by omega)]

/-- C13. For every descriptor number read from block offset 24, `GetEOF` makes two
stores, the result word at offset 16 and the size long at offset 28, whatever
`fstat` answers: when `fstat` succeeds the result is 0 and the size is the
file's byte size modulo 2^32; when it fails with error number `e` the result is
the translation of `e` and the size is 0. The value returned is the result
word, and the host file system is left as it was. -/
theorem C13_GetEOF (E : Errno) (K : OSErr) (trap : Nat) (w : World) :
    (GetEOF E K trap w).2.stores =
      w.stores ++ [((cpuGetAReg w 0 + 16) % 2 ^ 32, 2), ((cpuGetAReg w 0 + 28) % 2 ^ 32, 4)] ∧
    memoryReadWord (GetEOF E K trap w).2.mem (cpuGetAReg w 0 + 16) = (GetEOF E K trap w).1 ∧
    (GetEOF E K trap w).2.fs = w.fs ∧
    (∀ st_size, fstat w.fs (memoryReadWord w.mem (cpuGetAReg w 0 + 24)) = .ok st_size →
      (GetEOF E K trap w).1 = 0 ∧
      memoryReadLong (GetEOF E K trap w).2.mem (cpuGetAReg w 0 + 28) = st_size % 2 ^ 32) ∧
    (∀ e, fstat w.fs (memoryReadWord w.mem (cpuGetAReg w 0 + 24)) = .error e →
      (GetEOF E K trap w).1 = errno_to_oserr E K e ∧
      memoryReadLong (GetEOF E K trap w).2.mem (cpuGetAReg w 0 + 28) = 0) := by
  have hsplit : (∃ sz, fstat w.fs (memoryReadWord w.mem (cpuGetAReg w 0 + 24)) = .ok sz ∧
        GetEOF E K trap w = (0, (w.writeWord 0 (cpuGetAReg w 0 + 16)).writeLong (sz % 2 ^ 64)
          (cpuGetAReg w 0 + 28))) ∨
      (∃ e, fstat w.fs (memoryReadWord w.mem (cpuGetAReg w 0 + 24)) = .error e ∧
        GetEOF E K trap w = (errno_to_oserr E K e,
          (w.writeWord (errno_to_oserr E K e) (cpuGetAReg w 0 + 16)).writeLong 0
            (cpuGetAReg w 0 + 28))) := by
    cases hr : fstat w.fs (memoryReadWord w.mem (cpuGetAReg w 0 + 24)) with
    | ok sz =>
      refine Or.inl ⟨sz, rfl, ?_⟩
      unfold GetEOF
      simp only [hr]
    | error e =>
      refine Or.inr ⟨e, rfl, ?_⟩
      unfold GetEOF
      simp only [hr]
      rw [Nat.mod_eq_of_lt (errno_to_oserr_lt E K e)]
  rcases hsplit with ⟨sz, hr, hg⟩ | ⟨e, hr, hg⟩
  · rw [hg, hr]
    refine ⟨?_, ?_, rfl, ?_, ?_⟩
    · simp only [writeLong_stores, writeWord_stores, List.append_assoc, List.cons_append,
        List.nil_append]
    · simp only [writeLong_mem, writeWord_mem]
      exact (readWord_writeLong_off _ _ _ _ _ (by omega) (by omega) (by omega)).trans
        (readWord_writeWord _ _ _)
    · intro st_size h
      simp only [Except.ok.injEq] at h
      subst h
      refine ⟨rfl, ?_⟩
      simp only [writeLong_mem]
      refine (readLong_writeLong _ _ _).trans ?_
      omega
    · intro e h
      exact absurd h (by simp)
  · rw [hg, hr]
    refine ⟨?_, ?_, rfl, ?_, ?_⟩
    · simp only [writeLong_stores, writeWord_stores, List.append_assoc, List.cons_append,
        List.nil_append]
    · simp only [writeLong_mem, writeWord_mem]
      exact (readWord_writeLong_off _ _ _ _ _ (by omega) (by omega) (by omega)).trans
        (readWord_writeWord_errno _ _ _ _ _)
    · intro st_size h
      exact absurd h (by simp)
    · intro e' h
      simp only [Except.error.injEq] at h
      subst h
      refine ⟨rfl, ?_⟩
      simp only [writeLong_mem]
      exact readLong_writeLong _ _ _

/-- C13 on descriptor 3, a file of 2^32 + 7 bytes: `GetEOF` returns 0 and the size
field reads 7. -/
theorem C13_GetEOF_witness :
    fstat worldFd.fs (memoryReadWord worldFd.mem (cpuGetAReg worldFd 0 + 24)) = .ok (2 ^ 32 + 7) ∧
    (GetEOF darwin macOSErr 0 worldFd).1 = 0 ∧
    memoryReadLong (GetEOF darwin macOSErr 0 worldFd).2.mem (1000 + 28) = 7 :=
  have h := (C13_GetEOF darwin macOSErr 0 worldFd).2.2.2.1 (2 ^ 32 + 7) rfl
  ⟨rfl, h.1, h.2⟩

/-! ## `GetFileInfo` on a named lookup that finds the file: memory and stores -/

/-- Guest memory after a named lookup that finds the file: the stores of
`GetFileInfo`, in source order, on the memory it started from. -/
theorem GetFileInfo_found_mem (E : Errno) (K : OSErr) (U : Int → Int) (trap : Nat) (w : World)
    (st : File)
    (hidx : toInt16 (memoryReadWord w.mem (cpuGetAReg w 0 + 28)) ≤ 0)
    (hptr : memoryReadLong w.mem (cpuGetAReg w 0 + 18) ≠ 0)
    (hstat : stat w.fs (c_str (ReadPString w.mem (memoryReadLong w.mem (cpuGetAReg w 0 + 18))))
      = .ok st) :
    (GetFileInfo E K U trap w).world.mem =
      memoryWriteWord (memoryWriteLong (memoryWriteLong (memoryWriteWord
        (memoryWriteLong (memoryWriteLong (memoryWriteLong (memoryWriteLong (memoryWriteWord
          (memoryWriteLong (memoryWriteByte (memoryWriteByte (memoryWriteWord
            (memoryWriteBytes w.mem
              ((if IsTextFile (ReadPString w.mem (memoryReadLong w.mem (cpuGetAReg w 0 + 18)))
                    = true then
                  lit "TEXTMPS " ++ (getxattr w.fs
                    (c_str (ReadPString w.mem (memoryReadLong w.mem (cpuGetAReg w 0 + 18))))
                    (List.replicate 32 0)).drop 8
                else getxattr w.fs
                    (c_str (ReadPString w.mem (memoryReadLong w.mem (cpuGetAReg w 0 + 18))))
                    (List.replicate 32 0)).take 16)
              (cpuGetAReg w 0 + 32))
            0 (cpuGetAReg w 0 + 24)) 0 (cpuGetAReg w 0 + 30)) 0 (cpuGetAReg w 0 + 31))
            0 (cpuGetAReg w 0 + 48)) 0 (cpuGetAReg w 0 + 52))
          st.st_size (cpuGetAReg w 0 + 54)) st.st_size (cpuGetAReg w 0 + 58))
          (u32 (U st.st_birthtime)) (cpuGetAReg w 0 + 72))
          (u32 (U st.st_mtime)) (cpuGetAReg w 0 + 76))
        0 (cpuGetAReg w 0 + 62))
        (sizeOrZero (stat w.fs (c_str
          (ReadPString w.mem (memoryReadLong w.mem (cpuGetAReg w 0 + 18)) ++ _PATH_RSRCFORKSPEC))))
        (cpuGetAReg w 0 + 64))
        (sizeOrZero (stat w.fs (c_str
          (ReadPString w.mem (memoryReadLong w.mem (cpuGetAReg w 0 + 18)) ++ _PATH_RSRCFORKSPEC))))
        (cpuGetAReg w 0 + 68))
      0 (cpuGetAReg w 0 + 16) := by
  unfold GetFileInfo
  simp only []
  rw [if_pos hidx, if_neg hptr, hstat]
  simp only [writeByte_fs, writeWord_fs, writeLong_fs, writeBytes_fs]
  cases stat w.fs (c_str
    (ReadPString w.mem (memoryReadLong w.mem (cpuGetAReg w 0 + 18)) ++ _PATH_RSRCFORKSPEC))
  all_goals
    simp only [Outcome.world, sizeOrZero]
    rw [writeWord_mem, writeLong_mem, writeLong_mem, writeWord_mem, writeLong_mem, writeLong_mem,
      writeLong_mem, writeLong_mem, writeWord_mem, writeLong_mem, writeByte_mem, writeByte_mem,
      writeWord_mem, writeBytes_mem]

/-- The stores a named lookup that finds the file makes, in order. -/
theorem GetFileInfo_found_stores (E : Errno) (K : OSErr) (U : Int → Int) (trap : Nat)
    (w : World) (st : File)
    (hidx : toInt16 (memoryReadWord w.mem (cpuGetAReg w 0 + 28)) ≤ 0)
    (hptr : memoryReadLong w.mem (cpuGetAReg w 0 + 18) ≠ 0)
    (hstat : stat w.fs (c_str (ReadPString w.mem (memoryReadLong w.mem (cpuGetAReg w 0 + 18))))
      = .ok st) :
    (GetFileInfo E K U trap w).world.stores = w.stores ++
      [((cpuGetAReg w 0 + 32) % 2 ^ 32, 16), ((cpuGetAReg w 0 + 24) % 2 ^ 32, 2),
       ((cpuGetAReg w 0 + 30) % 2 ^ 32, 1), ((cpuGetAReg w 0 + 31) % 2 ^ 32, 1),
       ((cpuGetAReg w 0 + 48) % 2 ^ 32, 4), ((cpuGetAReg w 0 + 52) % 2 ^ 32, 2),
       ((cpuGetAReg w 0 + 54) % 2 ^ 32, 4), ((cpuGetAReg w 0 + 58) % 2 ^ 32, 4),
       ((cpuGetAReg w 0 + 72) % 2 ^ 32, 4), ((cpuGetAReg w 0 + 76) % 2 ^ 32, 4),
       ((cpuGetAReg w 0 + 62) % 2 ^ 32, 2), ((cpuGetAReg w 0 + 64) % 2 ^ 32, 4),
       ((cpuGetAReg w 0 + 68) % 2 ^ 32, 4), ((cpuGetAReg w 0 + 16) % 2 ^ 32, 2)] := by
  have hlen := finderBuffer_length w.fs
    (ReadPString w.mem (memoryReadLong w.mem (cpuGetAReg w 0 + 18)))
  unfold GetFileInfo
  simp only []
  rw [if_pos hidx, if_neg hptr, hstat]
  simp only [writeByte_fs, writeWord_fs, writeLong_fs, writeBytes_fs]
  cases stat w.fs (c_str
    (ReadPString w.mem (memoryReadLong w.mem (cpuGetAReg w 0 + 18)) ++ _PATH_RSRCFORKSPEC))
  all_goals
    simp only [Outcome.world]
    rw [writeWord_stores, writeLong_stores, writeLong_stores, writeWord_stores,
      writeLong_stores, writeLong_stores, writeLong_stores, writeLong_stores, writeWord_stores,
      writeLong_stores, writeByte_stores, writeByte_stores, writeWord_stores,
      writeBytes_stores, List.length_take, hlen]
    simp only [List.append_assoc, List.cons_append, List.nil_append]
    rfl

/-! ## C16: the fields `GetFileInfo` fills in -/

theorem readByte_writeByte_same (mem : Mem) (d a : Nat) :
    memoryReadByte (memoryWriteByte mem d a) a = d % 256 := by
  rw [read_writeByte, if_pos rfl]

theorem readWord_writeByte_off (mem : Mem) (d base j k : Nat) (hj : j + 1 < 2 ^ 32)
    (hk : k < 2 ^ 32) (h : k < j ∨ j + 1 < k) :
    memoryReadWord (memoryWriteByte mem d (base + k)) (base + j) =
      memoryReadWord mem (base + j) := by
  unfold memoryReadWord
  rw [Nat.add_assoc, read_writeByte_off _ _ _ _ _ (by omega) hk (by omega),
    read_writeByte_off _ _ _ _ _ (by omega) hk (by omega)]

theorem readWord_writeWord_off (mem : Mem) (d base j k : Nat) (hj : j + 1 < 2 ^ 32)
    (hk : k + 1 < 2 ^ 32) (h : j + 1 < k ∨ k + 1 < j) :
    memoryReadWord (memoryWriteWord mem d (base + k)) (base + j) =
      memoryReadWord mem (base + j) := by
  unfold memoryReadWord
  rw [Nat.add_assoc, read_writeWord_off _ _ _ _ _ (by omega) hk (by omega),
    read_writeWord_off _ _ _ _ _ (by omega) hk (by omega)]

theorem readLong_writeWord_off (mem : Mem) (d base j k : Nat) (hj : j + 3 < 2 ^ 32)
    (hk : k + 1 < 2 ^ 32) (h : j + 3 < k ∨ k + 1 < j) :
    memoryReadLong (memoryWriteWord mem d (base + k)) (base + j) =
      memoryReadLong mem (base + j) := by
  unfold memoryReadLong
  rw [Nat.add_assoc, readWord_writeWord_off _ _ _ _ _ (by omega) hk (by omega),
    readWord_writeWord_off _ _ _ _ _ (by omega) hk (by omega)]

theorem readLong_writeLong_off (mem : Mem) (d base j k : Nat) (hj : j + 3 < 2 ^ 32)
    (hk : k + 3 < 2 ^ 32) (h : j + 3 < k ∨ k + 3 < j) :
    memoryReadLong (memoryWriteLong mem d (base + k)) (base + j) =
      memoryReadLong mem (base + j) := by
  unfold memoryReadLong
  rw [Nat.add_assoc, readWord_writeLong_off _ _ _ _ _ (by omega) hk (by omega),
    readWord_writeLong_off _ _ _ _ _ (by omega) hk (by omega)]

/-- C16. For every path that `stat` finds, a named lookup by `GetFileInfo` (name
pointer not null) leaves the data-fork size, the host file size modulo 2^32, in
both 32-bit fields at offsets 54 and 58, and the resource-fork size in both
32-bit fields at offsets 64 and 68, that size being the size `stat` reports for
the path with the resource-fork suffix appended, or 0 when that `stat` fails;
it leaves 0 in the reference number (24), the attributes (30), the version
(31), the file id (48) and the words at 52 and 62, and it ends with result
`noErr`, written at offset 16 and returned. -/
theorem C16_GetFileInfo_fields (E : Errno) (K : OSErr) (U : Int → Int) (trap : Nat)
    (w : World) (st : File)
    (hidx : toInt16 (memoryReadWord w.mem (cpuGetAReg w 0 + 28)) ≤ 0)
    (hptr : memoryReadLong w.mem (cpuGetAReg w 0 + 18) ≠ 0)
    (hstat : stat w.fs (c_str (ReadPString w.mem (memoryReadLong w.mem (cpuGetAReg w 0 + 18))))
      = .ok st) :
    memoryReadLong (GetFileInfo E K U trap w).world.mem (cpuGetAReg w 0 + 54)
      = st.st_size % 2 ^ 32 ∧
    memoryReadLong (GetFileInfo E K U trap w).world.mem (cpuGetAReg w 0 + 58)
      = st.st_size % 2 ^ 32 ∧
    memoryReadLong (GetFileInfo E K U trap w).world.mem (cpuGetAReg w 0 + 64)
      = sizeOrZero (stat w.fs (c_str
          (ReadPString w.mem (memoryReadLong w.mem (cpuGetAReg w 0 + 18)) ++ _PATH_RSRCFORKSPEC)))
        % 2 ^ 32 ∧
    memoryReadLong (GetFileInfo E K U trap w).world.mem (cpuGetAReg w 0 + 68)
      = sizeOrZero (stat w.fs (c_str
          (ReadPString w.mem (memoryReadLong w.mem (cpuGetAReg w 0 + 18)) ++ _PATH_RSRCFORKSPEC)))
        % 2 ^ 32 ∧
    memoryReadWord (GetFileInfo E K U trap w).world.mem (cpuGetAReg w 0 + 24) = 0 ∧
    memoryReadByte (GetFileInfo E K U trap w).world.mem (cpuGetAReg w 0 + 30) = 0 ∧
    memoryReadByte (GetFileInfo E K U trap w).world.mem (cpuGetAReg w 0 + 31) = 0 ∧
    memoryReadLong (GetFileInfo E K U trap w).world.mem (cpuGetAReg w 0 + 48) = 0 ∧
    memoryReadWord (GetFileInfo E K U trap w).world.mem (cpuGetAReg w 0 + 52) = 0 ∧
    memoryReadWord (GetFileInfo E K U trap w).world.mem (cpuGetAReg w 0 + 62) = 0 ∧
    memoryReadWord (GetFileInfo E K U trap w).world.mem (cpuGetAReg w 0 + 16) = noErr ∧
    (GetFileInfo E K U trap w).result = some noErr := by
  have hres := (GetFileInfo_found E K U trap w st hidx hptr hstat).1
  rw [GetFileInfo_found_mem E K U trap w st hidx hptr hstat]
  refine ⟨?_, ?_, ?_, ?_, ?_, ?_, ?_, ?_, ?_, ?_, ?_, hres⟩
  ·
    rw [readLong_writeWord_off _ _ _ _ _ (by omega) (by omega) (by omega),
      readLong_writeLong_off _ _ _ _ _ (by omega) (by omega) (by omega),
      readLong_writeLong_off _ _ _ _ _ (by omega) (by omega) (by omega),
      readLong_writeWord_off _ _ _ _ _ (by omega) (by omega) (by omega),
      readLong_writeLong_off _ _ _ _ _ (by omega) (by omega) (by omega),
      readLong_writeLong_off _ _ _ _ _ (by omega) (by omega) (by omega),
      readLong_writeLong_off _ _ _ _ _ (by omega) (by omega) (by omega)]
    exact readLong_writeLong _ _ _
  ·
    rw [readLong_writeWord_off _ _ _ _ _ (by omega) (by omega) (by omega),
      readLong_writeLong_off _ _ _ _ _ (by omega) (by omega) (by omega),
      readLong_writeLong_off _ _ _ _ _ (by omega) (by omega) (by omega),
      readLong_writeWord_off _ _ _ _ _ (by omega) (by omega) (by omega),
      readLong_writeLong_off _ _ _ _ _ (by omega) (by omega) (by omega),
      readLong_writeLong_off _ _ _ _ _ (by omega) (by omega) (by omega)]
    exact readLong_writeLong _ _ _
  ·
    rw [readLong_writeWord_off _ _ _ _ _ (by omega) (by omega) (by omega),
      readLong_writeLong_off _ _ _ _ _ (by omega) (by omega) (by omega)]
    exact readLong_writeLong _ _ _
  ·
    rw [readLong_writeWord_off _ _ _ _ _ (by omega) (by omega) (by omega)]
    exact readLong_writeLong _ _ _
  ·
    rw [readWord_writeWord_off _ _ _ _ _ (by omega) (by omega) (by omega),
      readWord_writeLong_off _ _ _ _ _ (by omega) (by omega) (by omega),
      readWord_writeLong_off _ _ _ _ _ (by omega) (by omega) (by omega),
      readWord_writeWord_off _ _ _ _ _ (by omega) (by omega) (by omega),
      readWord_writeLong_off _ _ _ _ _ (by omega) (by omega) (by omega),
      readWord_writeLong_off _ _ _ _ _ (by omega) (by omega) (by omega),
      readWord_writeLong_off _ _ _ _ _ (by omega) (by omega) (by omega),
      readWord_writeLong_off _ _ _ _ _ (by omega) (by omega) (by omega),
      readWord_writeWord_off _ _ _ _ _ (by omega) (by omega) (by omega),
      readWord_writeLong_off _ _ _ _ _ (by omega) (by omega) (by omega),
      readWord_writeByte_off _ _ _ _ _ (by omega) (by omega) (by omega),
      readWord_writeByte_off _ _ _ _ _ (by omega) (by omega) (by omega)]
    exact readWord_writeWord _ _ _
  ·
    rw [read_writeWord_off _ _ _ _ _ (by omega) (by omega) (by omega),
      read_writeLong_off _ _ _ _ _ (by omega) (by omega) (by omega),
      read_writeLong_off _ _ _ _ _ (by omega) (by omega) (by omega),
      read_writeWord_off _ _ _ _ _ (by omega) (by omega) (by omega),
      read_writeLong_off _ _ _ _ _ (by omega) (by omega) (by omega),
      read_writeLong_off _ _ _ _ _ (by omega) (by omega) (by omega),
      read_writeLong_off _ _ _ _ _ (by omega) (by omega) (by omega),
      read_writeLong_off _ _ _ _ _ (by omega) (by omega) (by omega),
      read_writeWord_off _ _ _ _ _ (by omega) (by omega) (by omega),
      read_writeLong_off _ _ _ _ _ (by omega) (by omega) (by omega),
      read_writeByte_off _ _ _ _ _ (by omega) (by omega) (by omega)]
    exact readByte_writeByte_same _ _ _
  ·
    rw [read_writeWord_off _ _ _ _ _ (by omega) (by omega) (by omega),
      read_writeLong_off _ _ _ _ _ (by omega) (by omega) (by omega),
      read_writeLong_off _ _ _ _ _ (by omega) (by omega) (by omega),
      read_writeWord_off _ _ _ _ _ (by omega) (by omega) (by omega),
      read_writeLong_off _ _ _ _ _ (by omega) (by omega) (by omega),
      read_writeLong_off _ _ _ _ _ (by omega) (by omega) (by omega),
      read_writeLong_off _ _ _ _ _ (by omega) (by omega) (by omega),
      read_writeLong_off _ _ _ _ _ (by omega) (by omega) (by omega),
      read_writeWord_off _ _ _ _ _ (by omega) (by omega) (by omega),
      read_writeLong_off _ _ _ _ _ (by omega) (by omega) (by omega)]
    exact readByte_writeByte_same _ _ _
  ·
    rw [readLong_writeWord_off _ _ _ _ _ (by omega) (by omega) (by omega),
      readLong_writeLong_off _ _ _ _ _ (by omega) (by omega) (by omega),
      readLong_writeLong_off _ _ _ _ _ (by omega) (by omega) (by omega),
      readLong_writeWord_off _ _ _ _ _ (by omega) (by omega) (by omega),
      readLong_writeLong_off _ _ _ _ _ (by omega) (by omega) (by omega),
      readLong_writeLong_off _ _ _ _ _ (by omega) (by omega) (by omega),
      readLong_writeLong_off _ _ _ _ _ (by omega) (by omega) (by omega),
      readLong_writeLong_off _ _ _ _ _ (by omega) (by omega) (by omega),
      readLong_writeWord_off _ _ _ _ _ (by omega) (by omega) (by omega)]
    exact readLong_writeLong _ _ _
  ·
    rw [readWord_writeWord_off _ _ _ _ _ (by omega) (by omega) (by omega),
      readWord_writeLong_off _ _ _ _ _ (by omega) (by omega) (by omega),
      readWord_writeLong_off _ _ _ _ _ (by omega) (by omega) (by omega),
      readWord_writeWord_off _ _ _ _ _ (by omega) (by omega) (by omega),
      readWord_writeLong_off _ _ _ _ _ (by omega) (by omega) (by omega),
      readWord_writeLong_off _ _ _ _ _ (by omega) (by omega) (by omega),
      readWord_writeLong_off _ _ _ _ _ (by omega) (by omega) (by omega),
      readWord_writeLong_off _ _ _ _ _ (by omega) (by omega) (by omega)]
    exact readWord_writeWord _ _ _
  ·
    rw [readWord_writeWord_off _ _ _ _ _ (by omega) (by omega) (by omega),
      readWord_writeLong_off _ _ _ _ _ (by omega) (by omega) (by omega),
      readWord_writeLong_off _ _ _ _ _ (by omega) (by omega) (by omega)]
    exact readWord_writeWord _ _ _
  ·
    exact readWord_writeWord _ _ _

/-- C16 on the file "a.c" of 5 bytes with a resource fork of 9 bytes: both
data-size fields read 5 and both resource-size fields read 9. -/
theorem C16_GetFileInfo_fields_witness :
    memoryReadLong (GetFileInfo darwin macOSErr id 0 worldRsrc).world.mem (1000 + 54) = 5 ∧
    memoryReadLong (GetFileInfo darwin macOSErr id 0 worldRsrc).world.mem (1000 + 58) = 5 ∧
    memoryReadLong (GetFileInfo darwin macOSErr id 0 worldRsrc).world.mem (1000 + 64) = 9 ∧
    memoryReadLong (GetFileInfo darwin macOSErr id 0 worldRsrc).world.mem (1000 + 68) = 9 ∧
    (GetFileInfo darwin macOSErr id 0 worldRsrc).result = some 0 :=
  have h := C16_GetFileInfo_fields darwin macOSErr id 0 worldRsrc
    { st_size := 5, st_birthtime := 1000, st_mtime := 2000, finderInfo := none }
    (by decide) (by decide) rfl
  ⟨h.1, h.2.1, h.2.2.1, h.2.2.2.1, h.2.2.2.2.2.2.2.2.2.2.2⟩

/-! ## C18, C19, C15: the other paths of `GetFileInfo` -/

/-- C18. For every named lookup by `GetFileInfo` (name pointer not null) whose
`stat` of the path fails with host error `e`: the one store made is the 16-bit
result field at offset 16, set to `errno_to_oserr e`, which is also the value
returned; every byte of guest memory outside that field, the Finder-info span,
the sizes and the time stamps among them, keeps its value, and so does the
host. -/
theorem C18_GetFileInfo_stat_failure (E : Errno) (K : OSErr) (U : Int → Int) (trap : Nat)
    (w : World) (e : Int)
    (hidx : toInt16 (memoryReadWord w.mem (cpuGetAReg w 0 + 28)) ≤ 0)
    (hptr : memoryReadLong w.mem (cpuGetAReg w 0 + 18) ≠ 0)
    (hstat : stat w.fs (c_str (ReadPString w.mem (memoryReadLong w.mem (cpuGetAReg w 0 + 18))))
      = .error e) :
    (GetFileInfo E K U trap w).result = some (errno_to_oserr E K e) ∧
    memoryReadWord (GetFileInfo E K U trap w).world.mem (cpuGetAReg w 0 + 16)
      = errno_to_oserr E K e ∧
    (GetFileInfo E K U trap w).world.stores = w.stores ++ [((cpuGetAReg w 0 + 16) % 2 ^ 32, 2)] ∧
    (∀ a, a ≠ (cpuGetAReg w 0 + 16) % 2 ^ 32 → a ≠ (cpuGetAReg w 0 + 17) % 2 ^ 32 →
      (GetFileInfo E K U trap w).world.mem a = w.mem a) ∧
    (∀ j, 18 ≤ j → j < 2 ^ 32 - 2 →
      memoryReadByte (GetFileInfo E K U trap w).world.mem (cpuGetAReg w 0 + j) =
        memoryReadByte w.mem (cpuGetAReg w 0 + j)) ∧
    (GetFileInfo E K U trap w).world.fs = w.fs := by
  have hg : GetFileInfo E K U trap w =
      .returned (errno_to_oserr E K e)
        (w.writeWord (errno_to_oserr E K e) (cpuGetAReg w 0 + 16)) := by
    unfold GetFileInfo
    simp only []
    rw [if_pos hidx, if_neg hptr, hstat]
  rw [hg]
  refine ⟨rfl, readWord_writeWord_errno _ _ _ _ _, rfl, ?_, ?_, rfl⟩
  · intro a h16 h17
    show memoryWriteWord w.mem _ _ a = w.mem a
    unfold memoryWriteWord memoryWriteByte
    rw [if_neg (by rw [Nat.add_assoc]; exact h17), if_neg h16]
  · intro j h18 hj
    show memoryReadByte (memoryWriteWord w.mem _ _) _ = _
    exact read_writeWord_off _ _ _ _ _ (by omega) (by omega) (by omega)

/-- C18 on the missing file "new": the result is `fnfErr`, and the first
Finder-info byte of the block is the 1 it was. -/
theorem C18_GetFileInfo_stat_failure_witness :
    (GetFileInfo darwin macOSErr id 0 worldMinusOne).result = some 65493 ∧
    memoryReadByte (GetFileInfo darwin macOSErr id 0 worldMinusOne).world.mem (1000 + 32) = 1 :=
  have h := C18_GetFileInfo_stat_failure darwin macOSErr id 0 worldMinusOne 2
    (by decide) (by decide) rfl
  ⟨h.1, (h.2.2.2.2.1 32 (by decide) (by decide)).trans (by decide)⟩

theorem toInt16_le_zero_iff (x : Nat) (hx : x < 65536) :
    toInt16 x ≤ 0 ↔ (x = 0 ∨ 32768 ≤ x) := by
  unfold toInt16
  rw [Nat.mod_eq_of_lt hx]
  split <;> omega

theorem memoryReadWord_lt (mem : Mem) (a : Nat) : memoryReadWord mem a < 65536 := by
  unfold memoryReadWord
  have h1 := memoryReadByte_lt mem a
  have h2 := memoryReadByte_lt mem (a + 1)
  omega

/-- A named lookup returns: `GetFileInfo` does not end the process on it. -/
theorem GetFileInfo_named_returns (E : Errno) (K : OSErr) (U : Int → Int) (trap : Nat)
    (w : World) (hidx : toInt16 (memoryReadWord w.mem (cpuGetAReg w 0 + 28)) ≤ 0) :
    ∃ d0, (GetFileInfo E K U trap w).result = some d0 := by
  by_cases hptr : memoryReadLong w.mem (cpuGetAReg w 0 + 18) = 0
  · refine ⟨u16 K.bdNamErr, ?_⟩
    unfold GetFileInfo
    simp only []
    rw [if_pos hidx, if_pos hptr]
    rfl
  · cases hstat : stat w.fs
        (c_str (ReadPString w.mem (memoryReadLong w.mem (cpuGetAReg w 0 + 18)))) with
    | error e =>
      refine ⟨errno_to_oserr E K e, ?_⟩
      unfold GetFileInfo
      simp only []
      rw [if_pos hidx, if_neg hptr, hstat]
      rfl
    | ok st => exact ⟨0, (GetFileInfo_found E K U trap w st hidx hptr hstat).1⟩

/-- An indexed lookup ends the process with status 1, the state untouched. -/
theorem GetFileInfo_indexed (E : Errno) (K : OSErr) (U : Int → Int) (trap : Nat)
    (w : World) (hidx : ¬ toInt16 (memoryReadWord w.mem (cpuGetAReg w 0 + 28)) ≤ 0) :
    GetFileInfo E K U trap w = .exited 1 w := by
  unfold GetFileInfo
  simp only []
  rw [if_neg hidx]

/-- C19. `GetFileInfo` reads the 16-bit directory index at block offset 28 as a
signed two's-complement value: with `x` the raw word there, the named lookup is
taken (the handler returns a result code) if and only if `x = 0` or
`x >= 0x8000`, and the indexed enumeration that is not implemented is taken
(the handler ends the process) if and only if `1 <= x <= 0x7FFF`. -/
theorem C19_GetFileInfo_signed_index (E : Errno) (K : OSErr) (U : Int → Int) (trap : Nat)
    (w : World) :
    ((∃ d0, (GetFileInfo E K U trap w).result = some d0) ↔
      (memoryReadWord w.mem (cpuGetAReg w 0 + 28) = 0 ∨
        0x8000 ≤ memoryReadWord w.mem (cpuGetAReg w 0 + 28))) ∧
    (GetFileInfo E K U trap w = .exited 1 w ↔
      (1 ≤ memoryReadWord w.mem (cpuGetAReg w 0 + 28) ∧
        memoryReadWord w.mem (cpuGetAReg w 0 + 28) ≤ 0x7FFF)) := by
  have hiff := toInt16_le_zero_iff _ (memoryReadWord_lt w.mem (cpuGetAReg w 0 + 28))
  by_cases hidx : toInt16 (memoryReadWord w.mem (cpuGetAReg w 0 + 28)) ≤ 0
  · have hx := hiff.mp hidx
    obtain ⟨d0, hd0⟩ := GetFileInfo_named_returns E K U trap w hidx
    refine ⟨⟨fun _ => hx, fun _ => ⟨d0, hd0⟩⟩, ⟨fun h => ?_, fun h => ?_⟩⟩
    · rw [h] at hd0
      exact absurd hd0 (by simp [Outcome.result])
    · omega
  · have hx : ¬ (memoryReadWord w.mem (cpuGetAReg w 0 + 28) = 0 ∨
        32768 ≤ memoryReadWord w.mem (cpuGetAReg w 0 + 28)) := fun h => hidx (hiff.mpr h)
    have hex := GetFileInfo_indexed E K U trap w hidx
    refine ⟨⟨fun h => ?_, fun h => absurd h hx⟩, ⟨fun _ => by omega, fun _ => hex⟩⟩
    obtain ⟨d0, hd0⟩ := h
    rw [hex] at hd0
    exact absurd hd0 (by simp [Outcome.result])

/-- C19 on the raw words 0xFFFF and 1: the first is a named lookup that returns,
the second ends the process. -/
theorem C19_GetFileInfo_signed_index_witness :
    memoryReadWord worldMinusOne.mem (cpuGetAReg worldMinusOne 0 + 28) = 0xFFFF ∧
    (∃ d0, (GetFileInfo darwin macOSErr id 0 worldMinusOne).result = some d0) ∧
    memoryReadWord worldIndexed.mem (cpuGetAReg worldIndexed 0 + 28) = 1 ∧
    GetFileInfo darwin macOSErr id 0 worldIndexed = .exited 1 worldIndexed :=
  ⟨by decide,
   (C19_GetFileInfo_signed_index darwin macOSErr id 0 worldMinusOne).1.mpr
     (Or.inr (by decide)),
   by decide,
   (C19_GetFileInfo_signed_index darwin macOSErr id 0 worldIndexed).2.mpr
     ⟨by decide, by decide⟩⟩

/-- C15, as the code has it. For every block whose directory index (offset 28) is
greater than 0, `GetFileInfo` ends the process with exit status 1: it returns
no result code and stores nothing, the result field included. -/
theorem C15_GetFileInfo_indexed_exits (E : Errno) (K : OSErr) (U : Int → Int) (trap : Nat)
    (w : World) (hidx : 0 < toInt16 (memoryReadWord w.mem (cpuGetAReg w 0 + 28))) :
    GetFileInfo E K U trap w = .exited 1 w ∧
    (GetFileInfo E K U trap w).result = none ∧
    (GetFileInfo E K U trap w).world.mem = w.mem ∧
    (GetFileInfo E K U trap w).world.stores = w.stores := by
  have h := GetFileInfo_indexed E K U trap w (not_le.mpr hidx)
  rw [h]
  exact ⟨rfl, rfl, rfl, rfl⟩

/-- C15 on a block with directory index 1: the process ends with status 1. -/
theorem C15_GetFileInfo_indexed_exits_witness :
    0 < toInt16 (memoryReadWord worldIndexed.mem (cpuGetAReg worldIndexed 0 + 28)) ∧
    (GetFileInfo darwin macOSErr id 0 worldIndexed).result = none :=
  ⟨by decide, (C15_GetFileInfo_indexed_exits darwin macOSErr id 0 worldIndexed (by decide)).2.1⟩

/-- C15 fails as stated on a block with directory index 1: `GetFileInfo` returns
no result code to its caller, it ends the process with status 1, and the result
field of the block is not written. -/
theorem C15_counterexample :
    memoryReadWord worldIndexed.mem (cpuGetAReg worldIndexed 0 + 28) = 1 ∧
    (GetFileInfo darwin macOSErr id 0 worldIndexed).result = none ∧
    (GetFileInfo darwin macOSErr id 0 worldIndexed).world.stores = [] ∧
    ¬ ∃ d0 w', GetFileInfo darwin macOSErr id 0 worldIndexed = .returned d0 w' := by
  refine ⟨by decide, by decide, by decide, ?_⟩
  rintro ⟨d0, w', h⟩
  have hr : (GetFileInfo darwin macOSErr id 0 worldIndexed).result = none := by decide
  rw [h] at hr
  exact absurd hr (by simp [Outcome.result])

/-! ## C17: what `SetFileInfo` changes on the host -/

/-- C17. For every existing path on which `SetFileInfo` returns `noErr` (the
attribute stored before, if any, being at most 32 bytes long): the Finder-info
attribute stored afterwards is 32 bytes long, its bytes 0..15 are the bytes at
block offsets 32..47 and its bytes 16..31 are bytes 16..31 of the attribute
stored before the call (zeros where that attribute was absent); the size and
the time stamps of the file are as before, every other path resolves as
before, and so do the descriptors. (Every failure of the host is taken to be
reported with an error number other than 0 that translates to a code other
than 0.) -/
theorem C17_SetFileInfo_frame (E : Errno) (K : OSErr) (trap : Nat) (w : World) (f : File)
    (hK : ∀ e : Int, e ≠ 0 → errno_to_oserr E K e ≠ 0)
    (hptr : memoryReadLong w.mem (cpuGetAReg w 0 + 18) ≠ 0)
    (hstat : stat w.fs (c_str (ReadPString w.mem (memoryReadLong w.mem (cpuGetAReg w 0 + 18))))
      = .ok f)
    (hx : w.fs.setxattrErr
      (c_str (ReadPString w.mem (memoryReadLong w.mem (cpuGetAReg w 0 + 18)))) ≠ some 0)
    (hattr : ∀ v, f.finderInfo = some v → v.length ≤ 32)
    (hret : (SetFileInfo E K trap w).1 = noErr) :
    (∃ f' v', stat (SetFileInfo E K trap w).2.fs
        (c_str (ReadPString w.mem (memoryReadLong w.mem (cpuGetAReg w 0 + 18)))) = .ok f' ∧
      f'.finderInfo = some v' ∧ v'.length = 32 ∧
      (∀ i, i < 16 → v'.getD i 0 = memoryReadByte w.mem (cpuGetAReg w 0 + 32 + i)) ∧
      (∀ i, 16 ≤ i → i < 32 → v'.getD i 0 = (f.finderInfo.getD []).getD i 0) ∧
      f'.st_size = f.st_size ∧ f'.st_birthtime = f.st_birthtime ∧ f'.st_mtime = f.st_mtime) ∧
    (∀ p, p ≠ c_str (ReadPString w.mem (memoryReadLong w.mem (cpuGetAReg w 0 + 18))) →
      stat (SetFileInfo E K trap w).2.fs p = stat w.fs p) ∧
    (SetFileInfo E K trap w).2.fs.fdSize = w.fs.fdSize := by
  have hstored := SetFileInfo_stored E K trap w f hK hptr hstat hx hret
  have hlenF : (ReadString w.mem (cpuGetAReg w 0 + 32) 16).length = 16 := ReadString_length _ _ _
  rw [hstored]
  refine ⟨⟨{ f with
      finderInfo := some (ReadString w.mem (cpuGetAReg w 0 + 32) 16 ++
        (getxattr w.fs
          (c_str (ReadPString w.mem (memoryReadLong w.mem (cpuGetAReg w 0 + 18))))
          (List.replicate 32 0)).drop 16) },
    ReadString w.mem (cpuGetAReg w 0 + 32) 16 ++
        (getxattr w.fs
          (c_str (ReadPString w.mem (memoryReadLong w.mem (cpuGetAReg w 0 + 18))))
          (List.replicate 32 0)).drop 16,
    by simp only [stat, HostFS.put, if_true], rfl, ?_, ?_, ?_, rfl, rfl, rfl⟩, ?_, rfl⟩
  · rw [List.length_append, hlenF, List.length_drop, getxattr_length, List.length_replicate]
  · intro i hi
    rw [List.getD_append _ _ _ _ (by omega), ReadString_getD _ _ _ _ hi]
  · intro i h16 hi
    rw [List.getD_append_right _ _ _ _ (by omega), hlenF, List.getD_eq_getElem?_getD,
      List.getElem?_drop, ← List.getD_eq_getElem?_getD, show 16 + (i - 16) = i by omega,
      getxattr_getD _ _ f i hstat hattr]
  · intro p hp
    simp only [stat, HostFS.put, if_neg hp]

/-- C17 on the file "a.o" without a stored attribute, the block holding the
Finder info 1, 2, .., 16: the attribute stored has 4 as byte 3 and 0 as byte 20,
and the size of the file is still 5. -/
theorem C17_SetFileInfo_frame_witness :
    (SetFileInfo darwin macOSErr 0 worldDotO).1 = noErr ∧
    ∃ f' v', stat (SetFileInfo darwin macOSErr 0 worldDotO).2.fs (lit "a.o") = .ok f' ∧
      f'.finderInfo = some v' ∧ v'.getD 3 0 = 4 ∧ v'.getD 20 0 = 0 ∧ f'.st_size = 5 :=
  have h := C17_SetFileInfo_frame darwin macOSErr 0 worldDotO
    { st_size := 5, st_birthtime := 1000, st_mtime := 2000, finderInfo := none }
    darwin_translation_nonzero (by decide) rfl (by decide) (by intro v hv; cases hv) (by decide)
  ⟨by decide,
   match h.1 with
   | ⟨f', v', h1, h2, _, h4, h5, h6, _, _⟩ =>
     ⟨f', v', h1, h2, (h4 3 (by decide)).trans (by decide),
      (h5 20 (by decide) (by decide)).trans (by decide), h6⟩⟩

/-! ## C20: `CmpString` returning 0 is an equivalence -/

theorem foldByte_pred (cs : Bool) (x y : Nat) :
    (if x = y then true
      else decide ((if ¬ (cs = true) then toupper x else x) =
        (if ¬ (cs = true) then toupper y else y))) = true ↔
      foldByte cs x = foldByte cs y := by
  cases cs <;> by_cases h : x = y <;> simp [foldByte, h]

theorem map_eq_of_getD (g : Nat → Nat) (a b : Str) (hlen : a.length = b.length)
    (h : ∀ i, i < a.length → g (a.getD i 0) = g (b.getD i 0)) : a.map g = b.map g := by
  induction a generalizing b with
  | nil => cases b <;> simp_all
  | cons x xs ih =>
    cases b with
    | nil => simp at hlen
    | cons y ys =>
      simp only [List.length_cons, Nat.add_right_cancel_iff] at hlen
      have h0 : g x = g y := by simpa using h 0 (by simp)
      have ht := ih ys hlen fun i hi => by simpa using h (i + 1) (by simpa using hi)
      simp [h0, ht]

theorem getD_of_map_eq (g : Nat → Nat) (a b : Str) (h : a.map g = b.map g) (i : Nat)
    (hi : i < a.length) : g (a.getD i 0) = g (b.getD i 0) := by
  have hlen : a.length = b.length := by simpa using congrArg List.length h
  have hi' : i < b.length := by omega
  have := congrArg (fun l => l[i]?) h
  simpa [List.getD_eq_getElem?_getD, List.getElem?_eq_getElem hi,
    List.getElem?_eq_getElem hi'] using this

/-- The handler `CmpString` returns 0 exactly when the two strings read agree
byte by byte after folding. -/
theorem CmpString_zero_iff (trap : Nat) (w : World) :
    CmpString trap w = 0 ↔
      (ReadString w.mem (cpuGetAReg w 0) (cpuGetDReg w 0 / 65536)).map
          (foldByte (decide ((trap % 65536 / 512) % 2 ≠ 0))) =
        (ReadString w.mem (cpuGetAReg w 1) (cpuGetDReg w 0 % 65536)).map
          (foldByte (decide ((trap % 65536 / 512) % 2 ≠ 0))) := by
  have hform : CmpString trap w =
      if cpuGetDReg w 0 / 65536 ≠ cpuGetDReg w 0 % 65536 then 1
      else if cpuGetAReg w 0 = cpuGetAReg w 1 then 0
      else if std_equal
          (fun x y => if x = y then true
            else decide ((if ¬ (decide ((trap % 65536 / 512) % 2 ≠ 0) = true) then toupper x
              else x) =
              (if ¬ (decide ((trap % 65536 / 512) % 2 ≠ 0) = true) then toupper y else y)))
          (ReadString w.mem (cpuGetAReg w 0) (cpuGetDReg w 0 / 65536))
          (ReadString w.mem (cpuGetAReg w 1) (cpuGetDReg w 0 % 65536)) = true then 0
        else 1 := rfl
  rw [hform]
  have h := cmp_core
    (fun x y => if x = y then true
      else decide ((if ¬ (decide ((trap % 65536 / 512) % 2 ≠ 0) = true) then toupper x else x) =
        (if ¬ (decide ((trap % 65536 / 512) % 2 ≠ 0) = true) then toupper y else y)))
    (cpuGetDReg w 0 / 65536) (cpuGetDReg w 0 % 65536) (cpuGetAReg w 0) (cpuGetAReg w 1)
    (ReadString w.mem (cpuGetAReg w 0) (cpuGetDReg w 0 / 65536))
    (ReadString w.mem (cpuGetAReg w 1) (cpuGetDReg w 0 % 65536))
    (ReadString_length _ _ _) (ReadString_length _ _ _)
    (fun h1 h2 => by rw [h1, h2]) (fun x => by simp)
  rw [h]
  simp only [foldByte_pred]
  constructor
  · rintro ⟨hl, hall⟩
    apply map_eq_of_getD
    · simp [ReadString_length, hl]
    · intro i hi
      rw [ReadString_length] at hi
      exact hall i hi
  · intro hmap
    have hl : cpuGetDReg w 0 / 65536 = cpuGetDReg w 0 % 65536 := by
      simpa [ReadString_length] using congrArg List.length hmap
    refine ⟨hl, fun i hi => ?_⟩
    exact getD_of_map_eq _ _ _ hmap i (by rw [ReadString_length]; exact hi)

theorem CmpString_zero_or_one (trap : Nat) (w : World) :
    CmpString trap w = 0 ∨ CmpString trap w = 1 := by
  unfold CmpString
  simp only []
  split_ifs <;> simp

/-- The strings `CmpString` reads once the registers are set. -/
theorem CmpString_setRegs (trap : Nat) (w : World) (pa pb la lb : Nat) (hla : la < 65536)
    (hlb : lb < 65536) :
    CmpString trap (setRegs w pa pb (la * 65536 + lb)) = 0 ↔
      (ReadString w.mem (pa % 2 ^ 32) la).map (foldByte (decide ((trap % 65536 / 512) % 2 ≠ 0))) =
        (ReadString w.mem (pb % 2 ^ 32) lb).map
          (foldByte (decide ((trap % 65536 / 512) % 2 ≠ 0))) := by
  rw [CmpString_zero_iff]
  have ha : cpuGetAReg (setRegs w pa pb (la * 65536 + lb)) 0 = pa % 2 ^ 32 := rfl
  have hb : cpuGetAReg (setRegs w pa pb (la * 65536 + lb)) 1 = pb % 2 ^ 32 := rfl
  have hd : cpuGetDReg (setRegs w pa pb (la * 65536 + lb)) 0 = (la * 65536 + lb) % 2 ^ 32 := rfl
  have hm : (setRegs w pa pb (la * 65536 + lb)).mem = w.mem := rfl
  have h1 : (la * 65536 + lb) % 2 ^ 32 / 65536 = la := by omega
  have h2 : (la * 65536 + lb) % 2 ^ 32 % 65536 = lb := by omega
  rw [ha, hb, hd, hm, h1, h2]

/-- C20. For each fixed trap word, hence each case mode, with the strings given
by their addresses and lengths (below 2^16) in one guest memory: `CmpString`
returning 0 is reflexive (also for two copies of one byte sequence at different
addresses), symmetric (swapping the two addresses and the two halves of D0
gives the same result), and transitive; and two strings that compare equal
under a trap word with bit 9 set also compare equal under one with bit 9
clear. -/
theorem C20_CmpString_equivalence (trap : Nat) (w : World) (pa pb pc la lb lc : Nat)
    (hla : la < 65536) (hlb : lb < 65536) (hlc : lc < 65536) :
    CmpString trap (setRegs w pa pa (la * 65536 + la)) = 0 ∧
    (ReadString w.mem (pa % 2 ^ 32) la = ReadString w.mem (pb % 2 ^ 32) lb →
      CmpString trap (setRegs w pa pb (la * 65536 + lb)) = 0) ∧
    CmpString trap (setRegs w pa pb (la * 65536 + lb)) =
      CmpString trap (setRegs w pb pa (lb * 65536 + la)) ∧
    (CmpString trap (setRegs w pa pb (la * 65536 + lb)) = 0 →
      CmpString trap (setRegs w pb pc (lb * 65536 + lc)) = 0 →
      CmpString trap (setRegs w pa pc (la * 65536 + lc)) = 0) ∧
    (∀ trap', (trap % 65536 / 512) % 2 = 1 → (trap' % 65536 / 512) % 2 = 0 →
      CmpString trap (setRegs w pa pb (la * 65536 + lb)) = 0 →
      CmpString trap' (setRegs w pa pb (la * 65536 + lb)) = 0) := by
  refine ⟨?_, ?_, ?_, ?_, ?_⟩
  · rw [CmpString_setRegs trap w pa pa la la hla hla]
  · intro h
    rw [CmpString_setRegs trap w pa pb la lb hla hlb, h]
  · have hab := CmpString_setRegs trap w pa pb la lb hla hlb
    have hba := CmpString_setRegs trap w pb pa lb la hlb hla
    rcases CmpString_zero_or_one trap (setRegs w pa pb (la * 65536 + lb)) with h1 | h1 <;>
      rcases CmpString_zero_or_one trap (setRegs w pb pa (lb * 65536 + la)) with h2 | h2
    · rw [h1, h2]
    · have := hba.mpr (hab.mp h1).symm
      omega
    · have := hab.mpr (hba.mp h2).symm
      omega
    · rw [h1, h2]
  · intro h1 h2
    rw [CmpString_setRegs trap w pa pb la lb hla hlb] at h1
    rw [CmpString_setRegs trap w pb pc lb lc hlb hlc] at h2
    rw [CmpString_setRegs trap w pa pc la lc hla hlc]
    exact h1.trans h2
  · intro trap' hs hi h
    rw [CmpString_setRegs trap w pa pb la lb hla hlb] at h
    rw [CmpString_setRegs trap' w pa pb la lb hla hlb]
    have e1 : decide ((trap % 65536 / 512) % 2 ≠ 0) = true := by simp [hs]
    have e2 : decide ((trap' % 65536 / 512) % 2 ≠ 0) = false := by simp [hi]
    rw [e1] at h
    rw [e2]
    have hid : (foldByte true) = id := by
      funext c
      simp [foldByte]
    rw [hid, List.map_id, List.map_id] at h
    rw [h]

/-- C20 in the memory of `worldABC` ("ABC" at 100, "abc" at 103): in
case-insensitive mode "ABC" against "abc" and "abc" against "ABC" both give 0. -/
theorem C20_CmpString_equivalence_witness :
    CmpString 0xA03C (setRegs worldABC 100 103 (3 * 65536 + 3)) = 0 ∧
    CmpString 0xA03C (setRegs worldABC 103 100 (3 * 65536 + 3)) = 0 ∧
    CmpString 0xA03C (setRegs worldABC 100 100 (3 * 65536 + 3)) = 0 :=
  have h := C20_CmpString_equivalence 0xA03C worldABC 100 103 100 3 3 3
    (by decide) (by decide) (by decide)
  ⟨by decide, h.2.2.1.symm.trans (by decide), h.1⟩

/-! ## C14: one store at the result field -/

theorem resultStores_single (w w0 : World) (d0 : Nat) (hs : w0.stores = w.stores) :
    resultStores w (w0.writeWord d0 (cpuGetAReg w 0 + 16)) = 1 := by
  unfold resultStores
  rw [writeWord_stores, hs, List.drop_left]
  simp

theorem pair_ne_width (a b m n : Nat) (h : m ≠ n) : ((a, m) : Nat × Nat) ≠ (b, n) :=
  fun e => h (Prod.mk.inj e).2

theorem pair_ne_addr (a b m n : Nat) (h : a ≠ b) : ((a, m) : Nat × Nat) ≠ (b, n) :=
  fun e => h (Prod.mk.inj e).1

theorem count_last (l : List (Nat × Nat)) (x : Nat × Nat) (h : ∀ y ∈ l, y ≠ x) :
    (l ++ [x]).count x = 1 := by
  rw [List.count_append, List.count_singleton_self,
    List.count_eq_zero_of_not_mem (fun hx => h x hx rfl)]

theorem count_first (l : List (Nat × Nat)) (x : Nat × Nat) (h : ∀ y ∈ l, y ≠ x) :
    (x :: l).count x = 1 := by
  rw [List.count_cons_self, List.count_eq_zero_of_not_mem (fun hx => h x hx rfl)]

theorem read_writeWord_hi (mem : Mem) (d a : Nat) :
    memoryReadByte (memoryWriteWord mem d a) a = d / 256 % 256 := by
  unfold memoryWriteWord
  rw [read_writeByte, if_neg (by omega), read_writeByte, if_pos rfl]

theorem read_writeWord_lo (mem : Mem) (d a : Nat) :
    memoryReadByte (memoryWriteWord mem d a) (a + 1) = d % 256 := by
  unfold memoryWriteWord
  rw [read_writeByte, if_pos rfl]

theorem readWord_result (w0 : World) (d0 a : Nat) (h : d0 < 65536) :
    memoryReadWord (w0.writeWord d0 a).mem a = d0 := by
  rw [writeWord_mem, readWord_writeWord]
  exact Nat.mod_eq_of_lt h

theorem open_creat_excl_errno (E : Errno) (fs : HostFS) (p : Str) (e : Int)
    (hE : E.labels.Nodup) (hfs : fs.errnoNonzero) (h : open_creat_excl E fs p = .error e) :
    e ≠ 0 := by
  have hEX : E.EEXIST ≠ 0 := by
    simp only [Errno.labels, List.nodup_cons, List.mem_cons, not_or] at hE
    exact fun h0 => hE.1.2.2.2.2.2.2.2.2.1 h0.symm
  have hEN : E.ENOENT ≠ 0 := by
    simp only [Errno.labels, List.nodup_cons, List.mem_cons, not_or] at hE
    exact fun h0 => hE.1.2.2.2.1 h0.symm
  unfold open_creat_excl at h
  cases hf : fs.file p with
  | ok f =>
    rw [hf] at h
    simp only [Except.error.injEq] at h
    rw [← h]
    exact hEX
  | error e' =>
    rw [hf] at h
    simp only [] at h
    by_cases hen : e' = E.ENOENT
    · rw [if_pos hen] at h
      by_cases hp : p = []
      · rw [if_pos hp] at h
        simp only [Except.error.injEq] at h
        rw [← h]
        exact hEN
      · rw [if_neg hp] at h
        cases hc : fs.createErr p with
        | none =>
          rw [hc] at h
          exact absurd h (by simp)
        | some e'' =>
          rw [hc] at h
          simp only [Except.error.injEq] at h
          rw [← h]
          intro h0
          exact hfs.2.2.1 p (by rw [hc, h0])
    · rw [if_neg hen] at h
      simp only [Except.error.injEq] at h
      rw [← h]
      intro h0
      exact hfs.1 p (by rw [hf, h0])

theorem unlink_errno (E : Errno) (fs : HostFS) (p : Str) (e : Int)
    (hfs : fs.errnoNonzero) (h : unlink E fs p = .error e) : e ≠ 0 := by
  unfold unlink at h
  cases hf : fs.file p with
  | error e' =>
    rw [hf] at h
    simp only [Except.error.injEq] at h
    rw [← h]
    intro h0
    exact hfs.1 p (by rw [hf, h0])
  | ok f =>
    rw [hf] at h
    simp only [] at h
    cases hc : fs.unlinkErr p with
    | none =>
      rw [hc] at h
      exact absurd h (by simp)
    | some e'' =>
      rw [hc] at h
      simp only [Except.error.injEq] at h
      rw [← h]
      intro h0
      exact hfs.2.2.2.1 p (by rw [hc, h0])

theorem setxattr_errno (fs : HostFS) (p v : Str) (e : Int)
    (hfs : fs.errnoNonzero) (h : setxattr fs p v = .error e) : e ≠ 0 := by
  unfold setxattr at h
  cases hf : fs.file p with
  | error e' =>
    rw [hf] at h
    simp only [Except.error.injEq] at h
    rw [← h]
    intro h0
    exact hfs.1 p (by rw [hf, h0])
  | ok f =>
    rw [hf] at h
    simp only [] at h
    cases hc : fs.setxattrErr p with
    | none =>
      rw [hc] at h
      exact absurd h (by simp)
    | some e'' =>
      rw [hc] at h
      simp only [Except.error.injEq] at h
      rw [← h]
      intro h0
      exact hfs.2.2.2.2 p (by rw [hc, h0])

/-- The result field after `Create`. -/
theorem Create_result_field (E : Errno) (K : OSErr) (trap : Nat) (w : World)
    (hE : E.labels.Nodup) (hK0 : u16 K.bdNamErr ≠ 0)
    (hK : ∀ e : Int, e ≠ 0 → errno_to_oserr E K e ≠ 0) (hfs : w.fs.errnoNonzero) :
    resultStores w (Create E K trap w).2 = 1 ∧
    memoryReadWord (Create E K trap w).2.mem (cpuGetAReg w 0 + 16) = (Create E K trap w).1 ∧
    ((Create E K trap w).1 = 0 ↔
      (ReadPString w.mem (memoryReadLong w.mem (cpuGetAReg w 0 + 18)) ≠ [] ∧
        ∃ fs', open_creat_excl E w.fs
          (c_str (ReadPString w.mem (memoryReadLong w.mem (cpuGetAReg w 0 + 18)))) = .ok fs')) := by
  by_cases hname : ReadPString w.mem (memoryReadLong w.mem (cpuGetAReg w 0 + 18)) = []
  · have hg : Create E K trap w =
        (u16 K.bdNamErr, w.writeWord (u16 K.bdNamErr) (cpuGetAReg w 0 + 16)) := by
      unfold Create
      simp only []
      rw [hname, if_pos (by rfl : ([] : Str).length = 0)]
    rw [hg]
    refine ⟨resultStores_single w w _ rfl, readWord_result _ _ _ (u16_lt _), ?_⟩
    exact ⟨fun h => absurd h hK0, fun h => absurd hname h.1⟩
  · cases ho : open_creat_excl E w.fs
        (c_str (ReadPString w.mem (memoryReadLong w.mem (cpuGetAReg w 0 + 18)))) with
    | error e =>
      have hg : Create E K trap w =
          (errno_to_oserr E K e, w.writeWord (errno_to_oserr E K e) (cpuGetAReg w 0 + 16)) := by
        unfold Create
        simp only []
        rw [if_neg (length_ne_zero_of_ne_nil _ hname), ho]
        simp only [Nat.mod_eq_of_lt (errno_to_oserr_lt E K e)]
      rw [hg]
      refine ⟨resultStores_single w w _ rfl, readWord_result _ _ _ (errno_to_oserr_lt E K e), ?_⟩
      refine ⟨fun h => absurd h (hK e (open_creat_excl_errno E _ _ e hE hfs ho)), ?_⟩
      rintro ⟨-, fs', h⟩
      exact absurd h (by simp)
    | ok r =>
      have hg : Create E K trap w =
          (0, ({ w with fs := close E r.2 r.1 } : World).writeWord 0 (cpuGetAReg w 0 + 16)) := by
        unfold Create
        simp only []
        rw [if_neg (length_ne_zero_of_ne_nil _ hname), ho]
      rw [hg]
      exact ⟨resultStores_single w _ _ rfl, readWord_result _ _ _ (by decide),
        fun _ => ⟨hname, r, rfl⟩, fun _ => rfl⟩

/-- The result field after `Delete`. -/
theorem Delete_result_field (E : Errno) (K : OSErr) (trap : Nat) (w : World)
    (hK0 : u16 K.bdNamErr ≠ 0)
    (hK : ∀ e : Int, e ≠ 0 → errno_to_oserr E K e ≠ 0) (hfs : w.fs.errnoNonzero) :
    resultStores w (Delete E K trap w).2 = 1 ∧
    memoryReadWord (Delete E K trap w).2.mem (cpuGetAReg w 0 + 16) = (Delete E K trap w).1 ∧
    ((Delete E K trap w).1 = 0 ↔
      (ReadPString w.mem (memoryReadLong w.mem (cpuGetAReg w 0 + 18)) ≠ [] ∧
        ∃ fs', unlink E w.fs
          (c_str (ReadPString w.mem (memoryReadLong w.mem (cpuGetAReg w 0 + 18)))) = .ok fs')) := by
  by_cases hname : ReadPString w.mem (memoryReadLong w.mem (cpuGetAReg w 0 + 18)) = []
  · have hg : Delete E K trap w =
        (u16 K.bdNamErr, w.writeWord (u16 K.bdNamErr) (cpuGetAReg w 0 + 16)) := by
      unfold Delete
      simp only []
      rw [hname, if_pos (by rfl : ([] : Str).length = 0)]
    rw [hg]
    refine ⟨resultStores_single w w _ rfl, readWord_result _ _ _ (u16_lt _), ?_⟩
    exact ⟨fun h => absurd h hK0, fun h => absurd hname h.1⟩
  · cases ho : unlink E w.fs
        (c_str (ReadPString w.mem (memoryReadLong w.mem (cpuGetAReg w 0 + 18)))) with
    | error e =>
      have hg : Delete E K trap w =
          (errno_to_oserr E K e, w.writeWord (errno_to_oserr E K e) (cpuGetAReg w 0 + 16)) := by
        unfold Delete
        simp only []
        rw [if_neg (length_ne_zero_of_ne_nil _ hname), ho]
        simp only [Nat.mod_eq_of_lt (errno_to_oserr_lt E K e)]
      rw [hg]
      refine ⟨resultStores_single w w _ rfl, readWord_result _ _ _ (errno_to_oserr_lt E K e), ?_⟩
      refine ⟨fun h => absurd h (hK e (unlink_errno E _ _ e hfs ho)), ?_⟩
      rintro ⟨-, fs', h⟩
      exact absurd h (by simp)
    | ok fs' =>
      have hg : Delete E K trap w =
          (0, ({ w with fs := fs' } : World).writeWord 0 (cpuGetAReg w 0 + 16)) := by
        unfold Delete
        simp only []
        rw [if_neg (length_ne_zero_of_ne_nil _ hname), ho]
      rw [hg]
      exact ⟨resultStores_single w _ _ rfl, readWord_result _ _ _ (by decide),
        fun _ => ⟨hname, fs', rfl⟩, fun _ => rfl⟩

/-- The result field after `GetEOF`. -/
theorem GetEOF_result_field (E : Errno) (K : OSErr) (trap : Nat) (w : World)
    (hK : ∀ e : Int, e ≠ 0 → errno_to_oserr E K e ≠ 0) (hfs : w.fs.errnoNonzero) :
    resultStores w (GetEOF E K trap w).2 = 1 ∧
    memoryReadWord (GetEOF E K trap w).2.mem (cpuGetAReg w 0 + 16) = (GetEOF E K trap w).1 ∧
    ((GetEOF E K trap w).1 = 0 ↔
      ∃ st_size, fstat w.fs (memoryReadWord w.mem (cpuGetAReg w 0 + 24)) = .ok st_size) := by
  have hcount : ∀ w1 : World, w1.stores = w.stores ++
      [((cpuGetAReg w 0 + 16) % 2 ^ 32, 2), ((cpuGetAReg w 0 + 28) % 2 ^ 32, 4)] →
      resultStores w w1 = 1 := by
    intro w1 h1
    unfold resultStores
    rw [h1, List.drop_left]
    apply count_first
    intro y hy
    simp only [List.mem_singleton] at hy
    rw [hy]
    exact pair_ne_width _ _ _ _ (by decide)
  cases hr : fstat w.fs (memoryReadWord w.mem (cpuGetAReg w 0 + 24)) with
  | ok sz =>
    have hg : GetEOF E K trap w = (0, (w.writeWord 0 (cpuGetAReg w 0 + 16)).writeLong
        (sz % 2 ^ 64) (cpuGetAReg w 0 + 28)) := by
      unfold GetEOF
      simp only [hr]
    rw [hg]
    refine ⟨hcount _ ?_, ?_, fun _ => ⟨sz, rfl⟩, fun _ => rfl⟩
    · simp only [writeLong_stores, writeWord_stores, List.append_assoc, List.cons_append,
        List.nil_append]
    · simp only [writeLong_mem, writeWord_mem]
      exact (readWord_writeLong_off _ _ _ _ _ (by omega) (by omega) (by omega)).trans
        (readWord_writeWord _ _ _)
  | error e =>
    have hg : GetEOF E K trap w = (errno_to_oserr E K e,
        (w.writeWord (errno_to_oserr E K e) (cpuGetAReg w 0 + 16)).writeLong 0
          (cpuGetAReg w 0 + 28)) := by
      unfold GetEOF
      simp only [hr]
      rw [Nat.mod_eq_of_lt (errno_to_oserr_lt E K e)]
    have he : e ≠ 0 := fun h0 => hfs.2.1 _ (by rw [← h0]; exact hr)
    rw [hg]
    refine ⟨hcount _ ?_, ?_, fun h => absurd h (hK e he), ?_⟩
    · simp only [writeLong_stores, writeWord_stores, List.append_assoc, List.cons_append,
        List.nil_append]
    · simp only [writeLong_mem, writeWord_mem]
      exact (readWord_writeLong_off _ _ _ _ _ (by omega) (by omega) (by omega)).trans
        (readWord_writeWord_errno _ _ _ _ _)
    · rintro ⟨sz, h⟩
      exact absurd h (by simp)

/-- The result field after `GetVol`: one 16-bit store of 0 at offset 16, then
the store at offset 22 and the copy of the volume name to the name buffer. -/
theorem GetVol_result_field (trap : Nat) (w : World) :
    resultStores w (GetVol trap w).2 = 1 ∧
    (GetVol trap w).1 = 0 ∧
    (GetVol trap w).2 =
      WritePString ((w.writeWord 0 (cpuGetAReg w 0 + 16)).writeWord 0 (cpuGetAReg w 0 + 22))
        (memoryReadLong w.mem (cpuGetAReg w 0 + 18)) (lit "MacOS") ∧
    memoryReadWord (w.writeWord 0 (cpuGetAReg w 0 + 16)).mem (cpuGetAReg w 0 + 16) = 0 ∧
    ((∀ i, i < 6 →
        (memoryReadLong w.mem (cpuGetAReg w 0 + 18) + i) % 2 ^ 32
          ≠ (cpuGetAReg w 0 + 16) % 2 ^ 32 ∧
        (memoryReadLong w.mem (cpuGetAReg w 0 + 18) + i) % 2 ^ 32
          ≠ (cpuGetAReg w 0 + 17) % 2 ^ 32) →
      memoryReadWord (GetVol trap w).2.mem (cpuGetAReg w 0 + 16) = 0) := by
  have hg : GetVol trap w = (0,
      WritePString ((w.writeWord 0 (cpuGetAReg w 0 + 16)).writeWord 0 (cpuGetAReg w 0 + 22))
        (memoryReadLong w.mem (cpuGetAReg w 0 + 18)) (lit "MacOS")) := rfl
  have h22 : (cpuGetAReg w 0 + 22) % 2 ^ 32 ≠ (cpuGetAReg w 0 + 16) % 2 ^ 32 := by omega
  rw [hg]
  refine ⟨?_, rfl, rfl, readWord_result _ _ _ (by decide), ?_⟩
  · unfold resultStores WritePString
    rw [writeBytes_stores, writeWord_stores, writeWord_stores, List.append_assoc,
      List.append_assoc, List.drop_left]
    simp only [List.cons_append, List.nil_append]
    apply count_first
    intro y hy
    simp only [List.mem_cons, List.mem_singleton, List.not_mem_nil, or_false] at hy
    rcases hy with rfl | rfl
    · exact pair_ne_addr _ _ _ _ h22
    · exact pair_ne_width _ _ _ _ (by decide)
  · intro hno
    unfold WritePString
    simp only [writeBytes_mem, writeWord_mem]
    have hl : ((lit "MacOS").length % 256 :: lit "MacOS").length = 6 := by decide
    have hb0 : memoryReadByte (memoryWriteBytes
        (memoryWriteWord (memoryWriteWord w.mem 0 (cpuGetAReg w 0 + 16)) 0 (cpuGetAReg w 0 + 22))
        ((lit "MacOS").length % 256 :: lit "MacOS") (memoryReadLong w.mem (cpuGetAReg w 0 + 18)))
        (cpuGetAReg w 0 + 16) = 0 := by
      rw [read_writeBytes_out _ _ _ (cpuGetAReg w 0 + 16) (fun i hi h =>
          (hno i (by rw [hl] at hi; exact hi)).1 h.symm),
        read_writeWord_off _ _ _ 16 22 (by omega) (by omega) (by omega)]
      exact read_writeWord_hi _ _ _
    have hb1 : memoryReadByte (memoryWriteBytes
        (memoryWriteWord (memoryWriteWord w.mem 0 (cpuGetAReg w 0 + 16)) 0 (cpuGetAReg w 0 + 22))
        ((lit "MacOS").length % 256 :: lit "MacOS") (memoryReadLong w.mem (cpuGetAReg w 0 + 18)))
        (cpuGetAReg w 0 + 16 + 1) = 0 := by
      rw [read_writeBytes_out _ _ _ (cpuGetAReg w 0 + 16 + 1) (fun i hi h =>
          (hno i (by rw [hl] at hi; exact hi)).2 (by rw [Nat.add_assoc] at h; exact h.symm)),
        Nat.add_assoc, read_writeWord_off _ _ _ (16 + 1) 22 (by omega) (by omega) (by omega),
        ← Nat.add_assoc]
      exact read_writeWord_lo _ _ _
    unfold memoryReadWord
    rw [hb0, hb1]

/-- The result field after a named lookup by `GetFileInfo`. -/
theorem GetFileInfo_result_field (E : Errno) (K : OSErr) (U : Int → Int) (trap : Nat)
    (w : World) (hK0 : u16 K.bdNamErr ≠ 0)
    (hK : ∀ e : Int, e ≠ 0 → errno_to_oserr E K e ≠ 0) (hfs : w.fs.errnoNonzero)
    (hidx : toInt16 (memoryReadWord w.mem (cpuGetAReg w 0 + 28)) ≤ 0) :
    resultStores w (GetFileInfo E K U trap w).world = 1 ∧
    (GetFileInfo E K U trap w).result =
      some (memoryReadWord (GetFileInfo E K U trap w).world.mem (cpuGetAReg w 0 + 16)) ∧
    ((GetFileInfo E K U trap w).result = some 0 ↔
      (memoryReadLong w.mem (cpuGetAReg w 0 + 18) ≠ 0 ∧
        ∃ st, stat w.fs
          (c_str (ReadPString w.mem (memoryReadLong w.mem (cpuGetAReg w 0 + 18)))) = .ok st)) := by
  by_cases hptr : memoryReadLong w.mem (cpuGetAReg w 0 + 18) = 0
  · have hg : GetFileInfo E K U trap w =
        .returned (u16 K.bdNamErr) (w.writeWord (u16 K.bdNamErr) (cpuGetAReg w 0 + 16)) := by
      unfold GetFileInfo
      simp only []
      rw [if_pos hidx, if_pos hptr]
    rw [hg]
    refine ⟨resultStores_single w w _ rfl, ?_, ?_⟩
    · simp only [Outcome.result, Outcome.world]
      rw [readWord_result _ _ _ (u16_lt _)]
    · simp only [Outcome.result, Option.some.injEq]
      exact ⟨fun h => absurd h hK0, fun h => absurd hptr h.1⟩
  · cases hstat : stat w.fs
        (c_str (ReadPString w.mem (memoryReadLong w.mem (cpuGetAReg w 0 + 18)))) with
    | error e =>
      have hg : GetFileInfo E K U trap w =
          .returned (errno_to_oserr E K e)
            (w.writeWord (errno_to_oserr E K e) (cpuGetAReg w 0 + 16)) := by
        unfold GetFileInfo
        simp only []
        rw [if_pos hidx, if_neg hptr, hstat]
      have he : e ≠ 0 := fun h0 => hfs.1 _ (by rw [← h0]; exact hstat)
      rw [hg]
      refine ⟨resultStores_single w w _ rfl, ?_, ?_⟩
      · simp only [Outcome.result, Outcome.world]
        rw [readWord_result _ _ _ (errno_to_oserr_lt E K e)]
      · simp only [Outcome.result, Option.some.injEq]
        refine ⟨fun h => absurd h (hK e he), ?_⟩
        rintro ⟨-, st, h⟩
        exact absurd h (by simp)
    | ok st =>
      have hres := (GetFileInfo_found E K U trap w st hidx hptr hstat).1
      have hmem := GetFileInfo_found_mem E K U trap w st hidx hptr hstat
      have hsto := GetFileInfo_found_stores E K U trap w st hidx hptr hstat
      have h24 : (cpuGetAReg w 0 + 24) % 2 ^ 32 ≠ (cpuGetAReg w 0 + 16) % 2 ^ 32 := by omega
      have h52 : (cpuGetAReg w 0 + 52) % 2 ^ 32 ≠ (cpuGetAReg w 0 + 16) % 2 ^ 32 := by omega
      have h62 : (cpuGetAReg w 0 + 62) % 2 ^ 32 ≠ (cpuGetAReg w 0 + 16) % 2 ^ 32 := by omega
      refine ⟨?_, ?_, fun _ => ⟨hptr, st, rfl⟩, fun _ => hres⟩
      · unfold resultStores
        rw [hsto, List.drop_left]
        apply count_last
          [((cpuGetAReg w 0 + 32) % 2 ^ 32, 16), ((cpuGetAReg w 0 + 24) % 2 ^ 32, 2),
           ((cpuGetAReg w 0 + 30) % 2 ^ 32, 1), ((cpuGetAReg w 0 + 31) % 2 ^ 32, 1),
           ((cpuGetAReg w 0 + 48) % 2 ^ 32, 4), ((cpuGetAReg w 0 + 52) % 2 ^ 32, 2),
           ((cpuGetAReg w 0 + 54) % 2 ^ 32, 4), ((cpuGetAReg w 0 + 58) % 2 ^ 32, 4),
           ((cpuGetAReg w 0 + 72) % 2 ^ 32, 4), ((cpuGetAReg w 0 + 76) % 2 ^ 32, 4),
           ((cpuGetAReg w 0 + 62) % 2 ^ 32, 2), ((cpuGetAReg w 0 + 64) % 2 ^ 32, 4),
           ((cpuGetAReg w 0 + 68) % 2 ^ 32, 4)]
        intro y hy
        simp only [List.mem_cons, List.mem_singleton, List.not_mem_nil, or_false] at hy
        rcases hy with rfl | rfl | rfl | rfl | rfl | rfl | rfl | rfl | rfl | rfl | rfl | rfl | rfl
        all_goals first
          | exact pair_ne_width _ _ _ _ (by decide)
          | exact pair_ne_addr _ _ _ _ h24
          | exact pair_ne_addr _ _ _ _ h52
          | exact pair_ne_addr _ _ _ _ h62
      · rw [hres, hmem, readWord_writeWord]

/-- The result field after `SetFileInfo`. -/
theorem SetFileInfo_result_field (E : Errno) (K : OSErr) (trap : Nat) (w : World)
    (hK0 : u16 K.bdNamErr ≠ 0)
    (hK : ∀ e : Int, e ≠ 0 → errno_to_oserr E K e ≠ 0) (hfs : w.fs.errnoNonzero) :
    resultStores w (SetFileInfo E K trap w).2 = 1 ∧
    memoryReadWord (SetFileInfo E K trap w).2.mem (cpuGetAReg w 0 + 16)
      = (SetFileInfo E K trap w).1 ∧
    ((SetFileInfo E K trap w).1 = 0 ↔
      (memoryReadLong w.mem (cpuGetAReg w 0 + 18) ≠ 0 ∧
        (∃ st, stat w.fs
          (c_str (ReadPString w.mem (memoryReadLong w.mem (cpuGetAReg w 0 + 18)))) = .ok st) ∧
        ∃ fs', setxattr w.fs
          (c_str (ReadPString w.mem (memoryReadLong w.mem (cpuGetAReg w 0 + 18))))
          (ReadString w.mem (cpuGetAReg w 0 + 32) 16 ++
            (getxattr w.fs
              (c_str (ReadPString w.mem (memoryReadLong w.mem (cpuGetAReg w 0 + 18))))
              (List.replicate 32 0)).drop 16) = .ok fs')) := by
  by_cases hptr : memoryReadLong w.mem (cpuGetAReg w 0 + 18) = 0
  · have hg : SetFileInfo E K trap w =
        (u16 K.bdNamErr, w.writeWord (u16 K.bdNamErr) (cpuGetAReg w 0 + 16)) := by
      unfold SetFileInfo
      simp only []
      rw [if_pos hptr]
    rw [hg]
    refine ⟨resultStores_single w w _ rfl, readWord_result _ _ _ (u16_lt _), ?_⟩
    exact ⟨fun h => absurd h hK0, fun h => absurd hptr h.1⟩
  · cases hstat : stat w.fs
        (c_str (ReadPString w.mem (memoryReadLong w.mem (cpuGetAReg w 0 + 18)))) with
    | error e =>
      have hg : SetFileInfo E K trap w =
          (errno_to_oserr E K e, w.writeWord (errno_to_oserr E K e) (cpuGetAReg w 0 + 16)) := by
        unfold SetFileInfo
        simp only []
        rw [if_neg hptr, hstat]
      have he : e ≠ 0 := fun h0 => hfs.1 _ (by rw [← h0]; exact hstat)
      rw [hg]
      refine ⟨resultStores_single w w _ rfl, readWord_result _ _ _ (errno_to_oserr_lt E K e), ?_⟩
      refine ⟨fun h => absurd h (hK e he), ?_⟩
      rintro ⟨-, ⟨st, h⟩, -⟩
      exact absurd h (by simp)
    | ok st =>
      cases hset : setxattr w.fs
          (c_str (ReadPString w.mem (memoryReadLong w.mem (cpuGetAReg w 0 + 18))))
          (ReadString w.mem (cpuGetAReg w 0 + 32) 16 ++
            (getxattr w.fs
              (c_str (ReadPString w.mem (memoryReadLong w.mem (cpuGetAReg w 0 + 18))))
              (List.replicate 32 0)).drop 16) with
      | error e =>
        have hg : SetFileInfo E K trap w =
            (errno_to_oserr E K e,
              w.writeWord (errno_to_oserr E K e) (cpuGetAReg w 0 + 16)) := by
          unfold SetFileInfo
          simp only []
          rw [if_neg hptr, hstat]
          simp only []
          rw [hset]
        rw [hg]
        refine ⟨resultStores_single w w _ rfl,
          readWord_result _ _ _ (errno_to_oserr_lt E K e), ?_⟩
        refine ⟨fun h => absurd h (hK e (setxattr_errno _ _ _ e hfs hset)), ?_⟩
        rintro ⟨-, -, fs', h⟩
        exact absurd h (by simp)
      | ok fs' =>
        have hg : SetFileInfo E K trap w =
            (0, ({ w with fs := fs' } : World).writeWord 0 (cpuGetAReg w 0 + 16)) := by
          unfold SetFileInfo
          simp only []
          rw [if_neg hptr, hstat]
          simp only []
          rw [hset]
        rw [hg]
        exact ⟨resultStores_single w _ _ rfl, readWord_result _ _ _ (by decide),
          fun _ => ⟨hptr, ⟨st, rfl⟩, fs', rfl⟩, fun _ => rfl⟩

theorem emptyFS_errnoNonzero : emptyFS.errnoNonzero := by
  refine ⟨fun p h => ?_, fun fd h => ?_, fun p h => ?_, fun p h => ?_, fun p h => ?_⟩ <;>
    simp [emptyFS] at h

theorem hostWith_errnoNonzero (path : Str) (f : File) : (hostWith path f).errnoNonzero := by
  refine ⟨fun p h => ?_, fun fd h => ?_, fun p h => ?_, fun p h => ?_, fun p h => ?_⟩
  · simp only [hostWith, HostFS.put, emptyFS] at h
    split at h <;> simp at h
  all_goals simp [hostWith, HostFS.put, emptyFS] at h

/-- C14. For each of the six handlers and every state, every execution path makes
exactly one 16-bit store at the result field (offset 16 of the block), and the
value returned is the value stored there; the value is 0 exactly on the
success path. For `Create`, `Delete`, `GetEOF`, `SetFileInfo` and a named lookup
by `GetFileInfo` the result field holds the returned value at the end. `GetVol`
stores 0 there, returns 0, and then copies the volume name to the guest's name
buffer, so the result field still holds 0 at the end unless the guest has put
that buffer over it. (The host is taken to fail only with error numbers other
than 0, and `bdNamErr` and the translation of such an error number to be other
than 0.) -/
theorem C14_one_result_store (E : Errno) (K : OSErr) (U : Int → Int) (trap : Nat) (w : World)
    (hE : E.labels.Nodup) (hK0 : u16 K.bdNamErr ≠ 0)
    (hK : ∀ e : Int, e ≠ 0 → errno_to_oserr E K e ≠ 0) (hfs : w.fs.errnoNonzero) :
    (resultStores w (Create E K trap w).2 = 1 ∧
      memoryReadWord (Create E K trap w).2.mem (cpuGetAReg w 0 + 16) = (Create E K trap w).1 ∧
      ((Create E K trap w).1 = 0 ↔
        (ReadPString w.mem (memoryReadLong w.mem (cpuGetAReg w 0 + 18)) ≠ [] ∧
          ∃ fs', open_creat_excl E w.fs
            (c_str (ReadPString w.mem (memoryReadLong w.mem (cpuGetAReg w 0 + 18))))
              = .ok fs'))) ∧
    (resultStores w (Delete E K trap w).2 = 1 ∧
      memoryReadWord (Delete E K trap w).2.mem (cpuGetAReg w 0 + 16) = (Delete E K trap w).1 ∧
      ((Delete E K trap w).1 = 0 ↔
        (ReadPString w.mem (memoryReadLong w.mem (cpuGetAReg w 0 + 18)) ≠ [] ∧
          ∃ fs', unlink E w.fs
            (c_str (ReadPString w.mem (memoryReadLong w.mem (cpuGetAReg w 0 + 18))))
              = .ok fs'))) ∧
    (resultStores w (GetEOF E K trap w).2 = 1 ∧
      memoryReadWord (GetEOF E K trap w).2.mem (cpuGetAReg w 0 + 16) = (GetEOF E K trap w).1 ∧
      ((GetEOF E K trap w).1 = 0 ↔
        ∃ st_size, fstat w.fs (memoryReadWord w.mem (cpuGetAReg w 0 + 24)) = .ok st_size)) ∧
    (resultStores w (GetVol trap w).2 = 1 ∧
      (GetVol trap w).1 = 0 ∧
      (GetVol trap w).2 =
        WritePString ((w.writeWord 0 (cpuGetAReg w 0 + 16)).writeWord 0 (cpuGetAReg w 0 + 22))
          (memoryReadLong w.mem (cpuGetAReg w 0 + 18)) (lit "MacOS") ∧
      memoryReadWord (w.writeWord 0 (cpuGetAReg w 0 + 16)).mem (cpuGetAReg w 0 + 16) = 0 ∧
      ((∀ i, i < 6 →
          (memoryReadLong w.mem (cpuGetAReg w 0 + 18) + i) % 2 ^ 32
            ≠ (cpuGetAReg w 0 + 16) % 2 ^ 32 ∧
          (memoryReadLong w.mem (cpuGetAReg w 0 + 18) + i) % 2 ^ 32
            ≠ (cpuGetAReg w 0 + 17) % 2 ^ 32) →
        memoryReadWord (GetVol trap w).2.mem (cpuGetAReg w 0 + 16) = 0)) ∧
    (toInt16 (memoryReadWord w.mem (cpuGetAReg w 0 + 28)) ≤ 0 →
      resultStores w (GetFileInfo E K U trap w).world = 1 ∧
      (GetFileInfo E K U trap w).result =
        some (memoryReadWord (GetFileInfo E K U trap w).world.mem (cpuGetAReg w 0 + 16)) ∧
      ((GetFileInfo E K U trap w).result = some 0 ↔
        (memoryReadLong w.mem (cpuGetAReg w 0 + 18) ≠ 0 ∧
          ∃ st, stat w.fs
            (c_str (ReadPString w.mem (memoryReadLong w.mem (cpuGetAReg w 0 + 18))))
              = .ok st))) ∧
    (resultStores w (SetFileInfo E K trap w).2 = 1 ∧
      memoryReadWord (SetFileInfo E K trap w).2.mem (cpuGetAReg w 0 + 16)
        = (SetFileInfo E K trap w).1 ∧
      ((SetFileInfo E K trap w).1 = 0 ↔
        (memoryReadLong w.mem (cpuGetAReg w 0 + 18) ≠ 0 ∧
          (∃ st, stat w.fs
            (c_str (ReadPString w.mem (memoryReadLong w.mem (cpuGetAReg w 0 + 18))))
              = .ok st) ∧
          ∃ fs', setxattr w.fs
            (c_str (ReadPString w.mem (memoryReadLong w.mem (cpuGetAReg w 0 + 18))))
            (ReadString w.mem (cpuGetAReg w 0 + 32) 16 ++
              (getxattr w.fs
                (c_str (ReadPString w.mem (memoryReadLong w.mem (cpuGetAReg w 0 + 18))))
                (List.replicate 32 0)).drop 16) = .ok fs'))) := by
  refine ⟨?_, ?_, ?_, ?_, ?_, ?_⟩
  · exact Create_result_field E K trap w hE hK0 hK hfs
  · exact Delete_result_field E K trap w hK0 hK hfs
  · exact GetEOF_result_field E K trap w hK hfs
  · exact GetVol_result_field trap w
  · intro hidx
    exact GetFileInfo_result_field E K U trap w hK0 hK hfs hidx
  · exact SetFileInfo_result_field E K trap w hK0 hK hfs

/-- C14 on the block that names the existing file "a.c": `Create` makes one
store at the result field and returns what it stored, `dupFNErr`; the lookup by
`GetFileInfo` makes one store there among its fourteen and returns 0. -/
theorem C14_one_result_store_witness :
    darwin.labels.Nodup ∧ u16 macOSErr.bdNamErr ≠ 0 ∧
    resultStores worldDotC (Create darwin macOSErr 0 worldDotC).2 = 1 ∧
    memoryReadWord (Create darwin macOSErr 0 worldDotC).2.mem (1000 + 16) = 65488 ∧
    resultStores worldDotC (GetFileInfo darwin macOSErr id 0 worldDotC).world = 1 ∧
    (GetFileInfo darwin macOSErr id 0 worldDotC).world.stores.length = 14 ∧
    (GetFileInfo darwin macOSErr id 0 worldDotC).result = some 0 :=
  have h := C14_one_result_store darwin macOSErr id 0 worldDotC (by decide) (by decide)
    darwin_translation_nonzero (hostWith_errnoNonzero _ _)
  ⟨by decide, by decide, h.1.1, h.1.2.1.trans (by decide), (h.2.2.2.2.1 (by decide)).1,
   by decide, by decide⟩

end OS
